import Mathlib

/-!
# Face verification core: shallow embedding and verified properties

The definitions below transcribe the C sources of the decision core
(`target_embedding.c`, `face_utils.c`, `pd_pp_model.c`, `main.c`,
`enhanced_pc_stream.c`).

Conventions of the embedding:

* `float` / `float32_t` values are read as elements of a linearly ordered field `K`
  (the theorems take `K = ℝ` where a square root is involved, the concrete
  evaluations take `K = ℚ`).  The libm functions `sqrtf` and `expf` are parameters.
* A C array or pointer is the function from the index to the element stored there;
  a store is `Function.update`; a nullable pointer is an `Option`.
* Unsigned machine integers are `Nat` with an explicit `% 2 ^ w` where the source
  can wrap.
* A `for` loop is a left fold over `List.range`; a loop with an early `return`
  is a recursive function over the remaining iterations.
-/

namespace FaceRec

/-! ## target_embedding.c -/

/-- The constant `EMBEDDING_SIZE` of target_embedding.h. -/
def EMBEDDING_SIZE : Nat := 128

/-- The constant `EMBEDDING_BANK_SIZE` of target_embedding.h. -/
def EMBEDDING_BANK_SIZE : Nat := 10

/-- The file-scope variables of target_embedding.c: `target_embedding`,
`embedding_bank` and `bank_count` (an `int` that is only ever set to 0 and
incremented, hence a `Nat`). -/
structure BankState (K : Type) where
  target_embedding : Nat → K
  embedding_bank : Nat → Nat → K
  bank_count : Nat

/-- The accumulation loop `for (i = 0; i < n; i++) norm += v[i] * v[i];`
started from `norm = 0.f`, with the `float` operations read as the exact operations of the
ordered field `K`; `sum_squares_ops` is the same loop over given `float` operations. -/
def sum_squares {K : Type} [LinearOrderedField K] (v : Nat → K) (n : Nat) : K :=
  (List.range n).foldl (fun norm i => norm + v i * v i) 0

/-- The function `compute_target` of target_embedding.c, with the `float` operations read
as the exact operations of the ordered field `K` and `sqrtf` as a parameter;
`compute_target_ops` is the same function over given `float` operations, binary32 among
them, and agrees with this one on the exact operations (`compute_target_ops_exact`). -/
def compute_target {K : Type} [LinearOrderedField K] (sqrtf : K → K)
    (s : BankState K) : BankState K :=
  if s.bank_count = 0 then
    { s with target_embedding := fun i => if i < EMBEDDING_SIZE then 0 else s.target_embedding i }
  else
    let sum : Nat → K :=
      (List.range s.bank_count).foldl
        (fun sum n =>
          (List.range EMBEDDING_SIZE).foldl
            (fun sum i => Function.update sum i (sum i + s.embedding_bank n i)) sum)
        (fun _ => 0)
    let target1 : Nat → K :=
      (List.range EMBEDDING_SIZE).foldl
        (fun t i => Function.update t i (sum i / (s.bank_count : K))) s.target_embedding
    let norm := sqrtf (sum_squares target1 EMBEDDING_SIZE)
    if norm > 0 then
      let target2 : Nat → K :=
        (List.range EMBEDDING_SIZE).foldl
          (fun t i => Function.update t i (t i / norm)) target1
      { s with target_embedding := target2 }
    else
      { s with target_embedding := target1 }

/-- The function `embeddings_bank_init` of target_embedding.c. -/
def embeddings_bank_init {K : Type} [LinearOrderedField K] (s : BankState K) : BankState K :=
  { bank_count := 0
    embedding_bank := fun n i =>
      if n < EMBEDDING_BANK_SIZE ∧ i < EMBEDDING_SIZE then 0 else s.embedding_bank n i
    target_embedding := fun i => if i < EMBEDDING_SIZE then 0 else s.target_embedding i }

/-- The function `embeddings_bank_add` of target_embedding.c: the returned `int`
and the state it leaves, with the `float` operations read as the exact operations of the
ordered field `K` and `sqrtf` as a parameter; `embeddings_bank_add_ops` is the same
function over given `float` operations, binary32 among them, and agrees with this one on
the exact operations (`embeddings_bank_add_ops_exact`). -/
def embeddings_bank_add {K : Type} [LinearOrderedField K] (sqrtf : K → K)
    (s : BankState K) (embedding : Nat → K) : Int × BankState K :=
  if s.bank_count ≥ EMBEDDING_BANK_SIZE then
    (-1, s)
  else
    let norm := sqrtf (sum_squares embedding EMBEDDING_SIZE)
    if norm = 0 then
      (-1, s)
    else
      let bank : Nat → Nat → K :=
        (List.range EMBEDDING_SIZE).foldl
          (fun b i =>
            Function.update b s.bank_count
              (Function.update (b s.bank_count) i (embedding i / norm)))
          s.embedding_bank
      let s1 : BankState K := { s with embedding_bank := bank, bank_count := s.bank_count + 1 }
      let s2 := compute_target sqrtf s1
      ((s2.bank_count : Int), s2)

/-- The function `embeddings_bank_reset` of target_embedding.c. -/
def embeddings_bank_reset {K : Type} [LinearOrderedField K] (s : BankState K) : BankState K :=
  embeddings_bank_init s

/-- The function `embeddings_bank_count` of target_embedding.c. -/
def embeddings_bank_count {K : Type} (s : BankState K) : Int :=
  (s.bank_count : Int)

/-! ## face_utils.c -/

/-- The function `embedding_cosine_similarity` of face_utils.c.  The float division of
the last line is the parameter `fdiv`, so that a result that does not depend on
`fdiv` is a result obtained without dividing. -/
def embedding_cosine_similarity {K : Type} [LinearOrderedField K]
    (fdiv : K → K → K) (sqrtf : K → K)
    (emb1 emb2 : Option (Nat → K)) (len : Nat) : K :=
  match emb1, emb2 with
  | some e1, some e2 =>
    if len = 0 then 0
    else
      let acc : K × K × K :=
        (List.range len).foldl
          (fun (acc : K × K × K) i =>
            let val1 := e1 i
            let val2 := e2 i
            (acc.1 + val1 * val2, acc.2.1 + val1 * val1, acc.2.2 + val2 * val2))
          (0, 0, 0)
      let dot_product := acc.1
      let norm1_squared := acc.2.1
      let norm2_squared := acc.2.2
      if norm1_squared = 0 ∨ norm2_squared = 0 then 0
      else fdiv dot_product (sqrtf (norm1_squared * norm2_squared))
  | _, _ => 0

/-- The constant `FACE_SIMILARITY_THRESHOLD` of app_constants.h, `0.55f`: the binary32
value nearest to 0.55, which is 9227469 / 2^24. -/
def FACE_SIMILARITY_THRESHOLD {K : Type} [LinearOrderedField K] : K := 9227469 / 16777216

/-- The constant `FACE_DETECTION_CONFIDENCE_THRESHOLD` of app_constants.h, `0.7f`: the
binary32 value nearest to 0.7, which is 11744051 / 2^24. -/
def FACE_DETECTION_CONFIDENCE_THRESHOLD {K : Type} [LinearOrderedField K] : K :=
  11744051 / 16777216

/-! ## pd_pp_model.c: box decoding and non-maximum suppression -/

/-- The type `pd_pp_point_t`, as its fields are used in pd_pp_model.c. -/
structure pd_pp_point_t (K : Type) where
  x : K
  y : K
deriving DecidableEq

/-- The type `pd_pp_box_t`, as its fields are used in pd_pp_model.c.  The pointer
`pKps` is the index, in the keypoint memory, of the first keypoint of the box. -/
structure pd_pp_box_t (K : Type) where
  prob : K
  x_center : K
  y_center : K
  width : K
  height : K
  pKps : Nat
deriving DecidableEq

/-- The type `pd_model_pp_in_t`: the four detector tensors. -/
structure pd_model_pp_in_t (K : Type) where
  pScale : Nat → K
  pLms : Nat → K
  pHeatmap : Nat → K
  pOffset : Nat → K

/-- The type `pd_model_pp_static_param_t` (the unused `pAnchors` left out). -/
structure pd_model_pp_static_param_t (K : Type) where
  width : Nat
  height : Nat
  nb_keypoints : Nat
  conf_threshold : K
  iou_threshold : K
  nb_total_boxes : Nat
  max_boxes_limit : Nat

/-- The type `pd_postprocess_out_t`: the box array `pOutData`, the count `box_nb`,
and the memory `kps` the `pKps` pointers of the boxes point into. -/
structure pd_postprocess_out_t (K : Type) where
  box_nb : Nat
  pOutData : Nat → pd_pp_box_t K
  kps : Nat → pd_pp_point_t K

/-- The boxes an output structure reports: the first `box_nb` entries of `pOutData`. -/
def box_list {K : Type} (out : pd_postprocess_out_t K) : List (pd_pp_box_t K) :=
  (List.range out.box_nb).map out.pOutData

/-- The return code `AI_PD_POSTPROCESS_ERROR_NO`. -/
def AI_PD_POSTPROCESS_ERROR_NO : Int := 0

/-- The function `pd_pp_nms_comparator` of pd_pp_model.c. -/
def pd_pp_nms_comparator {K : Type} [LinearOrderedField K]
    (box1 box2 : pd_pp_box_t K) : Int :=
  if box1.prob < box2.prob then 1
  else if box1.prob > box2.prob then -1
  else 0

/-- The function `pd_pp_compute_opposite_corners_from_box` of pd_pp_model.c: the pair
`(corners[0], corners[1])`. -/
def pd_pp_compute_opposite_corners_from_box {K : Type} [LinearOrderedField K]
    (box : pd_pp_box_t K) : pd_pp_point_t K × pd_pp_point_t K :=
  ({ x := box.x_center - box.width / 2, y := box.y_center - box.height / 2 },
   { x := box.x_center + box.width / 2, y := box.y_center + box.height / 2 })

/-- The function `pd_pp_compute_iou` of pd_pp_model.c (the two-iteration loops are
written out; `MIN` and `MAX` are `min` and `max`), with the `float` operations read as the
exact operations of the ordered field `K`; `pd_pp_compute_iou_ops` is the same function
over given `float` operations, binary32 among them, and agrees with this one on the exact
operations (`pd_pp_compute_iou_ops_exact`). -/
def pd_pp_compute_iou {K : Type} [LinearOrderedField K] (box0 box1 : pd_pp_box_t K) : K :=
  let corners0 := pd_pp_compute_opposite_corners_from_box box0
  let corners1 := pd_pp_compute_opposite_corners_from_box box1
  let xmin0 := min corners0.1.x corners0.2.x
  let xmax0 := max corners0.1.x corners0.2.x
  let ymin0 := min corners0.1.y corners0.2.y
  let ymax0 := max corners0.1.y corners0.2.y
  let xmin1 := min corners1.1.x corners1.2.x
  let xmax1 := max corners1.1.x corners1.2.x
  let ymin1 := min corners1.1.y corners1.2.y
  let ymax1 := max corners1.1.y corners1.2.y
  let area0 := (ymax0 - ymin0) * (xmax0 - xmin0)
  let area1 := (ymax1 - ymin1) * (xmax1 - xmin1)
  if area0 ≤ 0 ∨ area1 ≤ 0 then 0
  else
    let intersect_xmin := max xmin0 xmin1
    let intersect_ymin := max ymin0 ymin1
    let intersect_xmax := min xmax0 xmax1
    let intersect_ymax := min ymax0 ymax1
    let intersect_area :=
      max (intersect_ymax - intersect_ymin) 0 * max (intersect_xmax - intersect_xmin) 0
    intersect_area / (area0 + area1 - intersect_area)

/-- The box fields written by `pd_pp_decode` for the grid cell `(y, x)` into the
slot that currently holds `slot` (its `pKps` pointer is not written). -/
def pd_pp_decode_box {K : Type} [LinearOrderedField K] (expf : K → K)
    (pInput : pd_model_pp_in_t K) (pInput_static_param : pd_model_pp_static_param_t K)
    (y x : Nat) (slot : pd_pp_box_t K) : pd_pp_box_t K :=
  let width : K := (pInput_static_param.width : K)
  let height : K := (pInput_static_param.height : K)
  let grid := 32
  let index_h := y * grid + x
  let score := pInput.pHeatmap index_h
  let s0 := expf (pInput.pScale (index_h * 2 + 0)) * 4.0
  let s1 := expf (pInput.pScale (index_h * 2 + 1)) * 4.0
  let o0 := pInput.pOffset (index_h * 2 + 0)
  let o1 := pInput.pOffset (index_h * 2 + 1)
  let x1 := ((x : K) + o1 + 0.5) * 4.0 - s1 / 2.0
  let y1 := ((y : K) + o0 + 0.5) * 4.0 - s0 / 2.0
  let x1 := if x1 < 0 then 0 else x1
  let y1 := if y1 < 0 then 0 else y1
  let x2 := x1 + s1
  let y2 := y1 + s0
  { slot with
    prob := score
    x_center := ((x1 + x2) * 0.5) / width
    y_center := ((y1 + y2) * 0.5) / height
    width := s1 / width
    height := s0 / height }

/-- The keypoint `pBox->pKps[j]` written by `pd_pp_decode` for the grid cell `(y, x)`. -/
def pd_pp_decode_kp {K : Type} [LinearOrderedField K] (expf : K → K)
    (pInput : pd_model_pp_in_t K) (pInput_static_param : pd_model_pp_static_param_t K)
    (y x j : Nat) : pd_pp_point_t K :=
  let width : K := (pInput_static_param.width : K)
  let height : K := (pInput_static_param.height : K)
  let grid := 32
  let index_h := y * grid + x
  let s0 := expf (pInput.pScale (index_h * 2 + 0)) * 4.0
  let s1 := expf (pInput.pScale (index_h * 2 + 1)) * 4.0
  let o0 := pInput.pOffset (index_h * 2 + 0)
  let o1 := pInput.pOffset (index_h * 2 + 1)
  let x1 := ((x : K) + o1 + 0.5) * 4.0 - s1 / 2.0
  let y1 := ((y : K) + o0 + 0.5) * 4.0 - s0 / 2.0
  let x1 := if x1 < 0 then 0 else x1
  let y1 := if y1 < 0 then 0 else y1
  let lm_y := pInput.pLms (index_h * pInput_static_param.nb_keypoints * 2 + j * 2 + 0)
  let lm_x := pInput.pLms (index_h * pInput_static_param.nb_keypoints * 2 + j * 2 + 1)
  { x := (lm_x * s1 + x1) / width, y := (lm_y * s0 + y1) / height }

/-- The body of the `if (score > conf_threshold)` of `pd_pp_decode` up to and
including `box_nb++`: the box and its keypoints are stored in slot `box_nb`. -/
def pd_pp_decode_cell {K : Type} [LinearOrderedField K] (expf : K → K)
    (pInput : pd_model_pp_in_t K) (pInput_static_param : pd_model_pp_static_param_t K)
    (y x : Nat) (out : pd_postprocess_out_t K) : pd_postprocess_out_t K :=
  let pBox := pd_pp_decode_box expf pInput pInput_static_param y x (out.pOutData out.box_nb)
  { box_nb := out.box_nb + 1
    pOutData := Function.update out.pOutData out.box_nb pBox
    kps :=
      (List.range pInput_static_param.nb_keypoints).foldl
        (fun kps j =>
          Function.update kps (pBox.pKps + j)
            (pd_pp_decode_kp expf pInput pInput_static_param y x j))
        out.kps }

/-- The two nested grid loops of `pd_pp_decode`, over the remaining cells `(y, x)` in
raster order, with the early `return` once `box_nb >= max_boxes_limit`.  The local
counter `box_nb` is carried in the `box_nb` field, which the source stores on both
exits. -/
def pd_pp_decode_loop {K : Type} [LinearOrderedField K] (expf : K → K)
    (pInput : pd_model_pp_in_t K) (pInput_static_param : pd_model_pp_static_param_t K) :
    List (Nat × Nat) → pd_postprocess_out_t K → pd_postprocess_out_t K
  | [], out => out
  | (y, x) :: rest, out =>
    if pInput.pHeatmap (y * 32 + x) > pInput_static_param.conf_threshold then
      let out1 := pd_pp_decode_cell expf pInput pInput_static_param y x out
      if out1.box_nb ≥ pInput_static_param.max_boxes_limit then out1
      else pd_pp_decode_loop expf pInput pInput_static_param rest out1
    else pd_pp_decode_loop expf pInput pInput_static_param rest out

/-- The iteration space of the grid loops of `pd_pp_decode`:
`for (y = 0; y < 32; y++) for (x = 0; x < 32; x++)`. -/
def pd_pp_grid_cells : List (Nat × Nat) :=
  (List.range 32).flatMap (fun y => (List.range 32).map (fun x => (y, x)))

/-- The function `pd_pp_decode` of pd_pp_model.c: the return code and the output. -/
def pd_pp_decode {K : Type} [LinearOrderedField K] (expf : K → K)
    (pInput : pd_model_pp_in_t K) (pOutput : pd_postprocess_out_t K)
    (pInput_static_param : pd_model_pp_static_param_t K) :
    Int × pd_postprocess_out_t K :=
  (AI_PD_POSTPROCESS_ERROR_NO,
    pd_pp_decode_loop expf pInput pInput_static_param pd_pp_grid_cells
      { pOutput with box_nb := 0 })

/-- The body of the filtering loop `for (size_t i = 0; i < box_nb; i++)` of
`pd_pp_nms`, on the pair `(pd_boxes, hand_nb)`. -/
def pd_pp_nms_body {K : Type} [LinearOrderedField K] (iou_threshold : K)
    (st : (Nat → pd_pp_box_t K) × Nat) (i : Nat) : (Nat → pd_pp_box_t K) × Nat :=
  let pd_boxes := st.1
  let hand_nb := st.2
  let skip_box :=
    (List.range hand_nb).any
      (fun j => decide (pd_pp_compute_iou (pd_boxes i) (pd_boxes j) ≥ iou_threshold))
  if skip_box then st
  else (Function.update pd_boxes hand_nb (pd_boxes i), hand_nb + 1)

/-- The function `pd_pp_nms` of pd_pp_model.c: the returned count and the output.
The library `qsort` is a parameter: it is handed the comparator and the first
`box_nb` boxes and its result is stored back in their place. -/
def pd_pp_nms {K : Type} [LinearOrderedField K]
    (qsort : (pd_pp_box_t K → pd_pp_box_t K → Int) → List (pd_pp_box_t K) →
      List (pd_pp_box_t K))
    (pOutput : pd_postprocess_out_t K)
    (pInput_static_param : pd_model_pp_static_param_t K) :
    Nat × pd_postprocess_out_t K :=
  let box_nb := pOutput.box_nb
  let sorted := qsort pd_pp_nms_comparator (box_list pOutput)
  let pd_boxes : Nat → pd_pp_box_t K := fun i => sorted.getD i (pOutput.pOutData i)
  let st : (Nat → pd_pp_box_t K) × Nat :=
    (List.range box_nb).foldl (pd_pp_nms_body pInput_static_param.iou_threshold) (pd_boxes, 0)
  (st.2, { pOutput with box_nb := st.2, pOutData := st.1 })

/-- The greedy filter in the words of the specification: scan the boxes in order and
keep a box only if its IOU against every already-kept box is below the threshold. -/
def greedy_nms {K : Type} [LinearOrderedField K] (iou_threshold : K)
    (boxes : List (pd_pp_box_t K)) : List (pd_pp_box_t K) :=
  boxes.foldl
    (fun kept b =>
      if kept.any (fun k => decide (pd_pp_compute_iou b k ≥ iou_threshold)) then kept
      else kept ++ [b])
    []

/-- The library sort used in the concrete evaluations: insertion sort by the
comparator. -/
def insertion_qsort {K : Type} (cmp : pd_pp_box_t K → pd_pp_box_t K → Int)
    (l : List (pd_pp_box_t K)) : List (pd_pp_box_t K) :=
  l.insertionSort (fun a b => cmp a b ≤ 0)

/-- Three rational boxes: two coincident unit squares of confidence 1/2 and 9/10 and a
distant one of confidence 7/10. -/
def nms_example_boxes : Nat → pd_pp_box_t ℚ := fun i =>
  if i = 0 then { prob := 1/2, x_center := 1, y_center := 1, width := 1, height := 1, pKps := 0 }
  else if i = 1 then
    { prob := 9/10, x_center := 1, y_center := 1, width := 1, height := 1, pKps := 5 }
  else { prob := 7/10, x_center := 5, y_center := 5, width := 1, height := 1, pKps := 10 }

/-- An output structure holding the three example boxes. -/
def nms_example_output : pd_postprocess_out_t ℚ :=
  { box_nb := 3, pOutData := nms_example_boxes, kps := fun _ => { x := 0, y := 0 } }

/-- Static parameters of the application (app_config.h) with IOU threshold 3/10. -/
def nms_example_param : pd_model_pp_static_param_t ℚ :=
  { width := 128, height := 128, nb_keypoints := 5, conf_threshold := 1/2,
    iou_threshold := 3/10, nb_total_boxes := 1024, max_boxes_limit := 10 }

/-- Detector tensors in which every cell has heat score 1 and all other entries are 0. -/
def decode_example_input : pd_model_pp_in_t ℚ :=
  { pScale := fun _ => 0, pLms := fun _ => 0, pHeatmap := fun _ => 1, pOffset := fun _ => 0 }

/-- An output structure as `app_postprocess_init` leaves it: slot `i` points at
keypoint row `i` (5 keypoints per row); all values zero. -/
def decode_example_output : pd_postprocess_out_t ℚ :=
  { box_nb := 0
    pOutData := fun i =>
      { prob := 0, x_center := 0, y_center := 0, width := 0, height := 0, pKps := 5 * i }
    kps := fun _ => { x := 0, y := 0 } }

/-- Static parameters with `max_boxes_limit = 0`. -/
def decode_example_param_zero : pd_model_pp_static_param_t ℚ :=
  { width := 128, height := 128, nb_keypoints := 5, conf_threshold := 1/2,
    iou_threshold := 3/10, nb_total_boxes := 1024, max_boxes_limit := 0 }

/-- Static parameters with `max_boxes_limit = 10`, as in app_config.h. -/
def decode_example_param : pd_model_pp_static_param_t ℚ :=
  { width := 128, height := 128, nb_keypoints := 5, conf_threshold := 1/2,
    iou_threshold := 3/10, nb_total_boxes := 1024, max_boxes_limit := 10 }

/-! ## enhanced_pc_stream.c: the framed telemetry protocol -/

/-- The constant `ROBUST_SOF_BYTE`. -/
def ROBUST_SOF_BYTE : Nat := 0xAA

/-- The constant `ROBUST_HEADER_SIZE`. -/
def ROBUST_HEADER_SIZE : Nat := 4

/-- The constant `ROBUST_CRC_SIZE`. -/
def ROBUST_CRC_SIZE : Nat := 4

/-- The constant `ROBUST_MAX_PAYLOAD_SIZE`. -/
def ROBUST_MAX_PAYLOAD_SIZE : Nat := 64 * 1024

/-- The constant `ROBUST_MSG_HEADER_SIZE`. -/
def ROBUST_MSG_HEADER_SIZE : Nat := 3

/-- The type `protocol_stats_t` of enhanced_pc_stream.h (all fields `uint32_t`). -/
structure protocol_stats_t where
  packets_sent : Nat
  packets_received : Nat
  bytes_sent : Nat
  bytes_received : Nat
  crc_errors : Nat
  timeouts : Nat
  last_heartbeat : Nat
deriving DecidableEq, Repr

/-- The type `enhanced_protocol_ctx_t`: the state `g_protocol_ctx`. -/
structure enhanced_protocol_ctx_t where
  stats : protocol_stats_t
  initialized : Bool
  last_heartbeat_time : Nat
  sequence_counters : Nat → Nat

/-- The 32-bit word the little-endian core loads from four consecutive bytes at byte
offset `off` of the buffer `data`. -/
def load_word (data : Nat → Nat) (off : Nat) : Nat :=
  data off % 256 + data (off + 1) % 256 * 256 + data (off + 2) % 256 * 65536
    + data (off + 3) % 256 * 16777216

/-- The function `calculate_crc32` of enhanced_pc_stream.c.  The driver call
`HAL_CRC_Calculate(&hcrc, (uint32_t*)data, (length+3)/4)` is the parameter
`HAL_CRC_Calculate`, applied to the `(length+3)/4` words read from the buffer. -/
def calculate_crc32 (HAL_CRC_Calculate : List Nat → Nat) (data : Option (Nat → Nat))
    (length : Nat) : Nat :=
  match data with
  | none => 0
  | some d =>
    if length = 0 then 0
    else HAL_CRC_Calculate ((List.range ((length + 3) / 4)).map (fun w => load_word d (4 * w)))

/-- The function `get_next_sequence_id` of enhanced_pc_stream.c: the returned
`uint16_t` and the context with the pre-incremented counter. -/
def get_next_sequence_id (ctx : enhanced_protocol_ctx_t) (msg_type : Nat) :
    Nat × enhanced_protocol_ctx_t :=
  if msg_type < 16 then
    let v := (ctx.sequence_counters msg_type + 1) % 2 ^ 16
    (v, { ctx with sequence_counters := Function.update ctx.sequence_counters msg_type v })
  else (0, ctx)

/-- The statement `g_protocol_ctx.stats.crc_errors++`. -/
def count_send_error (ctx : enhanced_protocol_ctx_t) : enhanced_protocol_ctx_t :=
  { ctx with stats := { ctx.stats with crc_errors := (ctx.stats.crc_errors + 1) % 2 ^ 32 } }

/-- The bytes of the buffer `data` handed to a transmit call of `size` bytes (none for a
null pointer). -/
def buffer_bytes (data : Option (Nat → Nat)) (size : Nat) : List Nat :=
  match data with
  | none => []
  | some d => (List.range size).map (fun i => d i % 256)

/-- The function `robust_send_message` of enhanced_pc_stream.c.  The result is the
returned `bool`, the context left behind, and the byte blocks handed to
`HAL_UART_Transmit`, in order; `tx_ok k` tells whether the `k`-th transmit call of this
send returns `HAL_OK`. -/
def robust_send_message (HAL_CRC_Calculate : List Nat → Nat) (tx_ok : Nat → Bool)
    (ctx : enhanced_protocol_ctx_t) (message_type : Nat)
    (payload : Option (Nat → Nat)) (payload_size : Nat) :
    Bool × enhanced_protocol_ctx_t × List (List Nat) :=
  if !ctx.initialized then (false, ctx, [])
  else if payload_size > ROBUST_MAX_PAYLOAD_SIZE - ROBUST_MSG_HEADER_SIZE then
    (false, count_send_error ctx, [])
  else
    let total_payload_size := (ROBUST_MSG_HEADER_SIZE + payload_size) % 2 ^ 32
    if total_payload_size > ROBUST_MAX_PAYLOAD_SIZE then (false, count_send_error ctx, [])
    else
      let seq := get_next_sequence_id ctx message_type
      let sequence_id := seq.1
      let ctx := seq.2
      let msg_header : List Nat :=
        [message_type % 256, (sequence_id &&& 0xFF) % 256, ((sequence_id >>> 8) &&& 0xFF) % 256]
      let payload_crc32 :=
        if payload_size > 0 then calculate_crc32 HAL_CRC_Calculate payload payload_size else 0
      let crc32_bytes : List Nat :=
        [(payload_crc32 &&& 0xFF) % 256, ((payload_crc32 >>> 8) &&& 0xFF) % 256,
         ((payload_crc32 >>> 16) &&& 0xFF) % 256, ((payload_crc32 >>> 24) &&& 0xFF) % 256]
      let frame_header0 := ROBUST_SOF_BYTE
      let frame_header1 := (total_payload_size &&& 0xFF) % 256
      let frame_header2 := ((total_payload_size >>> 8) &&& 0xFF) % 256
      let frame_header : List Nat :=
        [frame_header0, frame_header1, frame_header2,
         frame_header0 ^^^ frame_header1 ^^^ frame_header2]
      if !tx_ok 0 then (false, count_send_error ctx, [frame_header])
      else if !tx_ok 1 then (false, count_send_error ctx, [frame_header, msg_header])
      else if payload_size > 0 then
        let body := buffer_bytes payload payload_size
        if !tx_ok 2 then (false, count_send_error ctx, [frame_header, msg_header, body])
        else if !tx_ok 3 then
          (false, count_send_error ctx, [frame_header, msg_header, body, crc32_bytes])
        else
          (true,
            { ctx with stats :=
                { ctx.stats with
                  packets_sent := (ctx.stats.packets_sent + 1) % 2 ^ 32
                  bytes_sent :=
                    (ctx.stats.bytes_sent +
                      (ROBUST_HEADER_SIZE + total_payload_size + ROBUST_CRC_SIZE)) % 2 ^ 32 } },
            [frame_header, msg_header, body, crc32_bytes])
      else if !tx_ok 2 then
        (false, count_send_error ctx, [frame_header, msg_header, crc32_bytes])
      else
        (true,
          { ctx with stats :=
              { ctx.stats with
                packets_sent := (ctx.stats.packets_sent + 1) % 2 ^ 32
                bytes_sent :=
                  (ctx.stats.bytes_sent +
                    (ROBUST_HEADER_SIZE + total_payload_size + ROBUST_CRC_SIZE)) % 2 ^ 32 } },
          [frame_header, msg_header, crc32_bytes])

/-- The value a receiver reads from two bytes as a little-endian `uint16_t`. -/
def le16 (b0 b1 : Nat) : Nat := b0 + 256 * b1

/-- The value a receiver reads from four bytes as a little-endian `uint32_t`. -/
def le32 (bs : List Nat) : Nat :=
  bs.getD 0 0 + 256 * bs.getD 1 0 + 65536 * bs.getD 2 0 + 16777216 * bs.getD 3 0

/-- One step of the CRC unit for one input bit position: shift left, and reduce by the
polynomial 0x04C11DB7 when the top bit was set. -/
def crc_shift (crc : Nat) : Nat :=
  if crc &&& 0x80000000 ≠ 0 then ((crc <<< 1) ^^^ 0x04C11DB7) % 2 ^ 32
  else (crc <<< 1) % 2 ^ 32

/-- The CRC unit as `crc32_init` configures it (default polynomial 0x04C11DB7, default
initial value 0xFFFFFFFF, no input or output inversion, word input): each word is
xor-ed into the register, which is then shifted 32 times. -/
def stm32_crc_words (words : List Nat) : Nat :=
  words.foldl (fun crc w => Nat.iterate crc_shift 32 (crc ^^^ (w % 2 ^ 32))) 0xFFFFFFFF

/-- The context inside `Enhanced_PC_STREAM_Init` once the statistics and the sequence
counters are cleared and `initialized` is set, before the function sends its
initialisation heartbeat. -/
def protocol_ctx_initial : enhanced_protocol_ctx_t :=
  { stats :=
      { packets_sent := 0, packets_received := 0, bytes_sent := 0, bytes_received := 0,
        crc_errors := 0, timeouts := 0, last_heartbeat := 0 }
    initialized := true
    last_heartbeat_time := 0
    sequence_counters := fun _ => 0 }

/-- The memory of a `uint32_t timestamp` variable, as `Enhanced_PC_STREAM_SendHeartbeat`
passes it: the four little-endian bytes of the value (zero beyond). -/
def u32_bytes (v : Nat) : Nat → Nat := fun i =>
  if i = 0 then v % 256
  else if i = 1 then v / 256 % 256
  else if i = 2 then v / 65536 % 256
  else if i = 3 then v / 16777216 % 256
  else 0

/-- The four bytes of a 32-bit value in little-endian order. -/
def le32_bytes (v : Nat) : List Nat :=
  [v % 256, v / 256 % 256, v / 65536 % 256, v / 16777216 % 256]

/-- The bytes on the wire: the transmitted blocks one after the other. -/
def wire_bytes (blocks : List (List Nat)) : List Nat :=
  blocks.foldr (fun b acc => b ++ acc) []

/-- The checksum the specification describes for a packet: the CRC of wire bytes 4
through the end of the body (the 3-byte message header followed by the `body_len` body
bytes), zero-padded to whole words. -/
def spec_packet_crc (HAL_CRC_Calculate : List Nat → Nat) (wire : List Nat) (body_len : Nat) :
    Nat :=
  calculate_crc32 HAL_CRC_Calculate
    (some (fun i => ((wire.drop 4).take (3 + body_len)).getD i 0)) (3 + body_len)

/-! ## main.c: detection history and LED state machine -/

/-- The fields of `app_context_t` (main.c) read or written by the detection history
and by the LED update. -/
structure app_context_t where
  face_detected : Bool
  target_detection_history : Nat → Bool
  history_index : Nat
  history_count : Nat
  target_detected : Bool
  last_stable_verification_ts : Nat
  led_timeout_active : Bool

/-- The initialiser of `g_app_ctx` in main.c. -/
def g_app_ctx : app_context_t :=
  { face_detected := false
    target_detection_history := fun _ => false
    history_index := 0
    history_count := 0
    target_detected := false
    last_stable_verification_ts := 0
    led_timeout_active := false }

/-- The function `update_target_detection_history` of main.c. -/
def update_target_detection_history (ctx : app_context_t)
    (target_found_this_frame : Bool) : app_context_t :=
  { ctx with
    target_detection_history :=
      Function.update ctx.target_detection_history ctx.history_index target_found_this_frame
    history_index := (ctx.history_index + 1) % 2 ^ 32 % 5
    history_count :=
      if ctx.history_count < 5 then (ctx.history_count + 1) % 2 ^ 32 else ctx.history_count }

/-- The function `compute_target_detection_status` of main.c. -/
def compute_target_detection_status (ctx : app_context_t) : app_context_t :=
  if ctx.history_count = 0 then
    { ctx with target_detected := false }
  else
    let positive_detections : Nat :=
      (List.range ctx.history_count).foldl
        (fun positive_detections i =>
          if ctx.target_detection_history i then (positive_detections + 1) % 2 ^ 32
          else positive_detections)
        0
    { ctx with target_detected := decide (positive_detections ≥ 3) }

/-- The constant `FACE_UNVERIFIED_LED_TIMEOUT_MS` of app_constants.h. -/
def FACE_UNVERIFIED_LED_TIMEOUT_MS : Nat := 1000

/-- The two board LEDs driven by `BSP_LED_On` / `BSP_LED_Off`: `LED1` is the red one,
`LED2` the green one; `true` is lit. -/
structure Leds where
  LED1 : Bool
  LED2 : Bool
deriving DecidableEq, Repr

/-- Subtraction of two `uint32_t` values. -/
def u32_sub (a b : Nat) : Nat := (a % 2 ^ 32 + 2 ^ 32 - b % 2 ^ 32) % 2 ^ 32

/-- The function `update_led_status` of main.c; `current_time` is the value returned
by `HAL_GetTick()`. -/
def update_led_status (current_time : Nat) (ctx : app_context_t) (leds : Leds) :
    app_context_t × Leds :=
  if ctx.target_detected then
    let leds := { leds with LED2 := true }
    let leds := { leds with LED1 := false }
    ({ ctx with last_stable_verification_ts := current_time, led_timeout_active := false }, leds)
  else if ctx.face_detected then
    let leds := { leds with LED1 := true }
    let leds := { leds with LED2 := false }
    ({ ctx with led_timeout_active := false }, leds)
  else
    if ctx.last_stable_verification_ts ≠ 0 ∧
        u32_sub current_time ctx.last_stable_verification_ts < FACE_UNVERIFIED_LED_TIMEOUT_MS then
      let leds := { leds with LED2 := true }
      let leds := { leds with LED1 := false }
      ({ ctx with led_timeout_active := true }, leds)
    else
      let leds := { leds with LED1 := false }
      let leds := { leds with LED2 := false }
      ({ ctx with led_timeout_active := false }, leds)

/-- The states of the verification state machine as the specification names them. -/
inductive VerificationState where
  | Idle
  | FaceUnverified
  | TargetVerified
  | HoldoverAfterLoss
deriving DecidableEq, Repr

/-- The four-way priority transition in the words of the specification:
`target_detected` gives `TargetVerified`; else `face_detected` gives `FaceUnverified`;
else a prior verification with `elapsed < hold_timeout` gives `HoldoverAfterLoss`;
else `Idle`. -/
def spec_transition (target_detected face_detected prior_verification : Bool)
    (elapsed hold_timeout : Nat) : VerificationState :=
  if target_detected then VerificationState.TargetVerified
  else if face_detected then VerificationState.FaceUnverified
  else if prior_verification ∧ elapsed < hold_timeout then VerificationState.HoldoverAfterLoss
  else VerificationState.Idle

/-! ## pd_pp_model.c: the quantities of `pd_pp_compute_iou` -/

/-- The value `area[i]` that `pd_pp_compute_iou` computes for one box:
`(ymax - ymin) * (xmax - xmin)` over its two opposite corners. -/
def pd_pp_box_area {K : Type} [LinearOrderedField K] (box : pd_pp_box_t K) : K :=
  let corners := pd_pp_compute_opposite_corners_from_box box
  let xmin := min corners.1.x corners.2.x
  let xmax := max corners.1.x corners.2.x
  let ymin := min corners.1.y corners.2.y
  let ymax := max corners.1.y corners.2.y
  (ymax - ymin) * (xmax - xmin)

/-- The value `intersect_area` that `pd_pp_compute_iou` computes for two boxes. -/
def pd_pp_intersect_area {K : Type} [LinearOrderedField K] (box0 box1 : pd_pp_box_t K) : K :=
  let corners0 := pd_pp_compute_opposite_corners_from_box box0
  let corners1 := pd_pp_compute_opposite_corners_from_box box1
  let xmin0 := min corners0.1.x corners0.2.x
  let xmax0 := max corners0.1.x corners0.2.x
  let ymin0 := min corners0.1.y corners0.2.y
  let ymax0 := max corners0.1.y corners0.2.y
  let xmin1 := min corners1.1.x corners1.2.x
  let xmax1 := max corners1.1.x corners1.2.x
  let ymin1 := min corners1.1.y corners1.2.y
  let ymax1 := max corners1.1.y corners1.2.y
  let intersect_xmin := max xmin0 xmin1
  let intersect_ymin := max ymin0 ymin1
  let intersect_xmax := min xmax0 xmax1
  let intersect_ymax := min ymax0 ymax1
  max (intersect_ymax - intersect_ymin) 0 * max (intersect_xmax - intersect_xmin) 0

/-- The divisor `area[0] + area[1] - intersect_area` of the last line of
`pd_pp_compute_iou`. -/
def pd_pp_iou_divisor {K : Type} [LinearOrderedField K] (box0 box1 : pd_pp_box_t K) : K :=
  pd_pp_box_area box0 + pd_pp_box_area box1 - pd_pp_intersect_area box0 box1

/-- A rational unit square. -/
def iou_example_unit_box : pd_pp_box_t ℚ :=
  { prob := 1, x_center := 0, y_center := 0, width := 1, height := 1, pKps := 0 }

/-- A rational box of width 0. -/
def iou_example_flat_box : pd_pp_box_t ℚ :=
  { prob := 1, x_center := 0, y_center := 0, width := 0, height := 1, pKps := 0 }

/-- The state `process_frame_detections` works on: the context fields of
`app_context_t` modelled above, the further fields `face_verified`,
`current_similarity`, `best_detection` and `embedding_valid` of the context, the globals
`g_cropped_face_valid` and `g_current_similarity`, and the box array.  The embedding
arrays, which are only copied, are left out. -/
structure frame_state (K : Type) where
  ctx : app_context_t
  face_verified : Bool
  current_similarity : K
  best_detection : pd_pp_box_t K
  embedding_valid : Int
  g_cropped_face_valid : Bool
  g_current_similarity : K
  boxes : Nat → pd_pp_box_t K

/-- The locals of `process_frame_detections` together with the state, as the loop over
the boxes carries them. -/
structure frame_loop_state (K : Type) where
  st : frame_state K
  target_found_this_frame : Bool
  highest_similarity : K
  best_embedding_valid : Bool

/-- The body of the loop `for (uint32_t i = 0; i < box_count; i++)` of
`process_frame_detections`; `run_face_recognition_on_face i box` is the outcome of the
recognition of box `i`: `none` when it leaves through one of its early `return 0.0f`,
and `some similarity` when it runs to its end, where it sets `ctx->embedding_valid = 1`
and returns the similarity.  The constant `0.05f` is the binary32 value
13421773 / 2^28. -/
def process_frame_detections_body {K : Type} [LinearOrderedField K]
    (run_face_recognition_on_face : Nat → pd_pp_box_t K → Option K)
    (l : frame_loop_state K) (i : Nat) : frame_loop_state K :=
  if (l.st.boxes i).prob ≥ FACE_DETECTION_CONFIDENCE_THRESHOLD then
    let outcome := run_face_recognition_on_face i (l.st.boxes i)
    let similarity := outcome.getD 0
    let embedding_valid := if outcome.isSome then 1 else l.st.embedding_valid
    let boxes := Function.update l.st.boxes i { l.st.boxes i with prob := similarity }
    let target_found_this_frame :=
      if similarity ≥ FACE_SIMILARITY_THRESHOLD then true else l.target_found_this_frame
    if similarity > l.highest_similarity then
      { st :=
          { l.st with
            embedding_valid := embedding_valid
            boxes := boxes
            best_detection := boxes i
            current_similarity := similarity
            ctx := { l.st.ctx with face_detected := true }
            g_cropped_face_valid := true
            g_current_similarity := similarity }
        target_found_this_frame := target_found_this_frame
        highest_similarity := similarity
        best_embedding_valid := true }
    else
      { l with
        st := { l.st with embedding_valid := embedding_valid, boxes := boxes }
        target_found_this_frame := target_found_this_frame }
  else
    { l with
      st :=
        { l.st with
          boxes :=
            Function.update l.st.boxes i
              { l.st.boxes i with prob := 13421773 / 268435456 } } }

/-- The function `process_frame_detections` of main.c. -/
def process_frame_detections {K : Type} [LinearOrderedField K]
    (run_face_recognition_on_face : Nat → pd_pp_box_t K → Option K)
    (st : frame_state K) (box_count : Nat) : frame_state K :=
  let st0 : frame_state K :=
    { st with
      ctx := { st.ctx with face_detected := false }
      face_verified := false
      current_similarity := 0
      g_cropped_face_valid := false
      g_current_similarity := 0
      embedding_valid := 0 }
  let l0 : frame_loop_state K :=
    { st := st0, target_found_this_frame := false, highest_similarity := 0,
      best_embedding_valid := false }
  let l :=
    if box_count > 0 then
      (List.range box_count).foldl
        (process_frame_detections_body run_face_recognition_on_face) l0
    else l0
  let ctx1 := update_target_detection_history l.st.ctx l.target_found_this_frame
  let ctx2 := compute_target_detection_status ctx1
  { l.st with
    ctx := ctx2
    embedding_valid := if l.best_embedding_valid then 1 else l.st.embedding_valid
    face_verified := ctx2.target_detected }

/-- A frame state with the initial context and one detected box of confidence 9/10. -/
def frame_example_state : frame_state ℚ :=
  { ctx := g_app_ctx
    face_verified := false
    current_similarity := 0
    best_detection :=
      { prob := 0, x_center := 0, y_center := 0, width := 0, height := 0, pKps := 0 }
    embedding_valid := 0
    g_cropped_face_valid := false
    g_current_similarity := 0
    boxes := fun _ =>
      { prob := 9/10, x_center := 1/2, y_center := 1/2, width := 1/4, height := 1/4,
        pKps := 0 } }

/-! ## target_embedding.c: quantities of the specification -/

/-- The component-wise mean of the `bank_count` stored entries of the bank. -/
def bank_mean {K : Type} [LinearOrderedField K] (s : BankState K) (i : Nat) : K :=
  (∑ n in Finset.range s.bank_count, s.embedding_bank n i) / (s.bank_count : K)

/-- A state of target_embedding.c with every value zero. -/
def bank_zero_state (K : Type) [LinearOrderedField K] : BankState K :=
  { target_embedding := fun _ => 0, embedding_bank := fun _ _ => 0, bank_count := 0 }

/-- The first unit vector. -/
def unit_embedding (K : Type) [LinearOrderedField K] : Nat → K :=
  fun i => if i = 0 then 1 else 0

/-- The opposite of the first unit vector. -/
def neg_unit_embedding (K : Type) [LinearOrderedField K] : Nat → K :=
  fun i => if i = 0 then -1 else 0

/-- The state reached from `embeddings_bank_init` by a sequence of calls of
`embeddings_bank_add`, one per embedding of the list. -/
def bank_run {K : Type} [LinearOrderedField K] (sqrtf : K → K) (s0 : BankState K)
    (es : List (Nat → K)) : BankState K :=
  es.foldl (fun s e => (embeddings_bank_add sqrtf s e).2) (embeddings_bank_init s0)

/-- The packets (each a list of transmitted blocks) that a sequence of calls of
`robust_send_message` emits when every transport write succeeds; a call is given by its
message type, its body buffer and its body length, and each call starts from the context
the previous one left. -/
def send_sequence (HAL_CRC_Calculate : List Nat → Nat) :
    enhanced_protocol_ctx_t → List (Nat × (Nat → Nat) × Nat) → List (List (List Nat))
  | _, [] => []
  | ctx, m :: rest =>
    (robust_send_message HAL_CRC_Calculate (fun _ => true) ctx m.1 (some m.2.1) m.2.2).2.2 ::
      send_sequence HAL_CRC_Calculate
        (robust_send_message HAL_CRC_Calculate (fun _ => true) ctx m.1 (some m.2.1) m.2.2).2.1
        rest

/-- Three sends: a heartbeat, an empty frame-data message and a second heartbeat. -/
def send_example_msgs : List (Nat × (Nat → Nat) × Nat) :=
  [(5, u32_bytes 1234, 4), (1, fun _ => 0, 0), (5, u32_bytes 99, 4)]

/-! ## enhanced_pc_stream.c: the heartbeat -/

/-- The message type `ROBUST_MSG_HEARTBEAT`. -/
def ROBUST_MSG_HEARTBEAT : Nat := 0x05

/-- The function `Enhanced_PC_STREAM_SendHeartbeat` of enhanced_pc_stream.c;
`HAL_GetTick` is the value the tick counter returns (a `uint32_t`).  The result is the
context left behind and the byte blocks handed to the transport. -/
def Enhanced_PC_STREAM_SendHeartbeat (HAL_CRC_Calculate : List Nat → Nat)
    (tx_ok : Nat → Bool) (HAL_GetTick : Nat) (ctx : enhanced_protocol_ctx_t) :
    enhanced_protocol_ctx_t × List (List Nat) :=
  let timestamp := HAL_GetTick % 2 ^ 32
  let sent :=
    robust_send_message HAL_CRC_Calculate tx_ok ctx ROBUST_MSG_HEARTBEAT
      (some (u32_bytes timestamp)) 4
  ({ sent.2.1 with last_heartbeat_time := timestamp }, sent.2.2)

/-- The header check of a receiver, in the words of the specification: the XOR of the
four header bytes of the packet is 0. -/
def receiver_header_ok (wire : List Nat) : Bool :=
  decide (wire.getD 0 0 ^^^ wire.getD 1 0 ^^^ wire.getD 2 0 ^^^ wire.getD 3 0 = 0)

/-- The timestamp a receiver reads from a heartbeat packet: the four body bytes (after
the 4-byte frame header and the 3-byte message header) as a little-endian `uint32_t`. -/
def receiver_heartbeat_timestamp (wire : List Nat) : Nat :=
  le32 ((wire.drop 7).take 4)

/-! ## pd_pp_model.c: the entry point -/

/-- The function `pd_model_pp_process` of pd_pp_model.c: the return code and the
output.  The count `pd_pp_nms` returns is discarded, as in the source. -/
def pd_model_pp_process {K : Type} [LinearOrderedField K] (expf : K → K)
    (qsort : (pd_pp_box_t K → pd_pp_box_t K → Int) → List (pd_pp_box_t K) →
      List (pd_pp_box_t K))
    (pInput : pd_model_pp_in_t K) (pOutput : pd_postprocess_out_t K)
    (pInput_static_param : pd_model_pp_static_param_t K) :
    Int × pd_postprocess_out_t K :=
  let ret := pd_pp_decode expf pInput pOutput pInput_static_param
  if AI_PD_POSTPROCESS_ERROR_NO ≠ ret.1 then ret
  else (ret.1, (pd_pp_nms qsort ret.2 pInput_static_param).2)

/-- Detector tensors in which the single cell 37 (row 1, column 5) has heat score 1 and
all other entries are 0. -/
def single_cell_input : pd_model_pp_in_t ℚ :=
  { pScale := fun _ => 0, pLms := fun _ => 0,
    pHeatmap := fun i => if i = 37 then 1 else 0, pOffset := fun _ => 0 }

/-! ## crop_img.c: the aligned crop -/

/-- The conversion `(uint32_t)v` of a float: its integer part, as a 32-bit value. -/
def float_to_u32 {K : Type} [LinearOrderedField K] [FloorRing K] (v : K) : Nat :=
  ⌊v⌋₊ % 2 ^ 32

/-- The source coordinates `(src_x, src_y)` that `img_crop_align` and
`img_crop_align565_to_888` compute for the destination pixel of row `y` and column `x`,
after the four clamping statements (the statements up to there are the same in both
functions).  The libm functions `atan2f`, `cosf` and `sinf` are parameters; the limits
`(float)(src_width - 1)` and `(float)(src_height - 1)` are formed in `int`. -/
def img_crop_align_coords {K : Type} [LinearOrderedField K]
    (atan2f : K → K → K) (cosf sinf : K → K)
    (src_width src_height dst_width dst_height : Nat)
    (x_center y_center width height left_eye_x left_eye_y right_eye_x right_eye_y : K)
    (y x : Nat) : K × K :=
  let angle := -atan2f (right_eye_y - left_eye_y) (right_eye_x - left_eye_x)
  let cos_a := cosf angle
  let sin_a := sinf angle
  let dst_full : K := if dst_width > dst_height then (dst_width : K) else (dst_height : K)
  let offset_x := (dst_full - (dst_width : K)) * 0.5
  let offset_y := (dst_full - (dst_height : K)) * 0.5
  let inv_dst_full := 1.0 / dst_full
  let width_cos := width * cos_a
  let width_sin := width * sin_a
  let height_cos := height * cos_a
  let height_sin := height * sin_a
  let src_width_limit : K := (((src_width : Int) - 1 : Int) : K)
  let src_height_limit : K := (((src_height : Int) - 1 : Int) : K)
  let ny := (((y : K) + offset_y + 0.5) * inv_dst_full) - 0.5
  let ny_height_cos := ny * height_cos
  let ny_height_sin := ny * height_sin
  let nx := (((x : K) + offset_x + 0.5) * inv_dst_full) - 0.5
  let src_x := x_center + (nx * width_cos) + ny_height_sin
  let src_y := y_center + ny_height_cos - (nx * width_sin)
  let src_x := if src_x < 0 then 0 else src_x
  let src_x := if src_x > src_width_limit then src_width_limit else src_x
  let src_y := if src_y < 0 then 0 else src_y
  let src_y := if src_y > src_height_limit then src_height_limit else src_y
  (src_x, src_y)

/-- The function `img_crop_align` of crop_img.c.  The source image is the list of its
bytes and a `memcpy` that would read beyond its end makes the result `none`; the
destination is the memory written, addressed from `dst_img`. -/
def img_crop_align {K : Type} [LinearOrderedField K] [FloorRing K]
    (atan2f : K → K → K) (cosf sinf : K → K)
    (src_image : List Nat) (dst_img : Nat → Nat)
    (src_width src_height dst_width dst_height bpp : Nat)
    (x_center y_center width height left_eye_x left_eye_y right_eye_x right_eye_y : K) :
    Option (Nat → Nat) :=
  (List.range dst_height).foldl
    (fun dst y =>
      (List.range dst_width).foldl
        (fun dst x =>
          match dst with
          | none => none
          | some d =>
            let src :=
              img_crop_align_coords atan2f cosf sinf src_width src_height dst_width dst_height
                x_center y_center width height left_eye_x left_eye_y right_eye_x right_eye_y
                y x
            let pIn :=
              ((float_to_u32 src.2 * src_width + float_to_u32 src.1) % 2 ^ 32 * bpp) % 2 ^ 32
            let pOut := y * dst_width * bpp + x * bpp
            if pIn + bpp ≤ src_image.length then
              some ((List.range bpp).foldl
                (fun d k => Function.update d (pOut + k) (src_image.getD (pIn + k) 0)) d)
            else none)
        dst)
    (some dst_img)

/-- The function `img_crop_align565_to_888` of crop_img.c (without the block compiled
only under `DUMMY_INPUT_BUFFER`).  The source image is the list of its 16-bit pixels
and a read beyond its end makes the result `none`. -/
def img_crop_align565_to_888 {K : Type} [LinearOrderedField K] [FloorRing K]
    (atan2f : K → K → K) (cosf sinf : K → K)
    (src_image : List Nat) (src_stride : Nat) (dst_img : Nat → Nat)
    (src_width src_height dst_width dst_height : Nat)
    (x_center y_center width height left_eye_x left_eye_y right_eye_x right_eye_y : K) :
    Option (Nat → Nat) :=
  (List.range dst_height).foldl
    (fun dst y =>
      (List.range dst_width).foldl
        (fun dst x =>
          match dst with
          | none => none
          | some d =>
            let src :=
              img_crop_align_coords atan2f cosf sinf src_width src_height dst_width dst_height
                x_center y_center width height left_eye_x left_eye_y right_eye_x right_eye_y
                y x
            let pIn := (float_to_u32 src.2 * src_stride + float_to_u32 src.1) % 2 ^ 32
            let pOut := y * dst_width * 3 + x * 3
            match src_image[pIn]? with
            | none => none
            | some px =>
              let d := Function.update d pOut ((((px >>> 11) &&& 0x1F) <<< 3) % 256)
              let d := Function.update d (pOut + 1) ((((px >>> 5) &&& 0x3F) <<< 2) % 256)
              let d := Function.update d (pOut + 2) (((px &&& 0x1F) <<< 3) % 256)
              some d)
        dst)
    (some dst_img)

/-! ## enhanced_pc_stream.c: the detection message -/

/-- The message type `ROBUST_MSG_DETECTION_RESULTS`. -/
def ROBUST_MSG_DETECTION_RESULTS : Nat := 0x02

/-- The library call `memcpy(buffer + offset, bytes, n)` on a byte memory, for the `n`
bytes listed. -/
def memcpy_bytes (buffer : Nat → Nat) (offset : Nat) (bytes : List Nat) : Nat → Nat :=
  fun i => if offset ≤ i ∧ i < offset + bytes.length then bytes.getD (i - offset) 0 else buffer i

/-- The four bytes a `float` occupies in memory; `float_bytes v k` is byte `k` of the
encoding of `v`. -/
def float_le_bytes {K : Type} (float_bytes : K → Nat → Nat) (v : K) : List Nat :=
  [float_bytes v 0 % 256, float_bytes v 1 % 256, float_bytes v 2 % 256, float_bytes v 3 % 256]

/-- The bytes of the packed local structure `det` of `Enhanced_PC_STREAM_SendDetections`
for one box: `class_id = 0`, `x`, `y`, `w`, `h`, `confidence`, `keypoint_count = 0`
(28 bytes). -/
def detection_record {K : Type} (float_bytes : K → Nat → Nat) (box : pd_pp_box_t K) :
    List Nat :=
  le32_bytes 0 ++ float_le_bytes float_bytes box.x_center ++
    float_le_bytes float_bytes box.y_center ++ float_le_bytes float_bytes box.width ++
    float_le_bytes float_bytes box.height ++ float_le_bytes float_bytes box.prob ++
    le32_bytes 0

/-- The loop `for (i = 0; i < detections->box_nb && i < max_detections; i++)` of
`Enhanced_PC_STREAM_SendDetections` over the remaining indices, on the pair
`(buffer, offset)`, with its `break` when the record would not fit in `temp_buffer`
(64 * 1024 bytes). -/
def send_detections_loop {K : Type} (float_bytes : K → Nat → Nat)
    (detections : pd_postprocess_out_t K) :
    List Nat → (Nat → Nat) × Nat → (Nat → Nat) × Nat
  | [], st => st
  | i :: rest, st =>
    let det := detection_record float_bytes (detections.pOutData i)
    if (st.2 + 28) % 2 ^ 32 > 64 * 1024 then st
    else
      send_detections_loop float_bytes detections rest
        (memcpy_bytes st.1 st.2 det, (st.2 + 28) % 2 ^ 32)

/-- The body `Enhanced_PC_STREAM_SendDetections` builds in `temp_buffer` for a non-empty
detection list, and its length `offset`: the header `frame_id`, `detection_count` and
the records. -/
def send_detections_body {K : Type} (float_bytes : K → Nat → Nat)
    (temp_buffer : Nat → Nat) (frame_id : Nat) (detections : pd_postprocess_out_t K) :
    (Nat → Nat) × Nat :=
  let det_header := le32_bytes (frame_id % 2 ^ 32) ++ le32_bytes (detections.box_nb % 2 ^ 32)
  let buffer := memcpy_bytes temp_buffer 0 det_header
  let offset := 8
  let max_detections := 10
  send_detections_loop float_bytes detections
    (List.range (min (detections.box_nb % 2 ^ 32) max_detections)) (buffer, offset)

/-- The function `Enhanced_PC_STREAM_SendDetections` of enhanced_pc_stream.c: the
returned `bool`, the context and the contents of `temp_buffer` left behind, and the
blocks handed to the transport. -/
def Enhanced_PC_STREAM_SendDetections {K : Type} (HAL_CRC_Calculate : List Nat → Nat)
    (tx_ok : Nat → Bool) (float_bytes : K → Nat → Nat) (ctx : enhanced_protocol_ctx_t)
    (temp_buffer : Nat → Nat) (frame_id : Nat) (detections : Option (pd_postprocess_out_t K)) :
    Bool × enhanced_protocol_ctx_t × (Nat → Nat) × List (List Nat) :=
  match detections with
  | none => (false, ctx, temp_buffer, [])
  | some d =>
    if d.box_nb % 2 ^ 32 = 0 then (false, ctx, temp_buffer, [])
    else
      let body := send_detections_body float_bytes temp_buffer frame_id d
      let sent :=
        robust_send_message HAL_CRC_Calculate tx_ok ctx ROBUST_MSG_DETECTION_RESULTS
          (some body.1) body.2
      (sent.1, sent.2.1, body.1, sent.2.2)

/-- A detection list of 12 boxes (box `i` has confidence `i / 100`). -/
def detections_example : pd_postprocess_out_t ℚ :=
  { box_nb := 12
    pOutData := fun i =>
      { prob := (i : ℚ) / 100, x_center := 1/2, y_center := 1/2, width := 1/4, height := 1/4,
        pKps := 0 }
    kps := fun _ => { x := 0, y := 0 } }

/-! ## enhanced_pc_stream.c: the frame message -/

/-- The constant `STREAM_SCALE`. -/
def STREAM_SCALE : Nat := 2

/-- The message type `ROBUST_MSG_FRAME_DATA`. -/
def ROBUST_MSG_FRAME_DATA : Nat := 0x01

/-- The message type `ROBUST_MSG_PERFORMANCE_METRICS`. -/
def ROBUST_MSG_PERFORMANCE_METRICS : Nat := 0x04

/-- The function `rgb565_to_gray` of enhanced_pc_stream.c. -/
def rgb565_to_gray (pixel : Nat) : Nat :=
  let r := (((pixel >>> 11) &&& 0x1F) <<< 3) % 256
  let g := (((pixel >>> 5) &&& 0x3F) <<< 2) % 256
  let b := ((pixel &&& 0x1F) <<< 3) % 256
  ((r * 30 + g * 59 + b * 11) / 100) % 256

/-- The function `rgb888_to_gray` of enhanced_pc_stream.c. -/
def rgb888_to_gray (r g b : Nat) : Nat :=
  ((r * 30 + g * 59 + b * 11) / 100) % 256

/-- The function `Enhanced_PC_STREAM_SendPerformanceMetrics` of enhanced_pc_stream.c;
the structure is given by its 28 bytes. -/
def Enhanced_PC_STREAM_SendPerformanceMetrics (HAL_CRC_Calculate : List Nat → Nat)
    (tx_ok : Nat → Bool) (ctx : enhanced_protocol_ctx_t) (metrics : Option (Nat → Nat)) :
    Bool × enhanced_protocol_ctx_t × List (List Nat) :=
  match metrics with
  | none => (false, ctx, [])
  | some m =>
    robust_send_message HAL_CRC_Calculate tx_ok ctx ROBUST_MSG_PERFORMANCE_METRICS (some m) 28

/-- The scale factor `Enhanced_PC_STREAM_SendFrame` derives from the tag (the characters
of the string before its terminating NUL): 1 when `strcmp(tag, "ALN") == 0`, else
`STREAM_SCALE`. -/
def send_frame_scale_factor (tag : List Nat) : Nat :=
  let full_resolution := decide (tag = [65, 76, 78])
  if full_resolution then 1 else STREAM_SCALE

/-- The values of `output_width` and `output_height` of `Enhanced_PC_STREAM_SendFrame`
after the two limiting statements. -/
def send_frame_output_size (tag : List Nat) (width height : Nat) : Nat × Nat :=
  let scale_factor := send_frame_scale_factor tag
  let output_width := (width % 2 ^ 32) / scale_factor
  let output_height := (height % 2 ^ 32) / scale_factor
  let output_width := if output_width > 320 then 320 else output_width
  let output_height := if output_height > 240 then 240 else output_height
  (output_width, output_height)

/-- The two nested conversion loops of `Enhanced_PC_STREAM_SendFrame`, which fill
`stream_buffer` with the grayscale pixels. -/
def send_frame_convert (frame : Nat → Nat) (width bpp scale_factor output_width
    output_height : Nat) (stream_buffer : Nat → Nat) : Nat → Nat :=
  (List.range output_height).foldl
    (fun sb y =>
      let line := ((y * scale_factor) % 2 ^ 32 * (width % 2 ^ 32) % 2 ^ 32 * (bpp % 2 ^ 32))
        % 2 ^ 32
      (List.range output_width).foldl
        (fun sb x =>
          let gray :=
            if bpp % 2 ^ 32 = 2 then
              let at16 := line + 2 * ((x * scale_factor) % 2 ^ 32)
              rgb565_to_gray (frame at16 % 256 + 256 * (frame (at16 + 1) % 256))
            else if bpp % 2 ^ 32 = 3 then
              let px := line + ((x * scale_factor) % 2 ^ 32 * 3) % 2 ^ 32
              rgb888_to_gray (frame px % 256) (frame (px + 1) % 256) (frame (px + 2) % 256)
            else frame (line + (x * scale_factor) % 2 ^ 32) % 256
          Function.update sb ((y * output_width + x) % 2 ^ 32) gray)
        sb)
    stream_buffer

/-- The 12 bytes of the structure `frame_data` of `Enhanced_PC_STREAM_SendFrame`: the
first three characters of the tag (padded with NUL), a NUL, and the little-endian
`width` and `height`. -/
def frame_data_bytes (tag : List Nat) (output_width output_height : Nat) : List Nat :=
  [tag.getD 0 0 % 256, tag.getD 1 0 % 256, tag.getD 2 0 % 256, 0] ++
    le32_bytes output_width ++ le32_bytes output_height

/-- The function `Enhanced_PC_STREAM_SendFrame` of enhanced_pc_stream.c.  The result is
the returned `bool`, the context, `temp_buffer` and `stream_buffer` left behind, and the
byte blocks handed to the transport; `tx_ok m k` tells whether the `k`-th transmit call
of the `m`-th message of this call (0 the frame, 1 the metrics, 2 the detections)
succeeds. -/
def Enhanced_PC_STREAM_SendFrame {K : Type} (HAL_CRC_Calculate : List Nat → Nat)
    (tx_ok : Nat → Nat → Bool) (float_bytes : K → Nat → Nat)
    (ctx : enhanced_protocol_ctx_t) (temp_buffer stream_buffer : Nat → Nat)
    (frame : Option (Nat → Nat)) (width height bpp : Nat) (tag : Option (List Nat))
    (detections : Option (pd_postprocess_out_t K)) (performance : Option (Nat → Nat)) :
    Bool × enhanced_protocol_ctx_t × (Nat → Nat) × (Nat → Nat) × List (List Nat) :=
  match frame, tag with
  | some f, some t =>
    let scale_factor := send_frame_scale_factor t
    let size := send_frame_output_size t width height
    let output_width := size.1
    let output_height := size.2
    let stream_buffer :=
      send_frame_convert f width bpp scale_factor output_width output_height stream_buffer
    let raw_data_size := (output_width * output_height) % 2 ^ 32
    let total_size := (12 + raw_data_size) % 2 ^ 32
    if total_size > ROBUST_MAX_PAYLOAD_SIZE - ROBUST_MSG_HEADER_SIZE then
      (false, count_send_error ctx, temp_buffer, stream_buffer, [])
    else
      let temp_buffer :=
        memcpy_bytes temp_buffer 0 (frame_data_bytes t output_width output_height)
      let temp_buffer :=
        memcpy_bytes temp_buffer 12
          ((List.range raw_data_size).map (fun i => stream_buffer i))
      let sent :=
        robust_send_message HAL_CRC_Calculate (tx_ok 0) ctx ROBUST_MSG_FRAME_DATA
          (some temp_buffer) total_size
      let frame_sent := sent.1
      let perf :=
        match performance with
        | some p =>
          Enhanced_PC_STREAM_SendPerformanceMetrics HAL_CRC_Calculate (tx_ok 1) sent.2.1
            (some p)
        | none => (false, sent.2.1, [])
      let det :=
        match detections with
        | some d =>
          if d.box_nb % 2 ^ 32 > 0 then
            Enhanced_PC_STREAM_SendDetections HAL_CRC_Calculate (tx_ok 2) float_bytes
              perf.2.1 temp_buffer 0 (some d)
          else (false, perf.2.1, temp_buffer, [])
        | none => (false, perf.2.1, temp_buffer, [])
      (frame_sent, det.2.1, det.2.2.1, stream_buffer, sent.2.2 ++ perf.2.2 ++ det.2.2.2)
  | _, _ => (false, ctx, temp_buffer, stream_buffer, [])

/-! ## app_postprocess.c: the output slots and their keypoint arrays -/

/-- The constant `AI_PD_MODEL_PP_MAX_BOXES_LIMIT` of app_config.h. -/
def AI_PD_MODEL_PP_MAX_BOXES_LIMIT : Nat := 10

/-- The constant `AI_PD_MODEL_PP_NB_KEYPOINTS` of app_config.h. -/
def AI_PD_MODEL_PP_NB_KEYPOINTS : Nat := 5

/-- The function `app_postprocess_init` of app_postprocess.c: the parameters it sets and
the static array `out_detections` it leaves.  The static array
`out_keyPoints[10][5]` is the keypoint memory, `out_keyPoints[i][j]` at index
`5 * i + j`, so that `&out_keyPoints[i][0]` is the index `5 * i`. -/
def app_postprocess_init {K : Type} [LinearOrderedField K]
    (out_detections : Nat → pd_pp_box_t K) :
    pd_model_pp_static_param_t K × (Nat → pd_pp_box_t K) :=
  ({ width := 128, height := 128, nb_keypoints := AI_PD_MODEL_PP_NB_KEYPOINTS,
     conf_threshold := 0.5, iou_threshold := 0.3, nb_total_boxes := 1024,
     max_boxes_limit := AI_PD_MODEL_PP_MAX_BOXES_LIMIT },
   (List.range AI_PD_MODEL_PP_MAX_BOXES_LIMIT).foldl
     (fun d i => Function.update d i { d i with pKps := AI_PD_MODEL_PP_NB_KEYPOINTS * i })
     out_detections)

/-- The function `app_postprocess_run` of app_postprocess.c on the four detector
tensors; the output structure carries the static arrays `out_detections` (as
`pOutData`) and `out_keyPoints` (as `kps`) from one frame to the next. -/
def app_postprocess_run {K : Type} [LinearOrderedField K] (expf : K → K)
    (qsort : (pd_pp_box_t K → pd_pp_box_t K → Int) → List (pd_pp_box_t K) →
      List (pd_pp_box_t K))
    (pInput : pd_model_pp_in_t K) (pOutput : pd_postprocess_out_t K)
    (pInput_param : pd_model_pp_static_param_t K) : Int × pd_postprocess_out_t K :=
  pd_model_pp_process expf qsort pInput pOutput pInput_param

/-- The zero-initialised static arrays before `app_postprocess_init`. -/
def postprocess_zero_output : pd_postprocess_out_t ℚ :=
  { box_nb := 0
    pOutData := fun _ =>
      { prob := 0, x_center := 0, y_center := 0, width := 0, height := 0, pKps := 0 }
    kps := fun _ => { x := 0, y := 0 } }

/-- The output structure after `app_postprocess_init`. -/
def postprocess_initial_output : pd_postprocess_out_t ℚ :=
  { postprocess_zero_output with
    pOutData := (app_postprocess_init postprocess_zero_output.pOutData).2 }

/-- The parameters `app_postprocess_init` sets. -/
def postprocess_param : pd_model_pp_static_param_t ℚ :=
  (app_postprocess_init postprocess_zero_output.pOutData).1

/-- Tensors of a first frame: cells 0, 1 and 5 of row 0 have heat scores 9/10, 7/10 and
3/5; the column offset of cell 1 is -1, so that its box coincides with the box of cell 0;
all scales are 0. -/
def alias_frame_one : pd_model_pp_in_t ℚ :=
  { pScale := fun _ => 0
    pLms := fun _ => 0
    pHeatmap := fun i => if i = 0 then 9/10 else if i = 1 then 7/10 else if i = 5 then 3/5 else 0
    pOffset := fun i => if i = 3 then -1 else 0 }

/-- Tensors of a second frame: cells 0, 2 and 5 of row 0 have heat scores 9/10, 7/10 and
3/5, with no offsets, so that the three boxes are disjoint. -/
def alias_frame_two : pd_model_pp_in_t ℚ :=
  { pScale := fun _ => 0
    pLms := fun _ => 0
    pHeatmap := fun i => if i = 0 then 9/10 else if i = 2 then 7/10 else if i = 5 then 3/5 else 0
    pOffset := fun _ => 0 }

/-- The exponential on the only argument it is given by the two frames, 0. -/
def expf_zero : ℚ → ℚ := fun _ => 1

/-- The output structure after the first frame. -/
def alias_output_one : pd_postprocess_out_t ℚ :=
  (app_postprocess_run expf_zero insertion_qsort alias_frame_one postprocess_initial_output
    postprocess_param).2

/-- The output structure after the second frame. -/
def alias_output_two : pd_postprocess_out_t ℚ :=
  (app_postprocess_run expf_zero insertion_qsort alias_frame_two alias_output_one
    postprocess_param).2

/-! ## The CRC-32 of the specification -/

/-- Modelled from the spec: the driver function `HAL_CRC_Calculate` and the CRC unit
behind it are not part of the sources.  One bit step of "the standard CRC-32 (polynomial
`0xEDB88320` reflected form)": shift right, and reduce by the polynomial when the bit
shifted out was set. -/
def spec_crc_shift (crc : Nat) : Nat :=
  if crc % 2 = 1 then (crc >>> 1) ^^^ 0xEDB88320 else crc >>> 1

/-- Modelled from the spec: the driver function `HAL_CRC_Calculate` is not part of the
sources.  The standard CRC-32 "computed over whole 32-bit words": the register starts at
0xFFFFFFFF, each little-endian word is xor-ed into it and it is shifted 32 times, and the
result is complemented. -/
def spec_crc32_words (words : List Nat) : Nat :=
  (words.foldl (fun crc w => Nat.iterate spec_crc_shift 32 (crc ^^^ (w % 2 ^ 32)))
    0xFFFFFFFF) ^^^ 0xFFFFFFFF

/-! ## enhanced_pc_stream.c: the embedding message -/

/-- The message type `ROBUST_MSG_EMBEDDING_DATA`. -/
def ROBUST_MSG_EMBEDDING_DATA : Nat := 0x03

/-- The function `Enhanced_PC_STREAM_SendEmbedding` of enhanced_pc_stream.c: the returned
`bool`, the context and the contents of `temp_buffer` left behind, and the blocks handed
to the transport.  The packed structure `robust_embedding_data_t` is the 4-byte
`embedding_size`; `sizeof(temp_buffer)` is 64 * 1024. -/
def Enhanced_PC_STREAM_SendEmbedding {K : Type} (HAL_CRC_Calculate : List Nat → Nat)
    (tx_ok : Nat → Bool) (float_bytes : K → Nat → Nat) (ctx : enhanced_protocol_ctx_t)
    (temp_buffer : Nat → Nat) (embedding : Option (Nat → K)) (size : Nat) :
    Bool × enhanced_protocol_ctx_t × (Nat → Nat) × List (List Nat) :=
  match embedding with
  | none => (false, ctx, temp_buffer, [])
  | some e =>
    if size % 2 ^ 32 = 0 ∨ size % 2 ^ 32 > 1024 then (false, ctx, temp_buffer, [])
    else
      let buffer := memcpy_bytes temp_buffer 0 (le32_bytes (size % 2 ^ 32))
      let offset := 4
      let embedding_bytes := (size % 2 ^ 32 * 4) % 2 ^ 32
      if (offset + embedding_bytes) % 2 ^ 32 > 64 * 1024 then
        (false, count_send_error ctx, buffer, [])
      else
        let buffer :=
          memcpy_bytes buffer offset
            ((List.range (size % 2 ^ 32)).flatMap (fun i => float_le_bytes float_bytes (e i)))
        let offset := (offset + embedding_bytes) % 2 ^ 32
        let sent :=
          robust_send_message HAL_CRC_Calculate tx_ok ctx ROBUST_MSG_EMBEDDING_DATA
            (some buffer) offset
        (sent.1, sent.2.1, buffer, sent.2.2)

/-! ## The same functions over the `float` operations, and binary32

The definitions above read `float` values as elements of an ordered field.  The
definitions below transcribe target_embedding.c and `pd_pp_compute_iou` once more, over
an explicit set of `float` operations, so that they can be run with the IEEE 754
binary32 arithmetic of the target (round to nearest, ties to even, overflow to infinity,
gradual underflow). -/

/-- The operations on `float` values used by target_embedding.c and by
`pd_pp_compute_iou`: the constant `0.f`, the conversion of an `int`, the four arithmetic
operations, `sqrtf`, and the comparisons `<`, `<=` and `==`. -/
structure float_ops (F : Type) where
  zero : F
  of_int : Int → F
  add : F → F → F
  sub : F → F → F
  mul : F → F → F
  div : F → F → F
  sqrtf : F → F
  lt : F → F → Bool
  le : F → F → Bool
  eq : F → F → Bool

/-- The operations of the exact reading: the operations of the ordered field `K`, with
the square root as a parameter. -/
def exact_ops {K : Type} [LinearOrderedField K] (sqrtf : K → K) : float_ops K :=
  { zero := 0
    of_int := fun n => (n : K)
    add := fun a b => a + b
    sub := fun a b => a - b
    mul := fun a b => a * b
    div := fun a b => a / b
    sqrtf := sqrtf
    lt := fun a b => decide (a < b)
    le := fun a b => decide (a ≤ b)
    eq := fun a b => decide (a = b) }

/-- A binary32 value: a finite value `n * 2^-149` (every finite binary32 value is an
integer multiple of the smallest subnormal 2^-149), an infinity with its sign, or a NaN.
The sign of zero and the payload of a NaN are not represented: the functions below do
not observe them.  The binary32 values are the `finite n` with `|n| < 2^277` and at most
24 significant bits; the operations below return such values, and the inputs used in the
evaluations are powers of two. -/
inductive binary32 where
  | finite (n : Int)
  | inf (negative : Bool)
  | nan
deriving DecidableEq, Repr

/-- The rational number a finite binary32 value stands for (0 for an infinity or a
NaN). -/
def binary32_value : binary32 → ℚ
  | binary32.finite n => (n : ℚ) / 2 ^ 149
  | _ => 0

/-- The exponent of the spacing of the binary32 values around the magnitude
`x * 2^-149`: the spacing is `2^k * 2^-149` for the least `k` with `x < 2^(k + 24)`
(24 significant bits; `k = 0` covers the subnormal range), which is
`floor (log2 x) - 23` from `x = 2^24` on.  The search stops at 254, where the magnitude
is beyond the binary32 range. -/
def binary32_exponent (x : Nat) : Nat :=
  ((List.range 254).find? (fun k => x / 2 ^ k < 2 ^ 24)).getD 254

/-- Rounding to binary32 of the exact value `(num / den) * 2^-149`, to nearest with ties
to even, on the grid of spacing `2^k * 2^-149` given by `binary32_exponent`; a rounded
magnitude of `2^128`, which is `(2^128 * 2^149) * 2^-149`, or more is an overflow to
infinity. -/
def binary32_round (num : Int) (den : Nat) : binary32 :=
  let a := num.natAbs
  let k := binary32_exponent (a / den)
  let ulp := 2 ^ k
  let q := a / (den * ulp)
  let r := a % (den * ulp)
  let q :=
    if 2 * r < den * ulp then q
    else if 2 * r > den * ulp then q + 1
    else if q % 2 = 0 then q else q + 1
  let mag := q * ulp
  if mag ≥ 2 ^ 128 * 2 ^ 149 then binary32.inf (decide (num < 0))
  else binary32.finite (if num < 0 then -(mag : Int) else (mag : Int))

/-- The binary32 negation. -/
def binary32_neg : binary32 → binary32
  | binary32.finite a => binary32.finite (-a)
  | binary32.inf s => binary32.inf (!s)
  | binary32.nan => binary32.nan

/-- The binary32 addition. -/
def binary32_add : binary32 → binary32 → binary32
  | binary32.finite a, binary32.finite b => binary32_round (a + b) 1
  | binary32.finite _, binary32.inf s => binary32.inf s
  | binary32.inf s, binary32.finite _ => binary32.inf s
  | binary32.inf s, binary32.inf t => if s = t then binary32.inf s else binary32.nan
  | _, _ => binary32.nan

/-- The binary32 subtraction. -/
def binary32_sub (x y : binary32) : binary32 :=
  binary32_add x (binary32_neg y)

/-- The binary32 multiplication: the product of `a * 2^-149` and `b * 2^-149` is
`(a * b / 2^149) * 2^-149`. -/
def binary32_mul : binary32 → binary32 → binary32
  | binary32.finite a, binary32.finite b => binary32_round (a * b) (2 ^ 149)
  | binary32.finite a, binary32.inf s =>
    if a = 0 then binary32.nan else binary32.inf (xor (decide (a < 0)) s)
  | binary32.inf s, binary32.finite a =>
    if a = 0 then binary32.nan else binary32.inf (xor s (decide (a < 0)))
  | binary32.inf s, binary32.inf t => binary32.inf (xor s t)
  | _, _ => binary32.nan

/-- The binary32 division: the quotient of `a * 2^-149` by `b * 2^-149` is
`(a * 2^149 / b) * 2^-149`; a zero divisor is taken as `+0`. -/
def binary32_div : binary32 → binary32 → binary32
  | binary32.finite a, binary32.finite b =>
    if b = 0 then (if a = 0 then binary32.nan else binary32.inf (decide (a < 0)))
    else binary32_round (a * 2 ^ 149 * b.sign) b.natAbs
  | binary32.finite _, binary32.inf _ => binary32.finite 0
  | binary32.inf s, binary32.finite b => binary32.inf (xor s (decide (b < 0)))
  | _, _ => binary32.nan

/-- The binary32 square root, correctly rounded: the root of a zero is that zero, the
root of `a * 2^-149` is `sqrt (a * 2^149) * 2^-149`, and `sqrt n` lies below, at or above
the midpoint `(q + 1/2) * 2^k` according to how `4 * n` compares with
`(2 * q + 1)^2 * 4^k`. -/
def binary32_sqrt : binary32 → binary32
  | binary32.finite a =>
    if a < 0 then binary32.nan
    else if a = 0 then binary32.finite 0
    else
      let n := a.natAbs * 2 ^ 149
      let k := binary32_exponent (Nat.sqrt n)
      let q := Nat.sqrt (n / 4 ^ k)
      let q :=
        if 4 * n < (2 * q + 1) ^ 2 * 4 ^ k then q
        else if 4 * n > (2 * q + 1) ^ 2 * 4 ^ k then q + 1
        else if q % 2 = 0 then q else q + 1
      binary32.finite ((q * 2 ^ k : Nat) : Int)
  | binary32.inf s => if s then binary32.nan else binary32.inf false
  | binary32.nan => binary32.nan

/-- The binary32 comparison `<` (false when an operand is a NaN). -/
def binary32_lt : binary32 → binary32 → Bool
  | binary32.finite a, binary32.finite b => decide (a < b)
  | binary32.finite _, binary32.inf s => !s
  | binary32.inf s, binary32.finite _ => s
  | binary32.inf s, binary32.inf t => s && !t
  | _, _ => false

/-- The binary32 comparison `==` (false when an operand is a NaN). -/
def binary32_eq : binary32 → binary32 → Bool
  | binary32.finite a, binary32.finite b => decide (a = b)
  | binary32.inf s, binary32.inf t => decide (s = t)
  | _, _ => false

/-- The binary32 operations. -/
def binary32_ops : float_ops binary32 :=
  { zero := binary32.finite 0
    of_int := fun n => binary32_round (n * 2 ^ 149) 1
    add := binary32_add
    sub := binary32_sub
    mul := binary32_mul
    div := binary32_div
    sqrtf := binary32_sqrt
    lt := binary32_lt
    le := fun x y => binary32_lt x y || binary32_eq x y
    eq := binary32_eq }

/-- The accumulation loop `for (i = 0; i < n; i++) norm += v[i] * v[i];` started from
`norm = 0.f`, over the operations `ops`. -/
def sum_squares_ops {F : Type} (ops : float_ops F) (v : Nat → F) (n : Nat) : F :=
  (List.range n).foldl (fun norm i => ops.add norm (ops.mul (v i) (v i))) ops.zero

/-- The function `compute_target` of target_embedding.c over the operations `ops`. -/
def compute_target_ops {F : Type} (ops : float_ops F) (s : BankState F) : BankState F :=
  if s.bank_count = 0 then
    { s with
      target_embedding := fun i => if i < EMBEDDING_SIZE then ops.zero else s.target_embedding i }
  else
    let sum : Nat → F :=
      (List.range s.bank_count).foldl
        (fun sum n =>
          (List.range EMBEDDING_SIZE).foldl
            (fun sum i => Function.update sum i (ops.add (sum i) (s.embedding_bank n i))) sum)
        (fun _ => ops.zero)
    let target1 : Nat → F :=
      (List.range EMBEDDING_SIZE).foldl
        (fun t i => Function.update t i (ops.div (sum i) (ops.of_int (s.bank_count : Int))))
        s.target_embedding
    let norm := ops.sqrtf (sum_squares_ops ops target1 EMBEDDING_SIZE)
    if ops.lt ops.zero norm then
      let target2 : Nat → F :=
        (List.range EMBEDDING_SIZE).foldl
          (fun t i => Function.update t i (ops.div (t i) norm)) target1
      { s with target_embedding := target2 }
    else
      { s with target_embedding := target1 }

/-- The function `embeddings_bank_init` of target_embedding.c over the operations
`ops`. -/
def embeddings_bank_init_ops {F : Type} (ops : float_ops F) (s : BankState F) : BankState F :=
  { bank_count := 0
    embedding_bank := fun n i =>
      if n < EMBEDDING_BANK_SIZE ∧ i < EMBEDDING_SIZE then ops.zero else s.embedding_bank n i
    target_embedding := fun i => if i < EMBEDDING_SIZE then ops.zero else s.target_embedding i }

/-- The function `embeddings_bank_add` of target_embedding.c over the operations `ops`:
the returned `int` and the state it leaves. -/
def embeddings_bank_add_ops {F : Type} (ops : float_ops F)
    (s : BankState F) (embedding : Nat → F) : Int × BankState F :=
  if s.bank_count ≥ EMBEDDING_BANK_SIZE then
    (-1, s)
  else
    let norm := ops.sqrtf (sum_squares_ops ops embedding EMBEDDING_SIZE)
    if ops.eq norm ops.zero then
      (-1, s)
    else
      let bank : Nat → Nat → F :=
        (List.range EMBEDDING_SIZE).foldl
          (fun b i =>
            Function.update b s.bank_count
              (Function.update (b s.bank_count) i (ops.div (embedding i) norm)))
          s.embedding_bank
      let s1 : BankState F := { s with embedding_bank := bank, bank_count := s.bank_count + 1 }
      let s2 := compute_target_ops ops s1
      ((s2.bank_count : Int), s2)

/-- The macro `MIN(a, b)` over the operations `ops`.  Its definition is not among the
sources; it is read as the usual `((a) < (b) ? (a) : (b))`. -/
def MIN_ops {F : Type} (ops : float_ops F) (a b : F) : F :=
  if ops.lt a b then a else b

/-- The macro `MAX(a, b)` over the operations `ops`.  Its definition is not among the
sources; it is read as the usual `((a) > (b) ? (a) : (b))`. -/
def MAX_ops {F : Type} (ops : float_ops F) (a b : F) : F :=
  if ops.lt b a then a else b

/-- The function `pd_pp_compute_opposite_corners_from_box` of pd_pp_model.c over the
operations `ops`. -/
def pd_pp_compute_opposite_corners_from_box_ops {F : Type} (ops : float_ops F)
    (box : pd_pp_box_t F) : pd_pp_point_t F × pd_pp_point_t F :=
  ({ x := ops.sub box.x_center (ops.div box.width (ops.of_int 2)),
     y := ops.sub box.y_center (ops.div box.height (ops.of_int 2)) },
   { x := ops.add box.x_center (ops.div box.width (ops.of_int 2)),
     y := ops.add box.y_center (ops.div box.height (ops.of_int 2)) })

/-- The function `pd_pp_compute_iou` of pd_pp_model.c over the operations `ops`. -/
def pd_pp_compute_iou_ops {F : Type} (ops : float_ops F) (box0 box1 : pd_pp_box_t F) : F :=
  let corners0 := pd_pp_compute_opposite_corners_from_box_ops ops box0
  let corners1 := pd_pp_compute_opposite_corners_from_box_ops ops box1
  let xmin0 := MIN_ops ops corners0.1.x corners0.2.x
  let xmax0 := MAX_ops ops corners0.1.x corners0.2.x
  let ymin0 := MIN_ops ops corners0.1.y corners0.2.y
  let ymax0 := MAX_ops ops corners0.1.y corners0.2.y
  let xmin1 := MIN_ops ops corners1.1.x corners1.2.x
  let xmax1 := MAX_ops ops corners1.1.x corners1.2.x
  let ymin1 := MIN_ops ops corners1.1.y corners1.2.y
  let ymax1 := MAX_ops ops corners1.1.y corners1.2.y
  let area0 := ops.mul (ops.sub ymax0 ymin0) (ops.sub xmax0 xmin0)
  let area1 := ops.mul (ops.sub ymax1 ymin1) (ops.sub xmax1 xmin1)
  if ops.le area0 (ops.of_int 0) || ops.le area1 (ops.of_int 0) then ops.of_int 0
  else
    let intersect_xmin := MAX_ops ops xmin0 xmin1
    let intersect_ymin := MAX_ops ops ymin0 ymin1
    let intersect_xmax := MIN_ops ops xmax0 xmax1
    let intersect_ymax := MIN_ops ops ymax0 ymax1
    let intersect_area :=
      ops.mul (MAX_ops ops (ops.sub intersect_ymax intersect_ymin) ops.zero)
        (MAX_ops ops (ops.sub intersect_xmax intersect_xmin) ops.zero)
    ops.div intersect_area (ops.sub (ops.add area0 area1) intersect_area)

/-- The state of target_embedding.c with every binary32 value zero and an empty bank,
as `embeddings_bank_init` leaves it. -/
def binary32_zero_state : BankState binary32 :=
  { target_embedding := fun _ => binary32.finite 0
    embedding_bank := fun _ _ => binary32.finite 0
    bank_count := 0 }

/-- The binary32 embedding `2^-100 * e0`: first component 2^-100 (`2^49 * 2^-149`), all
others 0. -/
def binary32_tiny_embedding : Nat → binary32 :=
  fun i => if i = 0 then binary32.finite (2 ^ 49) else binary32.finite 0

/-- The binary32 embedding `2^100 * e0`: first component 2^100 (`2^249 * 2^-149`), all
others 0. -/
def binary32_huge_embedding : Nat → binary32 :=
  fun i => if i = 0 then binary32.finite (2 ^ 249) else binary32.finite 0

/-- A binary32 box of width and height 2^-80 (`2^69 * 2^-149`) with its lower corner at
the origin, so centred at (2^-81, 2^-81): the shape `pd_pp_decode` writes for a box whose
corner was clamped to 0. -/
def binary32_small_box : pd_pp_box_t binary32 :=
  { prob := binary32.finite (2 ^ 149), x_center := binary32.finite (2 ^ 68),
    y_center := binary32.finite (2 ^ 68), width := binary32.finite (2 ^ 69),
    height := binary32.finite (2 ^ 69), pKps := 0 }

/-! ## Auxiliary facts about the accumulation loops -/

theorem foldl_add_eq_sum {K : Type} [LinearOrderedField K] (g : Nat → K) (n : Nat) :
    (List.range n).foldl (fun acc i => acc + g i) 0 = ∑ i in Finset.range n, g i := by
  induction n with
  | zero => simp
  | succ n ih => rw [List.range_succ, List.foldl_append, ih, Finset.sum_range_succ]; simp

theorem sum_squares_eq_sum {K : Type} [LinearOrderedField K] (v : Nat → K) (n : Nat) :
    sum_squares v n = ∑ i in Finset.range n, v i * v i :=
  foldl_add_eq_sum (fun i => v i * v i) n

theorem sum_squares_nonneg {K : Type} [LinearOrderedField K] (v : Nat → K) (n : Nat) :
    0 ≤ sum_squares v n := by
  rw [sum_squares_eq_sum]
  exact Finset.sum_nonneg (fun i _ => mul_self_nonneg (v i))

theorem sum_squares_eq_zero_iff {K : Type} [LinearOrderedField K] (v : Nat → K) (n : Nat) :
    sum_squares v n = 0 ↔ ∀ i, i < n → v i = 0 := by
  rw [sum_squares_eq_sum, Finset.sum_eq_zero_iff_of_nonneg (fun i _ => mul_self_nonneg (v i))]
  simp

theorem compute_target_bank_count {K : Type} [LinearOrderedField K] (sqrtf : K → K)
    (s : BankState K) : (compute_target sqrtf s).bank_count = s.bank_count := by
  unfold compute_target
  by_cases h : s.bank_count = 0
  · simp [h]
  · simp only [h, if_false]
    split_ifs <;> rfl

theorem cosine_fold_eq_sums {K : Type} [LinearOrderedField K] (e1 e2 : Nat → K) (len : Nat) :
    (List.range len).foldl
        (fun (acc : K × K × K) i =>
          let val1 := e1 i
          let val2 := e2 i
          (acc.1 + val1 * val2, acc.2.1 + val1 * val1, acc.2.2 + val2 * val2))
        (0, 0, 0)
      = (∑ i in Finset.range len, e1 i * e2 i,
         ∑ i in Finset.range len, e1 i * e1 i,
         ∑ i in Finset.range len, e2 i * e2 i) := by
  induction len with
  | zero => simp
  | succ n ih =>
    rw [List.range_succ, List.foldl_append, ih]
    simp [Finset.sum_range_succ]

theorem embedding_cosine_similarity_some {K : Type} [LinearOrderedField K]
    (fdiv : K → K → K) (sqrtf : K → K) (e1 e2 : Nat → K) (len : Nat) :
    embedding_cosine_similarity fdiv sqrtf (some e1) (some e2) len =
      if len = 0 then 0
      else if (∑ i in Finset.range len, e1 i * e1 i) = 0 ∨
          (∑ i in Finset.range len, e2 i * e2 i) = 0 then 0
      else fdiv (∑ i in Finset.range len, e1 i * e2 i)
        (sqrtf ((∑ i in Finset.range len, e1 i * e1 i) *
          (∑ i in Finset.range len, e2 i * e2 i))) := by
  simp only [embedding_cosine_similarity, cosine_fold_eq_sums]

/-! ## Auxiliary facts about the detection history -/

theorem history_invariant (bs : List Bool) :
    (bs.foldl update_target_detection_history g_app_ctx).history_index = bs.length % 5 ∧
    (bs.foldl update_target_detection_history g_app_ctx).history_count = min bs.length 5 ∧
    bs.reverse.take 5 =
      (List.range (min bs.length 5)).map
        (fun k => (bs.foldl update_target_detection_history g_app_ctx).target_detection_history
          ((bs.length - 1 - k) % 5)) := by
  induction bs using List.reverseRecOn with
  | nil => simp [g_app_ctx]
  | append_singleton bs b ih =>
    obtain ⟨hidx, hcnt, hwin⟩ := ih
    rw [List.foldl_append]
    simp only [List.foldl_cons, List.foldl_nil, List.length_append, List.length_singleton]
    refine ⟨?_, ?_, ?_⟩
    · simp only [update_target_detection_history, hidx]
      omega
    · simp only [update_target_detection_history, hcnt]
      split_ifs <;> omega
    · have hmin : min (bs.length + 1) 5 = min bs.length 4 + 1 := by omega
      rw [hmin, List.range_succ_eq_map, List.map_cons, List.map_map, List.reverse_append]
      simp only [List.reverse_singleton, List.singleton_append, List.take_succ_cons]
      congr 1
      · simp [update_target_detection_history, hidx]
      · have h4 : List.take 4 bs.reverse = List.take 4 (List.take 5 bs.reverse) := by
          rw [List.take_take]
          rfl
        rw [h4, hwin, ← List.map_take, List.take_range]
        have hmm : min 4 (min bs.length 5) = min bs.length 4 := by omega
        rw [hmm]
        apply List.map_congr_left
        intro k hk
        have hk2 : k < min bs.length 4 := List.mem_range.mp hk
        simp only [Function.comp, update_target_detection_history, hidx]
        have hne : (bs.length + 1 - 1 - (k + 1)) % 5 ≠ bs.length % 5 := by omega
        rw [Function.update_noteq hne]
        congr 1
        omega

theorem positive_detections_eq_count (hist : Nat → Bool) (c : Nat) (hc : c ≤ 5) :
    (List.range c).foldl
        (fun positive_detections i =>
          if hist i then (positive_detections + 1) % 2 ^ 32 else positive_detections) 0
      = ((List.range c).map hist).count true := by
  induction c with
  | zero => simp
  | succ n ih =>
    have hn : n ≤ 5 := by omega
    rw [List.range_succ, List.foldl_append, ih hn, List.map_append, List.count_append]
    have hle : List.count true (List.map hist (List.range n)) ≤ n := by
      have := List.count_le_length true (List.map hist (List.range n))
      simpa using this
    cases hb : hist n
    · simp [hb]
    · simp only [List.foldl_cons, List.foldl_nil, hb, if_true, List.map_cons, List.map_nil,
        List.count_singleton_self]
      omega

theorem window_index_perm (n : Nat) :
    ((List.range (min n 5)).map (fun k => (n - 1 - k) % 5)).Perm (List.range (min n 5)) := by
  by_cases h5 : n < 5
  · interval_cases n <;> decide
  · have hmin : min n 5 = 5 := by omega
    rw [hmin]
    have hr : n % 5 < 5 := Nat.mod_lt _ (by decide)
    have e0 : (n - 1 - 0) % 5 = (n % 5 + 4) % 5 := by omega
    have e1 : (n - 1 - 1) % 5 = (n % 5 + 3) % 5 := by omega
    have e2 : (n - 1 - 2) % 5 = (n % 5 + 2) % 5 := by omega
    have e3 : (n - 1 - 3) % 5 = (n % 5 + 1) % 5 := by omega
    have e4 : (n - 1 - 4) % 5 = (n % 5 + 0) % 5 := by omega
    have hl : (List.range 5).map (fun k => (n - 1 - k) % 5)
        = [(n % 5 + 4) % 5, (n % 5 + 3) % 5, (n % 5 + 2) % 5, (n % 5 + 1) % 5,
            (n % 5 + 0) % 5] := by
      simp only [List.range_succ, List.range_zero, List.nil_append, List.cons_append,
        List.map_cons, List.map_nil, e0, e1, e2, e3, e4]
    rw [hl]
    generalize n % 5 = r at hr
    interval_cases r <;> decide

/-! ## Auxiliary facts about non-maximum suppression -/

theorem pd_pp_nms_comparator_le_zero_iff {K : Type} [LinearOrderedField K]
    (a b : pd_pp_box_t K) : pd_pp_nms_comparator a b ≤ 0 ↔ b.prob ≤ a.prob := by
  unfold pd_pp_nms_comparator
  by_cases h1 : a.prob < b.prob
  · simp [h1]
  · by_cases h2 : a.prob > b.prob
    · simp [h1, h2, le_of_lt h2]
    · simp [h1, h2, not_lt.mp h1]

theorem pd_pp_compute_iou_comm {K : Type} [LinearOrderedField K] (a b : pd_pp_box_t K) :
    pd_pp_compute_iou a b = pd_pp_compute_iou b a := by
  unfold pd_pp_compute_iou
  simp only []
  generalize (pd_pp_compute_opposite_corners_from_box a).1.x = ax1
  generalize (pd_pp_compute_opposite_corners_from_box a).2.x = ax2
  generalize (pd_pp_compute_opposite_corners_from_box a).1.y = ay1
  generalize (pd_pp_compute_opposite_corners_from_box a).2.y = ay2
  generalize (pd_pp_compute_opposite_corners_from_box b).1.x = bx1
  generalize (pd_pp_compute_opposite_corners_from_box b).2.x = bx2
  generalize (pd_pp_compute_opposite_corners_from_box b).1.y = by1
  generalize (pd_pp_compute_opposite_corners_from_box b).2.y = by2
  have e1 : max (min ay1 ay2) (min by1 by2) = max (min by1 by2) (min ay1 ay2) := max_comm _ _
  have e2 : max (min ax1 ax2) (min bx1 bx2) = max (min bx1 bx2) (min ax1 ax2) := max_comm _ _
  have e3 : min (max ay1 ay2) (max by1 by2) = min (max by1 by2) (max ay1 ay2) := min_comm _ _
  have e4 : min (max ax1 ax2) (max bx1 bx2) = min (max bx1 bx2) (max ax1 ax2) := min_comm _ _
  have e5 : (max ay1 ay2 - min ay1 ay2) * (max ax1 ax2 - min ax1 ax2) +
      (max by1 by2 - min by1 by2) * (max bx1 bx2 - min bx1 bx2)
      = (max by1 by2 - min by1 by2) * (max bx1 bx2 - min bx1 bx2) +
        (max ay1 ay2 - min ay1 ay2) * (max ax1 ax2 - min ax1 ax2) := add_comm _ _
  rw [e1, e2, e3, e4, e5]
  split_ifs with h1 h2 h2
  · rfl
  · exact absurd (Or.symm h1) h2
  · exact absurd (Or.symm h2) h1
  · rfl

theorem any_map_apply {α β : Type} (f : α → β) (p : β → Bool) (l : List α) :
    (l.map f).any p = l.any (fun j => p (f j)) := by
  induction l with
  | nil => rfl
  | cons a l ih => simp only [List.map_cons, List.any_cons, ih]

theorem greedy_nms_append_singleton {K : Type} [LinearOrderedField K] (thr : K)
    (l : List (pd_pp_box_t K)) (b : pd_pp_box_t K) :
    greedy_nms thr (l ++ [b]) =
      if (greedy_nms thr l).any (fun k => decide (pd_pp_compute_iou b k ≥ thr)) then
        greedy_nms thr l
      else greedy_nms thr l ++ [b] := by
  simp only [greedy_nms, List.foldl_append, List.foldl_cons, List.foldl_nil]

theorem pd_pp_nms_loop_invariant {K : Type} [LinearOrderedField K] (thr : K)
    (sorted : List (pd_pp_box_t K)) (arr0 : Nat → pd_pp_box_t K)
    (h0 : ∀ i (hi : i < sorted.length), arr0 i = sorted[i]) (i : Nat)
    (hi : i ≤ sorted.length) :
    ((List.range i).foldl (pd_pp_nms_body thr) (arr0, 0)).2 ≤ i ∧
    (List.range ((List.range i).foldl (pd_pp_nms_body thr) (arr0, 0)).2).map
        ((List.range i).foldl (pd_pp_nms_body thr) (arr0, 0)).1
      = greedy_nms thr (sorted.take i) ∧
    ∀ k, i ≤ k → ((List.range i).foldl (pd_pp_nms_body thr) (arr0, 0)).1 k = arr0 k := by
  induction i with
  | zero => simp [greedy_nms]
  | succ i ih =>
    have hlt : i < sorted.length := hi
    obtain ⟨hle, hmap, hrest⟩ := ih (Nat.le_of_lt hlt)
    rw [List.range_succ, List.foldl_append]
    simp only [List.foldl_cons, List.foldl_nil]
    generalize (List.range i).foldl (pd_pp_nms_body thr) (arr0, 0) = st at hle hmap hrest
    have hsi : st.1 i = sorted[i] := by rw [hrest i (le_refl i), h0 i hlt]
    have htake : sorted.take (i + 1) = sorted.take i ++ [sorted[i]] := by
      rw [List.take_succ, List.getElem?_eq_getElem hlt]
      rfl
    have hany : (List.range st.2).any
          (fun j => decide (pd_pp_compute_iou (st.1 i) (st.1 j) ≥ thr))
        = (greedy_nms thr (sorted.take i)).any
          (fun k => decide (pd_pp_compute_iou sorted[i] k ≥ thr)) := by
      rw [← hmap, hsi]
      exact (any_map_apply st.1 (fun k => decide (pd_pp_compute_iou sorted[i] k ≥ thr))
        (List.range st.2)).symm
    rw [htake, greedy_nms_append_singleton]
    unfold pd_pp_nms_body
    simp only [hany]
    rcases Bool.eq_false_or_eq_true ((greedy_nms thr (sorted.take i)).any
        (fun k => decide (pd_pp_compute_iou sorted[i] k ≥ thr))) with hskip | hskip
    · simp only [hskip, if_true]
      refine ⟨Nat.le_succ_of_le hle, hmap, ?_⟩
      intro k hk
      exact hrest k (Nat.le_of_succ_le hk)
    · simp only [hskip, Bool.false_eq_true, if_false]
      refine ⟨Nat.succ_le_succ hle, ?_, ?_⟩
      · rw [List.range_succ, List.map_append, ← hmap]
        simp only [List.map_cons, List.map_nil, Function.update_same, hsi]
        congr 1
        apply List.map_congr_left
        intro j hj
        have hj2 : j < st.2 := List.mem_range.mp hj
        exact Function.update_noteq (Nat.ne_of_lt hj2) _ _
      · intro k hk
        have hne : k ≠ st.2 := by omega
        rw [Function.update_noteq hne]
        exact hrest k (Nat.le_of_succ_le hk)

theorem greedy_nms_properties {K : Type} [LinearOrderedField K] (thr : K)
    (l : List (pd_pp_box_t K)) (hs : l.Pairwise (fun a b => b.prob ≤ a.prob)) :
    (greedy_nms thr l).Sublist l ∧
    (greedy_nms thr l).Pairwise (fun a b => pd_pp_compute_iou b a < thr) ∧
    ∀ b, (greedy_nms thr l).count b < l.count b →
      ∃ k ∈ greedy_nms thr l, thr ≤ pd_pp_compute_iou b k ∧ b.prob ≤ k.prob := by
  induction l using List.reverseRecOn with
  | nil => simp [greedy_nms]
  | append_singleton l x ih =>
    rw [List.pairwise_append] at hs
    obtain ⟨hsl, _, hlx⟩ := hs
    obtain ⟨hsub, hpair, hdrop⟩ := ih hsl
    rw [greedy_nms_append_singleton]
    rcases Bool.eq_false_or_eq_true ((greedy_nms thr l).any
        (fun k => decide (pd_pp_compute_iou x k ≥ thr))) with hskip | hskip
    · simp only [hskip, if_true]
      refine ⟨hsub.trans (List.sublist_append_left l [x]), hpair, ?_⟩
      intro b hb
      by_cases hbx : b = x
      · subst hbx
        rw [List.any_eq_true] at hskip
        obtain ⟨k, hk, hiou⟩ := hskip
        refine ⟨k, hk, of_decide_eq_true hiou, ?_⟩
        exact hlx k (hsub.subset hk) b (List.mem_singleton_self b)
      · apply hdrop
        rw [List.count_append] at hb
        have : List.count b [x] = 0 := by
          rw [List.count_eq_zero]
          simpa using hbx
        omega
    · simp only [hskip, Bool.false_eq_true, if_false]
      refine ⟨List.Sublist.append hsub (List.Sublist.refl [x]), ?_, ?_⟩
      · rw [List.pairwise_append]
        refine ⟨hpair, List.pairwise_singleton _ _, ?_⟩
        intro a ha b hb
        rw [List.mem_singleton] at hb
        subst hb
        by_contra hcon
        have htrue : (greedy_nms thr l).any
            (fun k => decide (pd_pp_compute_iou b k ≥ thr)) = true := by
          rw [List.any_eq_true]
          exact ⟨a, ha, decide_eq_true (not_lt.mp hcon)⟩
        rw [hskip] at htrue
        exact Bool.false_ne_true htrue
      · intro b hb
        rw [List.count_append, List.count_append] at hb
        obtain ⟨k, hk, hrest⟩ := hdrop b (by omega)
        exact ⟨k, List.mem_append_left _ hk, hrest⟩

/-! ## Auxiliary facts about box decoding -/

theorem pd_pp_decode_box_pKps {K : Type} [LinearOrderedField K] (expf : K → K)
    (pInput : pd_model_pp_in_t K) (param : pd_model_pp_static_param_t K)
    (y x : Nat) (slot : pd_pp_box_t K) :
    (pd_pp_decode_box expf pInput param y x slot).pKps = slot.pKps := rfl

theorem pd_pp_decode_box_prob {K : Type} [LinearOrderedField K] (expf : K → K)
    (pInput : pd_model_pp_in_t K) (param : pd_model_pp_static_param_t K)
    (y x : Nat) (slot : pd_pp_box_t K) :
    (pd_pp_decode_box expf pInput param y x slot).prob = pInput.pHeatmap (y * 32 + x) := rfl

theorem pd_pp_decode_loop_boxes {K : Type} [LinearOrderedField K] (expf : K → K)
    (pInput : pd_model_pp_in_t K) (param : pd_model_pp_static_param_t K)
    (cs : List (Nat × Nat)) (out : pd_postprocess_out_t K) :
    (pd_pp_decode_loop expf pInput param cs out).box_nb
      = min (out.box_nb + (cs.filter
          (fun c => decide (pInput.pHeatmap (c.1 * 32 + c.2) > param.conf_threshold))).length)
        (max param.max_boxes_limit (out.box_nb + 1)) ∧
    (∀ k, (k < out.box_nb ∨ (pd_pp_decode_loop expf pInput param cs out).box_nb ≤ k) →
      (pd_pp_decode_loop expf pInput param cs out).pOutData k = out.pOutData k) ∧
    (∀ k c, (cs.filter
          (fun c => decide (pInput.pHeatmap (c.1 * 32 + c.2) > param.conf_threshold)))[k]?
        = some c →
      out.box_nb + k < (pd_pp_decode_loop expf pInput param cs out).box_nb →
      (pd_pp_decode_loop expf pInput param cs out).pOutData (out.box_nb + k)
        = pd_pp_decode_box expf pInput param c.1 c.2 (out.pOutData (out.box_nb + k))) := by
  induction cs generalizing out with
  | nil =>
    refine ⟨?_, ?_, ?_⟩
    · simp only [pd_pp_decode_loop, List.filter_nil, List.length_nil]
      omega
    · intro k _
      rfl
    · intro k c hk
      simp at hk
  | cons c rest ih =>
    obtain ⟨y, x⟩ := c
    by_cases hhot : pInput.pHeatmap (y * 32 + x) > param.conf_threshold
    · have hf : (List.filter
          (fun c => decide (pInput.pHeatmap (c.1 * 32 + c.2) > param.conf_threshold))
          ((y, x) :: rest)) = (y, x) :: List.filter
          (fun c => decide (pInput.pHeatmap (c.1 * 32 + c.2) > param.conf_threshold)) rest := by
        rw [List.filter_cons]
        simp [hhot]
      rw [hf]
      have hb1 : (pd_pp_decode_cell expf pInput param y x out).box_nb = out.box_nb + 1 := rfl
      have hd1 : (pd_pp_decode_cell expf pInput param y x out).pOutData
          = Function.update out.pOutData out.box_nb
            (pd_pp_decode_box expf pInput param y x (out.pOutData out.box_nb)) := rfl
      by_cases hcap : (pd_pp_decode_cell expf pInput param y x out).box_nb
          ≥ param.max_boxes_limit
      · have hr : pd_pp_decode_loop expf pInput param ((y, x) :: rest) out
            = pd_pp_decode_cell expf pInput param y x out := by
          simp only [pd_pp_decode_loop, hhot, hcap, if_true]
        rw [hr, hb1, hd1]
        rw [hb1] at hcap
        refine ⟨?_, ?_, ?_⟩
        · simp only [List.length_cons]
          omega
        · intro k hk
          have hne : k ≠ out.box_nb := by omega
          exact Function.update_noteq hne _ _
        · intro k c hk hlt
          have hk0 : k = 0 := by omega
          subst hk0
          simp only [List.getElem?_cons_zero, Option.some.injEq] at hk
          subst hk
          simp
      · have hr : pd_pp_decode_loop expf pInput param ((y, x) :: rest) out
            = pd_pp_decode_loop expf pInput param rest
              (pd_pp_decode_cell expf pInput param y x out) := by
          simp only [pd_pp_decode_loop, hhot, hcap, if_true, if_false]
        obtain ⟨ihn, ihout, ihin⟩ := ih (pd_pp_decode_cell expf pInput param y x out)
        rw [hr]
        rw [hb1] at hcap ihn ihout ihin
        refine ⟨?_, ?_, ?_⟩
        · rw [ihn]
          simp only [List.length_cons]
          omega
        · intro k hk
          have hne : k ≠ out.box_nb := by omega
          rw [ihout k (by omega), hd1, Function.update_noteq hne]
        · intro k c hk hlt
          cases k with
          | zero =>
            simp only [List.getElem?_cons_zero, Option.some.injEq] at hk
            subst hk
            rw [ihout (out.box_nb + 0) (by omega), hd1]
            simp
          | succ k =>
            simp only [List.getElem?_cons_succ] at hk
            have hidx : out.box_nb + (k + 1) = out.box_nb + 1 + k := by omega
            rw [hidx] at hlt ⊢
            rw [ihin k c hk hlt, hd1, Function.update_noteq (by omega)]
    · have hf : (List.filter
          (fun c => decide (pInput.pHeatmap (c.1 * 32 + c.2) > param.conf_threshold))
          ((y, x) :: rest)) = List.filter
          (fun c => decide (pInput.pHeatmap (c.1 * 32 + c.2) > param.conf_threshold)) rest := by
        rw [List.filter_cons]
        simp [hhot]
      have hr : pd_pp_decode_loop expf pInput param ((y, x) :: rest) out
          = pd_pp_decode_loop expf pInput param rest out := by
        simp only [pd_pp_decode_loop, hhot, if_false]
      rw [hf, hr]
      exact ih out

theorem kps_fold_apply {K : Type} (f : Nat → pd_pp_point_t K) (base n : Nat)
    (kps0 : Nat → pd_pp_point_t K) (a : Nat) :
    ((List.range n).foldl (fun kps j => Function.update kps (base + j) (f j)) kps0) a
      = if base ≤ a ∧ a < base + n then f (a - base) else kps0 a := by
  induction n with
  | zero =>
    have hno : ¬ (base ≤ a ∧ a < base + 0) := by omega
    rw [if_neg hno]
    rfl
  | succ n ih =>
    rw [List.range_succ, List.foldl_append]
    simp only [List.foldl_cons, List.foldl_nil]
    by_cases ha : a = base + n
    · subst ha
      have : base ≤ base + n ∧ base + n < base + (n + 1) := by omega
      simp [this]
    · rw [Function.update_noteq ha, ih]
      by_cases hin : base ≤ a ∧ a < base + n
      · have : base ≤ a ∧ a < base + (n + 1) := by omega
        simp [hin, this]
      · have : ¬ (base ≤ a ∧ a < base + (n + 1)) := by omega
        simp [hin, this]

theorem pd_pp_decode_cell_kps {K : Type} [LinearOrderedField K] (expf : K → K)
    (pInput : pd_model_pp_in_t K) (param : pd_model_pp_static_param_t K)
    (y x : Nat) (out : pd_postprocess_out_t K) (a : Nat) :
    (pd_pp_decode_cell expf pInput param y x out).kps a
      = if (out.pOutData out.box_nb).pKps ≤ a ∧
            a < (out.pOutData out.box_nb).pKps + param.nb_keypoints then
          pd_pp_decode_kp expf pInput param y x (a - (out.pOutData out.box_nb).pKps)
        else out.kps a := by
  unfold pd_pp_decode_cell
  simp only [pd_pp_decode_box_pKps]
  exact kps_fold_apply _ _ _ _ _

theorem pd_pp_decode_loop_kps_frame {K : Type} [LinearOrderedField K] (expf : K → K)
    (pInput : pd_model_pp_in_t K) (param : pd_model_pp_static_param_t K)
    (cs : List (Nat × Nat)) (out : pd_postprocess_out_t K) (a : Nat)
    (ha : ∀ k j, out.box_nb ≤ k →
      k < (pd_pp_decode_loop expf pInput param cs out).box_nb → j < param.nb_keypoints →
      a ≠ (out.pOutData k).pKps + j) :
    (pd_pp_decode_loop expf pInput param cs out).kps a = out.kps a := by
  induction cs generalizing out with
  | nil => rfl
  | cons c rest ih =>
    obtain ⟨y, x⟩ := c
    have hb1 : (pd_pp_decode_cell expf pInput param y x out).box_nb = out.box_nb + 1 := rfl
    have hd1 : (pd_pp_decode_cell expf pInput param y x out).pOutData
        = Function.update out.pOutData out.box_nb
          (pd_pp_decode_box expf pInput param y x (out.pOutData out.box_nb)) := rfl
    have hcell : ∀ r : pd_postprocess_out_t K, out.box_nb + 1 ≤ r.box_nb →
        (∀ k j, out.box_nb ≤ k → k < r.box_nb → j < param.nb_keypoints →
          a ≠ (out.pOutData k).pKps + j) →
        (pd_pp_decode_cell expf pInput param y x out).kps a = out.kps a := by
      intro r hr har
      rw [pd_pp_decode_cell_kps]
      have hnot : ¬ ((out.pOutData out.box_nb).pKps ≤ a ∧
          a < (out.pOutData out.box_nb).pKps + param.nb_keypoints) := by
        intro hin
        have := har out.box_nb (a - (out.pOutData out.box_nb).pKps) (le_refl _)
          (by omega) (by omega)
        omega
      simp [hnot]
    by_cases hhot : pInput.pHeatmap (y * 32 + x) > param.conf_threshold
    · by_cases hcap : (pd_pp_decode_cell expf pInput param y x out).box_nb
          ≥ param.max_boxes_limit
      · have hr : pd_pp_decode_loop expf pInput param ((y, x) :: rest) out
            = pd_pp_decode_cell expf pInput param y x out := by
          simp only [pd_pp_decode_loop, hhot, hcap, if_true]
        rw [hr] at ha ⊢
        exact hcell _ (by rw [hb1]) ha
      · have hr : pd_pp_decode_loop expf pInput param ((y, x) :: rest) out
            = pd_pp_decode_loop expf pInput param rest
              (pd_pp_decode_cell expf pInput param y x out) := by
          simp only [pd_pp_decode_loop, hhot, hcap, if_true, if_false]
        rw [hr] at ha ⊢
        have hn := (pd_pp_decode_loop_boxes expf pInput param rest
          (pd_pp_decode_cell expf pInput param y x out)).1
        rw [hb1] at hn hcap
        rw [ih (pd_pp_decode_cell expf pInput param y x out)]
        · exact hcell _ (by rw [hn]; omega) ha
        · intro k j hk hlt hj
          rw [hb1] at hk
          rw [hd1, Function.update_noteq (by omega)]
          exact ha k j (by omega) hlt hj
    · have hr : pd_pp_decode_loop expf pInput param ((y, x) :: rest) out
          = pd_pp_decode_loop expf pInput param rest out := by
        simp only [pd_pp_decode_loop, hhot, if_false]
      rw [hr] at ha ⊢
      exact ih out ha

theorem pd_pp_decode_loop_kps {K : Type} [LinearOrderedField K] (expf : K → K)
    (pInput : pd_model_pp_in_t K) (param : pd_model_pp_static_param_t K)
    (cs : List (Nat × Nat)) (out : pd_postprocess_out_t K)
    (hdisj : ∀ k1 k2 j1 j2, out.box_nb ≤ k1 → k1 < k2 →
      k2 < max param.max_boxes_limit (out.box_nb + 1) →
      j1 < param.nb_keypoints → j2 < param.nb_keypoints →
      (out.pOutData k1).pKps + j1 ≠ (out.pOutData k2).pKps + j2) :
    ∀ k c j, (cs.filter
          (fun c => decide (pInput.pHeatmap (c.1 * 32 + c.2) > param.conf_threshold)))[k]?
        = some c →
      out.box_nb + k < (pd_pp_decode_loop expf pInput param cs out).box_nb →
      j < param.nb_keypoints →
      (pd_pp_decode_loop expf pInput param cs out).kps ((out.pOutData (out.box_nb + k)).pKps + j)
        = pd_pp_decode_kp expf pInput param c.1 c.2 j := by
  induction cs generalizing out with
  | nil =>
    intro k c j hk
    simp at hk
  | cons c rest ih =>
    obtain ⟨y, x⟩ := c
    have hb1 : (pd_pp_decode_cell expf pInput param y x out).box_nb = out.box_nb + 1 := rfl
    have hd1 : (pd_pp_decode_cell expf pInput param y x out).pOutData
        = Function.update out.pOutData out.box_nb
          (pd_pp_decode_box expf pInput param y x (out.pOutData out.box_nb)) := rfl
    have hcell : ∀ j, j < param.nb_keypoints →
        (pd_pp_decode_cell expf pInput param y x out).kps ((out.pOutData out.box_nb).pKps + j)
          = pd_pp_decode_kp expf pInput param y x j := by
      intro j hj
      rw [pd_pp_decode_cell_kps]
      have hin : (out.pOutData out.box_nb).pKps ≤ (out.pOutData out.box_nb).pKps + j ∧
          (out.pOutData out.box_nb).pKps + j
            < (out.pOutData out.box_nb).pKps + param.nb_keypoints := by omega
      simp [hin]
    by_cases hhot : pInput.pHeatmap (y * 32 + x) > param.conf_threshold
    · have hf : (List.filter
          (fun c => decide (pInput.pHeatmap (c.1 * 32 + c.2) > param.conf_threshold))
          ((y, x) :: rest)) = (y, x) :: List.filter
          (fun c => decide (pInput.pHeatmap (c.1 * 32 + c.2) > param.conf_threshold)) rest := by
        rw [List.filter_cons]
        simp [hhot]
      rw [hf]
      by_cases hcap : (pd_pp_decode_cell expf pInput param y x out).box_nb
          ≥ param.max_boxes_limit
      · have hr : pd_pp_decode_loop expf pInput param ((y, x) :: rest) out
            = pd_pp_decode_cell expf pInput param y x out := by
          simp only [pd_pp_decode_loop, hhot, hcap, if_true]
        rw [hr, hb1]
        intro k c j hk hlt hj
        have hk0 : k = 0 := by omega
        subst hk0
        simp only [List.getElem?_cons_zero, Option.some.injEq] at hk
        subst hk
        exact hcell j hj
      · have hr : pd_pp_decode_loop expf pInput param ((y, x) :: rest) out
            = pd_pp_decode_loop expf pInput param rest
              (pd_pp_decode_cell expf pInput param y x out) := by
          simp only [pd_pp_decode_loop, hhot, hcap, if_true, if_false]
        rw [hr]
        have hn := (pd_pp_decode_loop_boxes expf pInput param rest
          (pd_pp_decode_cell expf pInput param y x out)).1
        rw [hb1] at hn hcap
        intro k c j hk hlt hj
        cases k with
        | zero =>
          simp only [List.getElem?_cons_zero, Option.some.injEq] at hk
          subst hk
          rw [pd_pp_decode_loop_kps_frame, Nat.add_zero]
          · exact hcell j hj
          · intro k' j' hk' hlt' hj'
            rw [hb1] at hk'
            rw [hd1, Function.update_noteq (by omega), Nat.add_zero]
            exact hdisj out.box_nb k' j j' (le_refl _) (by omega) (by rw [hn] at hlt'; omega)
              hj hj'
        | succ k =>
          simp only [List.getElem?_cons_succ] at hk
          have hidx : out.box_nb + (k + 1) = out.box_nb + 1 + k := by omega
          rw [hidx] at hlt ⊢
          have := ih (pd_pp_decode_cell expf pInput param y x out) (by
            intro k1 k2 j1 j2 h1 h12 h2 hj1 hj2
            rw [hb1] at h1 h2
            rw [hd1, Function.update_noteq (by omega), Function.update_noteq (by omega)]
            exact hdisj k1 k2 j1 j2 (by omega) h12 (by omega) hj1 hj2) k c j hk
            (by rw [hb1]; exact hlt) hj
          rw [hb1, hd1, Function.update_noteq (by omega)] at this
          exact this
    · have hf : (List.filter
          (fun c => decide (pInput.pHeatmap (c.1 * 32 + c.2) > param.conf_threshold))
          ((y, x) :: rest)) = List.filter
          (fun c => decide (pInput.pHeatmap (c.1 * 32 + c.2) > param.conf_threshold)) rest := by
        rw [List.filter_cons]
        simp [hhot]
      have hr : pd_pp_decode_loop expf pInput param ((y, x) :: rest) out
          = pd_pp_decode_loop expf pInput param rest out := by
        simp only [pd_pp_decode_loop, hhot, if_false]
      rw [hf, hr]
      exact ih out hdisj

theorem pd_pp_decode_cell_heat_congr {K : Type} [LinearOrderedField K] (expf : K → K)
    (pInput : pd_model_pp_in_t K) (param : pd_model_pp_static_param_t K)
    (heat : Nat → K) (y x : Nat) (out : pd_postprocess_out_t K)
    (h : heat (y * 32 + x) = pInput.pHeatmap (y * 32 + x)) :
    pd_pp_decode_cell expf { pInput with pHeatmap := heat } param y x out
      = pd_pp_decode_cell expf pInput param y x out := by
  unfold pd_pp_decode_cell pd_pp_decode_box pd_pp_decode_kp
  simp only [h]

theorem pd_pp_decode_loop_heat_congr {K : Type} [LinearOrderedField K] (expf : K → K)
    (pInput : pd_model_pp_in_t K) (param : pd_model_pp_static_param_t K)
    (heat : Nat → K) (cs : List (Nat × Nat)) (out : pd_postprocess_out_t K) (n : Nat)
    (hcap : max param.max_boxes_limit (out.box_nb + 1) ≤ out.box_nb + ((cs.take n).filter
      (fun c => decide (pInput.pHeatmap (c.1 * 32 + c.2) > param.conf_threshold))).length)
    (hagree : ∀ c ∈ cs.take n, heat (c.1 * 32 + c.2) = pInput.pHeatmap (c.1 * 32 + c.2)) :
    pd_pp_decode_loop expf { pInput with pHeatmap := heat } param cs out
      = pd_pp_decode_loop expf pInput param cs out := by
  induction cs generalizing out n with
  | nil =>
    simp only [List.take_nil, List.filter_nil, List.length_nil] at hcap
    omega
  | cons c rest ih =>
    obtain ⟨y, x⟩ := c
    cases n with
    | zero =>
      simp only [List.take_zero, List.filter_nil, List.length_nil] at hcap
      omega
    | succ n =>
      rw [List.take_succ_cons] at hcap hagree
      have hc : heat (y * 32 + x) = pInput.pHeatmap (y * 32 + x) :=
        hagree (y, x) (List.mem_cons_self _ _)
      have hrest : ∀ c ∈ rest.take n,
          heat (c.1 * 32 + c.2) = pInput.pHeatmap (c.1 * 32 + c.2) :=
        fun c hcm => hagree c (List.mem_cons_of_mem _ hcm)
      have hb1 : (pd_pp_decode_cell expf pInput param y x out).box_nb = out.box_nb + 1 := rfl
      by_cases hhot : pInput.pHeatmap (y * 32 + x) > param.conf_threshold
      · have hhot2 : heat (y * 32 + x) > param.conf_threshold := by rw [hc]; exact hhot
        rw [List.filter_cons] at hcap
        simp only [hhot, decide_True, if_true, List.length_cons] at hcap
        by_cases hcp : (pd_pp_decode_cell expf pInput param y x out).box_nb
            ≥ param.max_boxes_limit
        · simp only [pd_pp_decode_loop, hhot, hhot2, if_true,
            pd_pp_decode_cell_heat_congr expf pInput param heat y x out hc, hcp]
        · simp only [pd_pp_decode_loop, hhot, hhot2, if_true,
            pd_pp_decode_cell_heat_congr expf pInput param heat y x out hc, hcp, if_false]
          apply ih (pd_pp_decode_cell expf pInput param y x out) n _ hrest
          rw [hb1] at hcp ⊢
          omega
      · have hhot2 : ¬ heat (y * 32 + x) > param.conf_threshold := by rw [hc]; exact hhot
        rw [List.filter_cons] at hcap
        simp only [hhot, decide_False, Bool.false_eq_true, if_false] at hcap
        simp only [pd_pp_decode_loop, hhot, hhot2, if_false]
        exact ih out n hcap hrest

theorem grid_flatMap_eq (a b : Nat) (hb : 0 < b) :
    (List.range a).flatMap (fun y => (List.range b).map (fun x => (y, x)))
      = (List.range (a * b)).map (fun p => (p / b, p % b)) := by
  induction a with
  | zero => simp
  | succ a ih =>
    rw [List.range_succ, List.flatMap_append, ih, Nat.succ_mul, List.range_add,
      List.map_append, List.map_map]
    congr 1
    simp only [List.flatMap_cons, List.flatMap_nil, List.append_nil]
    apply List.map_congr_left
    intro x hx
    have hx2 : x < b := List.mem_range.mp hx
    simp only [Function.comp]
    rw [Nat.mul_comm a b, Nat.mul_add_div hb, Nat.mul_add_mod, Nat.div_eq_of_lt hx2,
      Nat.mod_eq_of_lt hx2, Nat.add_zero]

theorem pd_pp_grid_cells_eq :
    pd_pp_grid_cells = (List.range 1024).map (fun p => (p / 32, p % 32)) := by
  have h := grid_flatMap_eq 32 32 (by decide)
  rw [show 32 * 32 = 1024 from rfl] at h
  exact h

theorem cells_filter_map {K : Type} [LinearOrderedField K] (heat : Nat → K) (thr : K)
    (l : List Nat) :
    (l.map (fun p => (p / 32, p % 32))).filter (fun c => decide (heat (c.1 * 32 + c.2) > thr))
      = (l.filter (fun i => decide (heat i > thr))).map (fun p => (p / 32, p % 32)) := by
  rw [List.filter_map]
  congr 1
  apply List.filter_congr
  intro p _
  simp only [Function.comp, Nat.div_add_mod']

theorem pd_pp_grid_cells_filter {K : Type} [LinearOrderedField K] (heat : Nat → K) (thr : K) :
    pd_pp_grid_cells.filter (fun c => decide (heat (c.1 * 32 + c.2) > thr))
      = ((List.range 1024).filter (fun i => decide (heat i > thr))).map
          (fun p => (p / 32, p % 32)) := by
  have h := cells_filter_map heat thr (List.range 1024)
  rw [← pd_pp_grid_cells_eq] at h
  exact h

/-! ## Auxiliary facts about the protocol encoder -/

theorem and_255_mod (x : Nat) : (x &&& 0xFF) % 256 = x % 256 := by
  have h : x &&& 0xFF = x % 2 ^ 8 := Nat.and_pow_two_sub_one_eq_mod x 8
  rw [h]
  norm_num

theorem pd_pp_compute_iou_eq {K : Type} [LinearOrderedField K] (a b : pd_pp_box_t K) :
    pd_pp_compute_iou a b =
      if pd_pp_box_area a ≤ 0 ∨ pd_pp_box_area b ≤ 0 then 0
      else pd_pp_intersect_area a b / pd_pp_iou_divisor a b := rfl

theorem corner_span_eq_abs {K : Type} [LinearOrderedField K] (c w : K) :
    max (c - w / 2) (c + w / 2) - min (c - w / 2) (c + w / 2) = |w| := by
  rw [max_sub_min_eq_abs]
  congr 1
  ring

theorem pd_pp_box_area_eq {K : Type} [LinearOrderedField K] (a : pd_pp_box_t K) :
    pd_pp_box_area a = |a.height| * |a.width| := by
  simp only [pd_pp_box_area, pd_pp_compute_opposite_corners_from_box, corner_span_eq_abs]

theorem pd_pp_box_area_nonneg {K : Type} [LinearOrderedField K] (a : pd_pp_box_t K) :
    0 ≤ pd_pp_box_area a := by
  rw [pd_pp_box_area_eq]
  exact mul_nonneg (abs_nonneg _) (abs_nonneg _)

theorem pd_pp_box_area_le_zero_iff {K : Type} [LinearOrderedField K] (a : pd_pp_box_t K) :
    pd_pp_box_area a ≤ 0 ↔ a.width = 0 ∨ a.height = 0 := by
  rw [pd_pp_box_area_eq]
  constructor
  · intro h
    have h0 : |a.height| * |a.width| = 0 :=
      le_antisymm h (mul_nonneg (abs_nonneg _) (abs_nonneg _))
    rcases mul_eq_zero.mp h0 with h1 | h1
    · exact Or.inr (abs_eq_zero.mp h1)
    · exact Or.inl (abs_eq_zero.mp h1)
  · rintro (h | h)
    · rw [h, abs_zero, mul_zero]
    · rw [h, abs_zero, zero_mul]

theorem clipped_span_le {K : Type} [LinearOrderedField K] (lo0 hi0 lo1 hi1 : K)
    (h0 : lo0 ≤ hi0) :
    0 ≤ max (min hi0 hi1 - max lo0 lo1) 0 ∧ max (min hi0 hi1 - max lo0 lo1) 0 ≤ hi0 - lo0 := by
  constructor
  · exact le_max_right _ _
  · apply max_le
    · have h1 : min hi0 hi1 ≤ hi0 := min_le_left _ _
      have h2 : lo0 ≤ max lo0 lo1 := le_max_left _ _
      linarith
    · linarith

theorem pd_pp_intersect_area_bounds {K : Type} [LinearOrderedField K] (a b : pd_pp_box_t K) :
    0 ≤ pd_pp_intersect_area a b ∧ pd_pp_intersect_area a b ≤ pd_pp_box_area a := by
  simp only [pd_pp_intersect_area, pd_pp_box_area]
  have hy := clipped_span_le
    (min (pd_pp_compute_opposite_corners_from_box a).1.y
      (pd_pp_compute_opposite_corners_from_box a).2.y)
    (max (pd_pp_compute_opposite_corners_from_box a).1.y
      (pd_pp_compute_opposite_corners_from_box a).2.y)
    (min (pd_pp_compute_opposite_corners_from_box b).1.y
      (pd_pp_compute_opposite_corners_from_box b).2.y)
    (max (pd_pp_compute_opposite_corners_from_box b).1.y
      (pd_pp_compute_opposite_corners_from_box b).2.y) (min_le_max)
  have hx := clipped_span_le
    (min (pd_pp_compute_opposite_corners_from_box a).1.x
      (pd_pp_compute_opposite_corners_from_box a).2.x)
    (max (pd_pp_compute_opposite_corners_from_box a).1.x
      (pd_pp_compute_opposite_corners_from_box a).2.x)
    (min (pd_pp_compute_opposite_corners_from_box b).1.x
      (pd_pp_compute_opposite_corners_from_box b).2.x)
    (max (pd_pp_compute_opposite_corners_from_box b).1.x
      (pd_pp_compute_opposite_corners_from_box b).2.x) (min_le_max)
  exact ⟨mul_nonneg hy.1 hx.1, mul_le_mul hy.2 hx.2 hx.1 (le_trans hy.1 hy.2)⟩

theorem pd_pp_intersect_area_self {K : Type} [LinearOrderedField K] (a : pd_pp_box_t K) :
    pd_pp_intersect_area a a = pd_pp_box_area a := by
  simp only [pd_pp_intersect_area, pd_pp_box_area, min_self, max_self]
  rw [max_eq_left (sub_nonneg.mpr min_le_max), max_eq_left (sub_nonneg.mpr min_le_max)]

theorem pd_pp_iou_divisor_pos {K : Type} [LinearOrderedField K] (a b : pd_pp_box_t K)
    (hb : 0 < pd_pp_box_area b) : 0 < pd_pp_iou_divisor a b := by
  unfold pd_pp_iou_divisor
  have h := (pd_pp_intersect_area_bounds a b).2
  linarith

theorem pd_pp_compute_iou_self_eq_one {K : Type} [LinearOrderedField K] (a : pd_pp_box_t K)
    (hw : a.width ≠ 0) (hh : a.height ≠ 0) : pd_pp_compute_iou a a = 1 := by
  have hpos : 0 < pd_pp_box_area a := by
    apply lt_of_le_of_ne (pd_pp_box_area_nonneg a)
    intro h0
    rcases (pd_pp_box_area_le_zero_iff a).mp (le_of_eq h0.symm) with h | h
    · exact hw h
    · exact hh h
  rw [pd_pp_compute_iou_eq]
  have hno : ¬ (pd_pp_box_area a ≤ 0 ∨ pd_pp_box_area a ≤ 0) := by
    rintro (h | h) <;> exact absurd hpos (not_lt.mpr h)
  rw [if_neg hno]
  unfold pd_pp_iou_divisor
  rw [pd_pp_intersect_area_self]
  have hd : pd_pp_box_area a + pd_pp_box_area a - pd_pp_box_area a = pd_pp_box_area a := by ring
  rw [hd]
  exact div_self (ne_of_gt hpos)

/-! ## Auxiliary facts about repeated non-maximum suppression -/

theorem pd_pp_nms_box_list {K : Type} [LinearOrderedField K]
    (qsort : (pd_pp_box_t K → pd_pp_box_t K → Int) → List (pd_pp_box_t K) →
      List (pd_pp_box_t K))
    (pOutput : pd_postprocess_out_t K) (param : pd_model_pp_static_param_t K)
    (hperm : (qsort pd_pp_nms_comparator (box_list pOutput)).Perm (box_list pOutput)) :
    box_list (pd_pp_nms qsort pOutput param).2
      = greedy_nms param.iou_threshold (qsort pd_pp_nms_comparator (box_list pOutput)) ∧
    (pd_pp_nms qsort pOutput param).1 = (pd_pp_nms qsort pOutput param).2.box_nb ∧
    (pd_pp_nms qsort pOutput param).2.box_nb
      = (box_list (pd_pp_nms qsort pOutput param).2).length := by
  have hlen : (qsort pd_pp_nms_comparator (box_list pOutput)).length = pOutput.box_nb := by
    rw [hperm.length_eq]
    simp [box_list]
  have h0 : ∀ i (hi : i < (qsort pd_pp_nms_comparator (box_list pOutput)).length),
      (fun i => (qsort pd_pp_nms_comparator (box_list pOutput)).getD i (pOutput.pOutData i)) i
        = (qsort pd_pp_nms_comparator (box_list pOutput))[i] := by
    intro i hi
    simp [List.getD_eq_getElem?_getD, List.getElem?_eq_getElem hi]
  obtain ⟨_, hmap, _⟩ := pd_pp_nms_loop_invariant param.iou_threshold
    (qsort pd_pp_nms_comparator (box_list pOutput))
    (fun i => (qsort pd_pp_nms_comparator (box_list pOutput)).getD i (pOutput.pOutData i))
    h0 pOutput.box_nb (le_of_eq hlen.symm)
  rw [← hlen, List.take_length, hlen] at hmap
  refine ⟨hmap, rfl, ?_⟩
  simp only [box_list, List.length_map, List.length_range]

theorem insertion_sort_contract {K : Type} [LinearOrderedField K]
    (l : List (pd_pp_box_t K)) :
    (l.insertionSort (fun a b => pd_pp_nms_comparator a b ≤ 0)).Perm l ∧
    (l.insertionSort (fun a b => pd_pp_nms_comparator a b ≤ 0)).Pairwise
      (fun a b => pd_pp_nms_comparator a b ≤ 0) := by
  haveI : IsTotal (pd_pp_box_t K) (fun a b => pd_pp_nms_comparator a b ≤ 0) :=
    ⟨fun a b => by
      rw [pd_pp_nms_comparator_le_zero_iff, pd_pp_nms_comparator_le_zero_iff]
      exact le_total _ _⟩
  haveI : IsTrans (pd_pp_box_t K) (fun a b => pd_pp_nms_comparator a b ≤ 0) :=
    ⟨fun a b c => by
      rw [pd_pp_nms_comparator_le_zero_iff, pd_pp_nms_comparator_le_zero_iff,
        pd_pp_nms_comparator_le_zero_iff]
      exact fun h1 h2 => le_trans h2 h1⟩
  exact ⟨List.perm_insertionSort _ _, List.sorted_insertionSort _ _⟩

/-! ## Auxiliary facts about the per-frame processing and the LED update -/

theorem compute_target_detection_status_face_detected (ctx : app_context_t) :
    (compute_target_detection_status ctx).face_detected = ctx.face_detected := by
  unfold compute_target_detection_status
  split_ifs <;> rfl

theorem process_frame_detections_loop_invariant {K : Type} [LinearOrderedField K]
    (recog : Nat → pd_pp_box_t K → Option K) (l0 : frame_loop_state K)
    (h0 : l0.highest_similarity = 0) (hf0 : l0.st.ctx.face_detected = false) (k : Nat) :
    (∀ i, k ≤ i →
      ((List.range k).foldl (process_frame_detections_body recog) l0).st.boxes i
        = l0.st.boxes i) ∧
    (((List.range k).foldl (process_frame_detections_body recog) l0).st.ctx.face_detected
        = false →
      ((List.range k).foldl (process_frame_detections_body recog) l0).highest_similarity = 0) ∧
    0 ≤ ((List.range k).foldl (process_frame_detections_body recog) l0).highest_similarity ∧
    (((List.range k).foldl (process_frame_detections_body recog) l0).st.ctx.face_detected
        = true ↔
      ∃ i, i < k ∧ (l0.st.boxes i).prob ≥ FACE_DETECTION_CONFIDENCE_THRESHOLD ∧
        (recog i (l0.st.boxes i)).getD 0 > 0) := by
  induction k with
  | zero =>
    refine ⟨fun _ _ => rfl, fun _ => h0, le_of_eq h0.symm, ?_⟩
    simp [hf0]
  | succ k ih =>
    obtain ⟨hbox, hzero, hnn, hiff⟩ := ih
    rw [List.range_succ, List.foldl_append]
    simp only [List.foldl_cons, List.foldl_nil]
    generalize (List.range k).foldl (process_frame_detections_body recog) l0 = l
      at hbox hzero hnn hiff
    have hbk : l.st.boxes k = l0.st.boxes k := hbox k (le_refl k)
    have hlast : ∀ P : Nat → Prop, (∃ i, i < k + 1 ∧ P i) ↔ ((∃ i, i < k ∧ P i) ∨ P k) := by
      intro P
      constructor
      · rintro ⟨i, hi, hp⟩
        rcases Nat.lt_succ_iff_lt_or_eq.mp hi with h | h
        · exact Or.inl ⟨i, h, hp⟩
        · exact Or.inr (h ▸ hp)
      · rintro (⟨i, hi, hp⟩ | hp)
        · exact ⟨i, Nat.lt_succ_of_lt hi, hp⟩
        · exact ⟨k, Nat.lt_succ_self k, hp⟩
    rw [hlast]
    unfold process_frame_detections_body
    rw [hbk]
    by_cases hconf : (l0.st.boxes k).prob ≥ FACE_DETECTION_CONFIDENCE_THRESHOLD
    · simp only [hconf, if_true]
      by_cases hgt : (recog k (l0.st.boxes k)).getD 0 > l.highest_similarity
      · simp only [hgt, if_true]
        refine ⟨?_, ?_, ?_, ?_⟩
        · intro i hi
          rw [Function.update_noteq (by omega)]
          exact hbox i (by omega)
        · intro h
          exact absurd h (by simp)
        · exact le_of_lt (lt_of_le_of_lt hnn hgt)
        · constructor
          · intro _
            exact Or.inr ⟨trivial, lt_of_le_of_lt hnn hgt⟩
          · intro _
            trivial
      · simp only [hgt, if_false]
        refine ⟨?_, hzero, hnn, ?_⟩
        · intro i hi
          rw [Function.update_noteq (by omega)]
          exact hbox i (by omega)
        · rw [hiff]
          constructor
          · exact Or.inl
          · rintro (h | ⟨_, hpos⟩)
            · exact h
            · by_contra hno
              rw [← hiff, Bool.not_eq_true] at hno
              rw [hzero hno] at hgt
              exact hgt hpos
    · simp only [hconf, if_false]
      refine ⟨?_, hzero, hnn, ?_⟩
      · intro i hi
        rw [Function.update_noteq (by omega)]
        exact hbox i (by omega)
      · rw [hiff]
        constructor
        · exact Or.inl
        · rintro (h | ⟨hc, _⟩)
          · exact h
          · exact hc.elim

/-- After `process_frame_detections`, `face_detected` is set exactly when some box of the
frame has detection confidence at least the threshold and a recognition similarity
strictly above 0. -/
theorem process_frame_detections_face_detected {K : Type} [LinearOrderedField K]
    (recog : Nat → pd_pp_box_t K → Option K) (st : frame_state K) (box_count : Nat) :
    (process_frame_detections recog st box_count).ctx.face_detected = true ↔
      ∃ i, i < box_count ∧ (st.boxes i).prob ≥ FACE_DETECTION_CONFIDENCE_THRESHOLD ∧
        (recog i (st.boxes i)).getD 0 > 0 := by
  have hinv := (process_frame_detections_loop_invariant recog
    { st :=
        { st with
          ctx := { st.ctx with face_detected := false }
          face_verified := false
          current_similarity := 0
          g_cropped_face_valid := false
          g_current_similarity := 0
          embedding_valid := 0 }
      target_found_this_frame := false
      highest_similarity := 0
      best_embedding_valid := false } rfl rfl box_count).2.2.2
  unfold process_frame_detections
  simp only [compute_target_detection_status_face_detected]
  by_cases hpos : box_count > 0
  · simp only [hpos, if_true]
    exact hinv
  · have hz : box_count = 0 := by omega
    subst hz
    simp only [gt_iff_lt, lt_irrefl, if_false]
    exact hinv

theorem update_led_status_holdover_nonzero (t now : Nat) (ctx : app_context_t) (leds : Leds)
    (ht : t ≠ 0) (hts : ctx.last_stable_verification_ts = t)
    (htd : ctx.target_detected = false) (hfd : ctx.face_detected = false)
    (hel : u32_sub now t < 1000) :
    update_led_status now ctx leds
      = ({ ctx with led_timeout_active := true }, { LED1 := false, LED2 := true }) := by
  unfold update_led_status FACE_UNVERIFIED_LED_TIMEOUT_MS
  have hc : ctx.last_stable_verification_ts ≠ 0 ∧
      u32_sub now ctx.last_stable_verification_ts < 1000 := by
    rw [hts]
    exact ⟨ht, hel⟩
  simp [htd, hfd, hc.1, hc.2]

/-! ## Auxiliary facts about the enrollment bank -/

theorem foldl_update_pointwise {α : Type} (F : Nat → α → α) (m : Nat) (t0 : Nat → α) :
    (List.range m).foldl (fun t i => Function.update t i (F i (t i))) t0
      = fun i => if i < m then F i (t0 i) else t0 i := by
  induction m with
  | zero => funext i; simp
  | succ m ih =>
    rw [List.range_succ, List.foldl_append, ih]
    funext i
    simp only [List.foldl_cons, List.foldl_nil, lt_irrefl, if_false]
    by_cases him : i = m
    · subst him
      simp
    · rw [Function.update_noteq him]
      by_cases hlt : i < m
      · have : i < m + 1 := by omega
        simp [hlt, this]
      · have : ¬ i < m + 1 := by omega
        simp [hlt, this]

theorem bank_store_fold {K : Type} (f : Nat → K) (c m : Nat) (b0 : Nat → Nat → K) :
    (List.range m).foldl
        (fun b i => Function.update b c (Function.update (b c) i (f i))) b0
      = fun n i => if n = c ∧ i < m then f i else b0 n i := by
  induction m with
  | zero => funext n i; simp
  | succ m ih =>
    rw [List.range_succ, List.foldl_append, ih]
    funext n i
    simp only [List.foldl_cons, List.foldl_nil]
    by_cases hn : n = c
    · subst hn
      rw [Function.update_same]
      by_cases him : i = m
      · subst him
        simp
      · rw [Function.update_noteq him]
        by_cases hlt : i < m
        · have : i < m + 1 := by omega
          simp [hlt, this]
        · have : ¬ i < m + 1 := by omega
          simp [hlt, this]
    · rw [Function.update_noteq hn]
      simp [hn]

theorem bank_sum_fold {K : Type} [LinearOrderedField K] (bank : Nat → Nat → K) (m cnt : Nat) :
    (List.range cnt).foldl
        (fun sum n =>
          (List.range m).foldl
            (fun sum i => Function.update sum i (sum i + bank n i)) sum)
        (fun _ => 0)
      = fun i => if i < m then ∑ n in Finset.range cnt, bank n i else 0 := by
  induction cnt with
  | zero => funext i; simp
  | succ cnt ih =>
    rw [List.range_succ, List.foldl_append, ih]
    simp only [List.foldl_cons, List.foldl_nil]
    rw [foldl_update_pointwise (fun i x => x + bank cnt i)]
    funext i
    by_cases hlt : i < m
    · simp [hlt, Finset.sum_range_succ]
    · simp [hlt]

/-- The closed form of `compute_target` on a non-empty bank: the first 128 components of
the target are the mean of the stored entries, divided by the square root of the mean's
sum of squares when that root is positive. -/
theorem compute_target_nonempty {K : Type} [LinearOrderedField K] (sqrtf : K → K)
    (s : BankState K) (hc : s.bank_count ≠ 0) :
    (compute_target sqrtf s).bank_count = s.bank_count ∧
    (compute_target sqrtf s).embedding_bank = s.embedding_bank ∧
    ∀ i, i < 128 →
      (compute_target sqrtf s).target_embedding i =
        if sqrtf (∑ j in Finset.range 128, bank_mean s j * bank_mean s j) > 0 then
          bank_mean s i / sqrtf (∑ j in Finset.range 128, bank_mean s j * bank_mean s j)
        else bank_mean s i := by
  have hsq : ∀ t : Nat → K, (∀ j, j < 128 → t j = bank_mean s j) →
      sum_squares t EMBEDDING_SIZE = ∑ j in Finset.range 128, bank_mean s j * bank_mean s j := by
    intro t ht
    rw [sum_squares_eq_sum]
    apply Finset.sum_congr rfl
    intro j hj
    rw [ht j (Finset.mem_range.mp hj)]
  have ht1 : ∀ j, j < 128 →
      ((List.range EMBEDDING_SIZE).foldl
        (fun t i => Function.update t i
          (((List.range s.bank_count).foldl
            (fun sum n =>
              (List.range EMBEDDING_SIZE).foldl
                (fun sum i => Function.update sum i (sum i + s.embedding_bank n i)) sum)
            (fun _ => 0)) i / (s.bank_count : K))) s.target_embedding) j = bank_mean s j := by
    intro j hj
    rw [bank_sum_fold, foldl_update_pointwise (fun i _ =>
      (if i < EMBEDDING_SIZE then ∑ n in Finset.range s.bank_count, s.embedding_bank n i
        else 0) / (s.bank_count : K))]
    have hj2 : j < EMBEDDING_SIZE := hj
    simp only [hj2, if_true, bank_mean]
  unfold compute_target
  simp only [hc, if_false]
  rw [hsq _ ht1]
  by_cases hpos : sqrtf (∑ j in Finset.range 128, bank_mean s j * bank_mean s j) > 0
  · simp only [hpos, if_true]
    refine ⟨trivial, trivial, ?_⟩
    intro i hi
    rw [foldl_update_pointwise (fun _ x =>
      x / sqrtf (∑ j in Finset.range 128, bank_mean s j * bank_mean s j))]
    have hi2 : i < EMBEDDING_SIZE := hi
    simp only [hi2, if_true]
    rw [ht1 i hi]
  · simp only [hpos, if_false]
    exact ⟨trivial, trivial, fun i hi => ht1 i hi⟩

theorem embeddings_bank_add_ok {K : Type} [LinearOrderedField K] (sqrtf : K → K)
    (s : BankState K) (e : Nat → K) (hc : s.bank_count < 10)
    (hn : sqrtf (sum_squares e EMBEDDING_SIZE) ≠ 0) :
    embeddings_bank_add sqrtf s e =
      (((s.bank_count + 1 : Nat) : Int),
        compute_target sqrtf
          { s with
            embedding_bank := fun n i =>
              if n = s.bank_count ∧ i < EMBEDDING_SIZE then
                e i / sqrtf (sum_squares e EMBEDDING_SIZE)
              else s.embedding_bank n i
            bank_count := s.bank_count + 1 }) := by
  have hfull : ¬ s.bank_count ≥ EMBEDDING_BANK_SIZE := by
    simp only [EMBEDDING_BANK_SIZE]
    omega
  unfold embeddings_bank_add
  simp only [hfull, hn, if_false, compute_target_bank_count]
  rw [bank_store_fold (fun i => e i / sqrtf (sum_squares e EMBEDDING_SIZE))]

theorem real_norm_of_normalised (m t : Nat → ℝ)
    (ht : ∀ i, i < 128 → t i =
      if Real.sqrt (∑ j in Finset.range 128, m j * m j) > 0 then
        m i / Real.sqrt (∑ j in Finset.range 128, m j * m j)
      else m i) :
    (∀ i, i < 128 → t i = m i / Real.sqrt (∑ j in Finset.range 128, m j ^ 2)) ∧
    ((∃ i, i < 128 ∧ m i ≠ 0) → Real.sqrt (∑ i in Finset.range 128, t i ^ 2) = 1) ∧
    ((∀ i, i < 128 → m i = 0) →
      (∀ i, i < 128 → t i = 0) ∧ Real.sqrt (∑ i in Finset.range 128, t i ^ 2) = 0) := by
  have hpow : (∑ j in Finset.range 128, m j ^ 2) = ∑ j in Finset.range 128, m j * m j :=
    Finset.sum_congr rfl (fun j _ => pow_two (m j))
  have hnn : 0 ≤ ∑ j in Finset.range 128, m j * m j :=
    Finset.sum_nonneg (fun j _ => mul_self_nonneg (m j))
  refine ⟨?_, ?_, ?_⟩
  · intro i hi
    rw [ht i hi, hpow]
    by_cases hpos : Real.sqrt (∑ j in Finset.range 128, m j * m j) > 0
    · rw [if_pos hpos]
    · rw [if_neg hpos]
      have hz : ∑ j in Finset.range 128, m j * m j = 0 := by
        have := Real.sqrt_pos.not.mp hpos
        linarith
      have hmi : m i = 0 := by
        have := (Finset.sum_eq_zero_iff_of_nonneg
          (fun j _ => mul_self_nonneg (m j))).mp hz i (Finset.mem_range.mpr hi)
        exact mul_self_eq_zero.mp this
      rw [hmi, zero_div]
  · rintro ⟨i, hi, hne⟩
    have hpos : 0 < ∑ j in Finset.range 128, m j * m j := by
      apply lt_of_le_of_ne hnn
      intro hz
      have := (Finset.sum_eq_zero_iff_of_nonneg
        (fun j _ => mul_self_nonneg (m j))).mp hz.symm i (Finset.mem_range.mpr hi)
      exact hne (mul_self_eq_zero.mp this)
    have hspos : Real.sqrt (∑ j in Finset.range 128, m j * m j) > 0 := Real.sqrt_pos.mpr hpos
    have hsum : ∑ i in Finset.range 128, t i ^ 2 = 1 := by
      have hcongr : ∑ i in Finset.range 128, t i ^ 2
          = ∑ i in Finset.range 128,
              m i * m i / (Real.sqrt (∑ j in Finset.range 128, m j * m j)) ^ 2 := by
        apply Finset.sum_congr rfl
        intro i hi
        rw [ht i (Finset.mem_range.mp hi), if_pos hspos, div_pow, pow_two (m i)]
      rw [hcongr, ← Finset.sum_div, Real.sq_sqrt hnn]
      exact div_self (ne_of_gt hpos)
    rw [hsum, Real.sqrt_one]
  · intro hall
    have hz : ∑ j in Finset.range 128, m j * m j = 0 :=
      Finset.sum_eq_zero (fun j hj => by rw [hall j (Finset.mem_range.mp hj), mul_zero])
    have ht0 : ∀ i, i < 128 → t i = 0 := by
      intro i hi
      rw [ht i hi, hz, Real.sqrt_zero]
      simp [hall i hi]
    refine ⟨ht0, ?_⟩
    have hsum : ∑ i in Finset.range 128, t i ^ 2 = 0 :=
      Finset.sum_eq_zero (fun j hj => by rw [ht0 j (Finset.mem_range.mp hj)]; norm_num)
    rw [hsum, Real.sqrt_zero]

/-- The state a successful `embeddings_bank_add` leaves, in closed form. -/
theorem embeddings_bank_add_state {K : Type} [LinearOrderedField K] (sqrtf : K → K)
    (s : BankState K) (e : Nat → K) (hc : s.bank_count < 10)
    (hn : sqrtf (sum_squares e EMBEDDING_SIZE) ≠ 0) :
    (embeddings_bank_add sqrtf s e).2.bank_count = s.bank_count + 1 ∧
    (embeddings_bank_add sqrtf s e).2.embedding_bank
      = (fun n i =>
          if n = s.bank_count ∧ i < EMBEDDING_SIZE then
            e i / sqrtf (sum_squares e EMBEDDING_SIZE)
          else s.embedding_bank n i) ∧
    ∀ i, i < 128 →
      (embeddings_bank_add sqrtf s e).2.target_embedding i =
        if sqrtf (∑ j in Finset.range 128,
            bank_mean (embeddings_bank_add sqrtf s e).2 j *
              bank_mean (embeddings_bank_add sqrtf s e).2 j) > 0 then
          bank_mean (embeddings_bank_add sqrtf s e).2 i /
            sqrtf (∑ j in Finset.range 128,
              bank_mean (embeddings_bank_add sqrtf s e).2 j *
                bank_mean (embeddings_bank_add sqrtf s e).2 j)
        else bank_mean (embeddings_bank_add sqrtf s e).2 i := by
  rw [embeddings_bank_add_ok sqrtf s e hc hn]
  obtain ⟨hcnt, hbank, htgt⟩ := compute_target_nonempty sqrtf
    { s with
      embedding_bank := fun n i =>
        if n = s.bank_count ∧ i < EMBEDDING_SIZE then
          e i / sqrtf (sum_squares e EMBEDDING_SIZE)
        else s.embedding_bank n i
      bank_count := s.bank_count + 1 } (Nat.succ_ne_zero _)
  have hmean : ∀ j, bank_mean (compute_target sqrtf
      { s with
        embedding_bank := fun n i =>
          if n = s.bank_count ∧ i < EMBEDDING_SIZE then
            e i / sqrtf (sum_squares e EMBEDDING_SIZE)
          else s.embedding_bank n i
        bank_count := s.bank_count + 1 }) j
      = bank_mean
        { s with
          embedding_bank := fun n i =>
            if n = s.bank_count ∧ i < EMBEDDING_SIZE then
              e i / sqrtf (sum_squares e EMBEDDING_SIZE)
            else s.embedding_bank n i
          bank_count := s.bank_count + 1 } j := by
    intro j
    unfold bank_mean
    rw [hcnt, hbank]
  refine ⟨hcnt, hbank, ?_⟩
  intro i hi
  simp only [hmean]
  exact htgt i hi

/-- In every state reached from `embeddings_bank_init` by calls of
`embeddings_bank_add`, either the bank is empty or the first 128 components of the
target are those `compute_target` derives from the stored entries. -/
theorem bank_run_invariant (s0 : BankState ℝ) (es : List (Nat → ℝ)) :
    (es.foldl (fun s e => (embeddings_bank_add Real.sqrt s e).2)
        (embeddings_bank_init s0)).bank_count = 0 ∨
    ∀ i, i < 128 →
      (es.foldl (fun s e => (embeddings_bank_add Real.sqrt s e).2)
          (embeddings_bank_init s0)).target_embedding i =
        if Real.sqrt (∑ j in Finset.range 128,
            bank_mean (es.foldl (fun s e => (embeddings_bank_add Real.sqrt s e).2)
              (embeddings_bank_init s0)) j *
            bank_mean (es.foldl (fun s e => (embeddings_bank_add Real.sqrt s e).2)
              (embeddings_bank_init s0)) j) > 0 then
          bank_mean (es.foldl (fun s e => (embeddings_bank_add Real.sqrt s e).2)
              (embeddings_bank_init s0)) i /
            Real.sqrt (∑ j in Finset.range 128,
              bank_mean (es.foldl (fun s e => (embeddings_bank_add Real.sqrt s e).2)
                (embeddings_bank_init s0)) j *
              bank_mean (es.foldl (fun s e => (embeddings_bank_add Real.sqrt s e).2)
                (embeddings_bank_init s0)) j)
        else
          bank_mean (es.foldl (fun s e => (embeddings_bank_add Real.sqrt s e).2)
            (embeddings_bank_init s0)) i := by
  induction es using List.reverseRecOn with
  | nil => exact Or.inl rfl
  | append_singleton es e ih =>
    rw [List.foldl_append]
    simp only [List.foldl_cons, List.foldl_nil]
    generalize es.foldl (fun s e => (embeddings_bank_add Real.sqrt s e).2)
      (embeddings_bank_init s0) = s at ih
    by_cases hfail : 10 ≤ s.bank_count ∨ Real.sqrt (sum_squares e EMBEDDING_SIZE) = 0
    · have hsame : (embeddings_bank_add Real.sqrt s e).2 = s := by
        unfold embeddings_bank_add
        rcases hfail with h | h
        · have : s.bank_count ≥ EMBEDDING_BANK_SIZE := h
          simp [this]
        · by_cases hfull : s.bank_count ≥ EMBEDDING_BANK_SIZE
          · simp [hfull]
          · simp [hfull, h]
      rw [hsame]
      exact ih
    · push_neg at hfail
      right
      rw [embeddings_bank_add_ok Real.sqrt s e hfail.1 hfail.2]
      have hspec := compute_target_nonempty Real.sqrt
        { s with
          embedding_bank := fun n i =>
            if n = s.bank_count ∧ i < EMBEDDING_SIZE then
              e i / Real.sqrt (sum_squares e EMBEDDING_SIZE)
            else s.embedding_bank n i
          bank_count := s.bank_count + 1 } (Nat.succ_ne_zero _)
      obtain ⟨hcnt, hbank, htgt⟩ := hspec
      have hmean : ∀ j, bank_mean (compute_target Real.sqrt
          { s with
            embedding_bank := fun n i =>
              if n = s.bank_count ∧ i < EMBEDDING_SIZE then
                e i / Real.sqrt (sum_squares e EMBEDDING_SIZE)
              else s.embedding_bank n i
            bank_count := s.bank_count + 1 }) j
          = bank_mean
            { s with
              embedding_bank := fun n i =>
                if n = s.bank_count ∧ i < EMBEDDING_SIZE then
                  e i / Real.sqrt (sum_squares e EMBEDDING_SIZE)
                else s.embedding_bank n i
              bank_count := s.bank_count + 1 } j := by
        intro j
        unfold bank_mean
        rw [hcnt, hbank]
      intro i hi
      simp only [hmean]
      exact htgt i hi

/-! ## Auxiliary facts about sending -/

theorem get_next_sequence_id_stats (ctx : enhanced_protocol_ctx_t) (msg_type : Nat) :
    (get_next_sequence_id ctx msg_type).2.stats = ctx.stats ∧
    (get_next_sequence_id ctx msg_type).2.initialized = ctx.initialized := by
  unfold get_next_sequence_id
  split_ifs <;> exact ⟨rfl, rfl⟩

theorem get_next_sequence_id_counters (ctx : enhanced_protocol_ctx_t) (msg_type : Nat) :
    (msg_type < 16 →
      (get_next_sequence_id ctx msg_type).1 = (ctx.sequence_counters msg_type + 1) % 65536 ∧
      (get_next_sequence_id ctx msg_type).2.sequence_counters msg_type
        = (ctx.sequence_counters msg_type + 1) % 65536) ∧
    ∀ t, t ≠ msg_type →
      (get_next_sequence_id ctx msg_type).2.sequence_counters t = ctx.sequence_counters t := by
  unfold get_next_sequence_id
  constructor
  · intro h
    simp [h]
  · intro t ht
    split_ifs
    · exact Function.update_noteq ht _ _
    · rfl

theorem robust_send_message_counters (HAL_CRC_Calculate : List Nat → Nat)
    (tx_ok : Nat → Bool) (ctx : enhanced_protocol_ctx_t) (message_type : Nat)
    (payload : Option (Nat → Nat)) (payload_size : Nat) (t : Nat) (ht : t ≠ message_type) :
    (robust_send_message HAL_CRC_Calculate tx_ok ctx message_type payload
      payload_size).2.1.sequence_counters t = ctx.sequence_counters t := by
  have hc := (get_next_sequence_id_counters ctx message_type).2 t ht
  unfold robust_send_message
  dsimp only
  by_cases c1 : (!ctx.initialized) = true
  · rw [if_pos c1]
  rw [if_neg c1]
  by_cases c2 : payload_size > ROBUST_MAX_PAYLOAD_SIZE - ROBUST_MSG_HEADER_SIZE
  · rw [if_pos c2]
    rfl
  rw [if_neg c2]
  by_cases c3 : (ROBUST_MSG_HEADER_SIZE + payload_size) % 2 ^ 32 > ROBUST_MAX_PAYLOAD_SIZE
  · rw [if_pos c3]
    rfl
  rw [if_neg c3]
  by_cases c4 : (!tx_ok 0) = true
  · rw [if_pos c4]
    exact hc
  rw [if_neg c4]
  by_cases c5 : (!tx_ok 1) = true
  · rw [if_pos c5]
    exact hc
  rw [if_neg c5]
  by_cases c6 : payload_size > 0
  · simp only [c6, if_true]
    by_cases c7 : (!tx_ok 2) = true
    · rw [if_pos c7]
      exact hc
    rw [if_neg c7]
    by_cases c8 : (!tx_ok 3) = true
    · rw [if_pos c8]
      exact hc
    rw [if_neg c8]
    exact hc
  · simp only [c6, if_false]
    by_cases c7 : (!tx_ok 2) = true
    · rw [if_pos c7]
      exact hc
    rw [if_neg c7]
    exact hc

theorem robust_send_message_all_ok (HAL_CRC_Calculate : List Nat → Nat)
    (ctx : enhanced_protocol_ctx_t) (message_type : Nat)
    (payload : Option (Nat → Nat)) (payload_size : Nat)
    (hinit : ctx.initialized = true) (hsize : payload_size ≤ 65536 - 3)
    (htype : message_type < 16) :
    (robust_send_message HAL_CRC_Calculate (fun _ => true) ctx message_type payload
      payload_size).2.1.initialized = true ∧
    (robust_send_message HAL_CRC_Calculate (fun _ => true) ctx message_type payload
      payload_size).2.1.sequence_counters message_type
        = (ctx.sequence_counters message_type + 1) % 65536 ∧
    ∃ b0 b1 b2 b3 rest,
      wire_bytes (robust_send_message HAL_CRC_Calculate (fun _ => true) ctx message_type
        payload payload_size).2.2
        = b0 :: b1 :: b2 :: b3 :: message_type ::
            ((ctx.sequence_counters message_type + 1) % 65536 % 256) ::
            ((ctx.sequence_counters message_type + 1) % 65536 / 256) :: rest := by
  obtain ⟨hv, hcnt⟩ := (get_next_sequence_id_counters ctx message_type).1 htype
  have hin := (get_next_sequence_id_stats ctx message_type).2
  have c1 : ¬ (!ctx.initialized) = true := by simp [hinit]
  have c2 : ¬ payload_size > ROBUST_MAX_PAYLOAD_SIZE - ROBUST_MSG_HEADER_SIZE := by
    simp only [ROBUST_MAX_PAYLOAD_SIZE, ROBUST_MSG_HEADER_SIZE]
    omega
  have c3 : ¬ (ROBUST_MSG_HEADER_SIZE + payload_size) % 2 ^ 32 > ROBUST_MAX_PAYLOAD_SIZE := by
    simp only [ROBUST_MAX_PAYLOAD_SIZE, ROBUST_MSG_HEADER_SIZE]
    omega
  have hm : message_type % 256 = message_type := by omega
  have hlo : ((ctx.sequence_counters message_type + 1) % 65536 &&& 0xFF) % 256
      = (ctx.sequence_counters message_type + 1) % 65536 % 256 := and_255_mod _
  have hhi : (((ctx.sequence_counters message_type + 1) % 65536) >>> 8 &&& 0xFF) % 256
      = (ctx.sequence_counters message_type + 1) % 65536 / 256 := by
    rw [and_255_mod, Nat.shiftRight_eq_div_pow]
    omega
  unfold robust_send_message
  dsimp only
  rw [if_neg c1, if_neg c2, if_neg c3]
  simp only [Bool.not_true, Bool.false_eq_true, if_false, hv, hm, hlo, hhi]
  by_cases c6 : payload_size > 0
  · simp only [c6, if_true]
    exact ⟨by rw [hin, hinit], hcnt, _, _, _, _, _, rfl⟩
  · simp only [c6, if_false]
    exact ⟨by rw [hin, hinit], hcnt, _, _, _, _, _, rfl⟩

theorem send_sequence_ids (HAL_CRC_Calculate : List Nat → Nat)
    (msgs : List (Nat × (Nat → Nat) × Nat)) :
    ∀ (ctx : enhanced_protocol_ctx_t) (k : Nat), ctx.initialized = true →
      (∀ m ∈ msgs, m.1 < 16 ∧ m.2.2 ≤ 65536 - 3) →
      ∀ m, msgs[k]? = some m →
        ∃ packet b0 b1 b2 b3 rest,
          (send_sequence HAL_CRC_Calculate ctx msgs)[k]? = some packet ∧
          wire_bytes packet
            = b0 :: b1 :: b2 :: b3 :: m.1 ::
                ((ctx.sequence_counters m.1 +
                    ((msgs.take (k + 1)).filter (fun m' => decide (m'.1 = m.1))).length)
                  % 65536 % 256) ::
                ((ctx.sequence_counters m.1 +
                    ((msgs.take (k + 1)).filter (fun m' => decide (m'.1 = m.1))).length)
                  % 65536 / 256) :: rest := by
  induction msgs with
  | nil =>
    intro ctx k _ _ m hm
    simp at hm
  | cons m0 rest ih =>
    intro ctx k hinit hvalid m hm
    have hv0 := hvalid m0 (List.mem_cons_self _ _)
    obtain ⟨hinit1, hcnt1, b0, b1, b2, b3, tail, hwire⟩ :=
      robust_send_message_all_ok HAL_CRC_Calculate ctx m0.1 (some m0.2.1) m0.2.2 hinit
        hv0.2 hv0.1
    cases k with
    | zero =>
      simp only [List.getElem?_cons_zero, Option.some.injEq] at hm
      subst hm
      refine ⟨(robust_send_message HAL_CRC_Calculate (fun _ => true) ctx m0.1 (some m0.2.1)
        m0.2.2).2.2, b0, b1, b2, b3, tail, ?_, ?_⟩
      · simp only [send_sequence, List.getElem?_cons_zero]
      · rw [hwire]
        simp
    | succ k =>
      simp only [List.getElem?_cons_succ] at hm
      obtain ⟨packet, c0, c1, c2, c3, tl, hget, hw⟩ :=
        ih (robust_send_message HAL_CRC_Calculate (fun _ => true) ctx m0.1 (some m0.2.1)
          m0.2.2).2.1 k hinit1 (fun m' hm' => hvalid m' (List.mem_cons_of_mem _ hm')) m hm
      refine ⟨packet, c0, c1, c2, c3, tl, ?_, ?_⟩
      · simp only [send_sequence, List.getElem?_cons_succ]
        exact hget
      · rw [hw]
        by_cases hsame : m0.1 = m.1
        · have hc : (robust_send_message HAL_CRC_Calculate (fun _ => true) ctx m0.1
              (some m0.2.1) m0.2.2).2.1.sequence_counters m.1
              = (ctx.sequence_counters m.1 + 1) % 65536 := by
            rw [← hsame]
            exact hcnt1
          have hlen : ((List.take (k + 1 + 1) (m0 :: rest)).filter
              (fun m' => decide (m'.1 = m.1))).length
              = ((List.take (k + 1) rest).filter (fun m' => decide (m'.1 = m.1))).length + 1 := by
            simp [List.take_succ_cons, List.filter_cons, hsame]
          rw [hc, hlen]
          have hmod : ∀ a n : Nat, ((a + 1) % 65536 + n) % 65536 = (a + (n + 1)) % 65536 := by
            intro a n
            omega
          rw [hmod]
        · have hc : (robust_send_message HAL_CRC_Calculate (fun _ => true) ctx m0.1
              (some m0.2.1) m0.2.2).2.1.sequence_counters m.1
              = ctx.sequence_counters m.1 :=
            robust_send_message_counters _ _ _ _ _ _ _ (fun h => hsame h.symm)
          have hlen : ((List.take (k + 1 + 1) (m0 :: rest)).filter
              (fun m' => decide (m'.1 = m.1))).length
              = ((List.take (k + 1) rest).filter (fun m' => decide (m'.1 = m.1))).length := by
            simp [List.take_succ_cons, List.filter_cons, hsame]
          rw [hc, hlen]

/-- The packet a successful send of a non-empty body emits, in closed form: the frame
header with the size `3 + payload_size` and its XOR checksum, the message header with
the next sequence id of the type, the body bytes, and the little-endian CRC of the
body. -/
theorem robust_send_message_packet (HAL_CRC_Calculate : List Nat → Nat)
    (ctx : enhanced_protocol_ctx_t) (message_type : Nat)
    (payload : Option (Nat → Nat)) (payload_size : Nat)
    (hinit : ctx.initialized = true) (hpos : 0 < payload_size)
    (hsize : payload_size ≤ 65536 - 3) (htype : message_type < 16) :
    (robust_send_message HAL_CRC_Calculate (fun _ => true) ctx message_type payload
      payload_size).1 = true ∧
    (robust_send_message HAL_CRC_Calculate (fun _ => true) ctx message_type payload
      payload_size).2.2
      = [[0xAA, (3 + payload_size) % 256, (3 + payload_size) / 256 % 256,
            0xAA ^^^ (3 + payload_size) % 256 ^^^ (3 + payload_size) / 256 % 256],
          [message_type, (ctx.sequence_counters message_type + 1) % 65536 % 256,
            (ctx.sequence_counters message_type + 1) % 65536 / 256],
          buffer_bytes payload payload_size,
          le32_bytes (calculate_crc32 HAL_CRC_Calculate payload payload_size % 2 ^ 32)] := by
  have hbytes : ∀ v : Nat,
      [(v &&& 0xFF) % 256, ((v >>> 8) &&& 0xFF) % 256, ((v >>> 16) &&& 0xFF) % 256,
        ((v >>> 24) &&& 0xFF) % 256] = le32_bytes (v % 2 ^ 32) := by
    intro v
    simp only [and_255_mod, le32_bytes, Nat.shiftRight_eq_div_pow]
    have e1 : v % 2 ^ 32 % 256 = v % 256 := by omega
    have e2 : v % 2 ^ 32 / 256 % 256 = v / 2 ^ 8 % 256 := by omega
    have e3 : v % 2 ^ 32 / 65536 % 256 = v / 2 ^ 16 % 256 := by omega
    have e4 : v % 2 ^ 32 / 16777216 % 256 = v / 2 ^ 24 % 256 := by omega
    rw [e1, e2, e3, e4]
  obtain ⟨hv, -⟩ := (get_next_sequence_id_counters ctx message_type).1 htype
  have c1 : ¬ (!ctx.initialized) = true := by simp [hinit]
  have c2 : ¬ payload_size > ROBUST_MAX_PAYLOAD_SIZE - ROBUST_MSG_HEADER_SIZE := by
    simp only [ROBUST_MAX_PAYLOAD_SIZE, ROBUST_MSG_HEADER_SIZE]
    omega
  have c3 : ¬ (ROBUST_MSG_HEADER_SIZE + payload_size) % 2 ^ 32 > ROBUST_MAX_PAYLOAD_SIZE := by
    simp only [ROBUST_MAX_PAYLOAD_SIZE, ROBUST_MSG_HEADER_SIZE]
    omega
  have htot : (ROBUST_MSG_HEADER_SIZE + payload_size) % 2 ^ 32 = 3 + payload_size := by
    simp only [ROBUST_MSG_HEADER_SIZE]
    omega
  have hm : message_type % 256 = message_type := by omega
  have hlo : ((ctx.sequence_counters message_type + 1) % 65536 &&& 0xFF) % 256
      = (ctx.sequence_counters message_type + 1) % 65536 % 256 := and_255_mod _
  have hhi : (((ctx.sequence_counters message_type + 1) % 65536) >>> 8 &&& 0xFF) % 256
      = (ctx.sequence_counters message_type + 1) % 65536 / 256 := by
    rw [and_255_mod, Nat.shiftRight_eq_div_pow]
    omega
  have hs1 : ((3 + payload_size) &&& 0xFF) % 256 = (3 + payload_size) % 256 := and_255_mod _
  have hs2 : ((3 + payload_size) >>> 8 &&& 0xFF) % 256 = (3 + payload_size) / 256 % 256 := by
    rw [and_255_mod, Nat.shiftRight_eq_div_pow]
  have c6 : payload_size > 0 := hpos
  unfold robust_send_message
  dsimp only
  rw [if_neg c1, if_neg c2, if_neg c3, htot]
  simp only [Bool.not_true, Bool.false_eq_true, if_false, hv, hm, hlo, hhi, hs1, hs2, c6,
    if_true, hbytes, ROBUST_SOF_BYTE, and_self]

/-! ## Auxiliary facts about the entry point of the post-processing -/

theorem range_filter_eq_nil (n : Nat) (f : Nat → Bool) (hf : ∀ q, q < n → f q = false) :
    (List.range n).filter f = [] := by
  rw [List.filter_eq_nil_iff]
  intro q hq
  rw [hf q (List.mem_range.mp hq)]
  exact Bool.false_ne_true

theorem range_filter_eq_singleton (n p : Nat) (hp : p < n) (f : Nat → Bool)
    (hf : ∀ q, q < n → (f q = true ↔ q = p)) :
    (List.range n).filter f = [p] := by
  induction n with
  | zero => exact absurd hp (Nat.not_lt_zero p)
  | succ n ih =>
    rw [List.range_succ, List.filter_append]
    by_cases hpn : p = n
    · subst hpn
      have hnil : (List.range p).filter f = [] := by
        apply range_filter_eq_nil
        intro q hq
        have := hf q (Nat.lt_succ_of_lt hq)
        cases hfq : f q with
        | false => rfl
        | true =>
          have := this.mp hfq
          omega
      have hfp : f p = true := (hf p (Nat.lt_succ_self p)).mpr rfl
      rw [hnil]
      simp [hfp]
    · have hlt : p < n := by omega
      have hfn : f n = false := by
        cases hfq : f n with
        | false => rfl
        | true =>
          have := (hf n (Nat.lt_succ_self n)).mp hfq
          omega
      rw [ih hlt (fun q hq => hf q (Nat.lt_succ_of_lt hq))]
      simp [hfn]

theorem greedy_nms_singleton {K : Type} [LinearOrderedField K] (thr : K) (b : pd_pp_box_t K) :
    greedy_nms thr [b] = [b] := by
  simp [greedy_nms]

/-- The boxes `pd_pp_decode` reports when exactly one grid cell `p` is above the
confidence threshold: one box, decoded from cell `p` into slot 0, whatever the limit
is. -/
theorem pd_pp_decode_single_cell {K : Type} [LinearOrderedField K] (expf : K → K)
    (pInput : pd_model_pp_in_t K) (pOutput : pd_postprocess_out_t K)
    (param : pd_model_pp_static_param_t K) (p : Nat) (hp : p < 1024)
    (hone : ∀ q, q < 1024 → (pInput.pHeatmap q > param.conf_threshold ↔ q = p)) :
    (pd_pp_decode expf pInput pOutput param).2.box_nb = 1 ∧
    box_list (pd_pp_decode expf pInput pOutput param).2
      = [pd_pp_decode_box expf pInput param (p / 32) (p % 32) (pOutput.pOutData 0)] := by
  obtain ⟨hn, -, hin⟩ := pd_pp_decode_loop_boxes expf pInput param pd_pp_grid_cells
    { pOutput with box_nb := 0 }
  have hfilter : (List.range 1024).filter
      (fun i => decide (pInput.pHeatmap i > param.conf_threshold)) = [p] := by
    apply range_filter_eq_singleton 1024 p hp
    intro q hq
    rw [decide_eq_true_iff]
    exact hone q hq
  rw [pd_pp_grid_cells_filter, hfilter] at hn hin
  simp only [List.map_cons, List.map_nil, List.length_cons, List.length_nil,
    Nat.zero_add] at hn hin
  have hcount : (pd_pp_decode expf pInput pOutput param).2.box_nb = 1 := by
    show (pd_pp_decode_loop expf pInput param pd_pp_grid_cells
      { pOutput with box_nb := 0 }).box_nb = 1
    rw [hn]
    omega
  refine ⟨hcount, ?_⟩
  have h0 := hin 0 (p / 32, p % 32) rfl (by
    show 0 < (pd_pp_decode expf pInput pOutput param).2.box_nb
    rw [hcount]
    exact Nat.one_pos)
  unfold box_list
  rw [hcount]
  simp only [List.range_succ, List.range_zero, List.nil_append, List.map_cons, List.map_nil]
  congr 1

/-! ## Auxiliary facts about the aligned crop -/

theorem foldl_option_isSome {α β : Type} (f : Option α → β → Option α)
    (hf : ∀ d x, (f (some d) x).isSome = true) (l : List β) (d : α) :
    (l.foldl f (some d)).isSome = true := by
  induction l generalizing d with
  | nil => rfl
  | cons x rest ih =>
    rw [List.foldl_cons]
    obtain ⟨d1, hd1⟩ := Option.isSome_iff_exists.mp (hf d x)
    rw [hd1]
    exact ih d1

/-- The two clamping statements leave a value between 0 and the limit, when the limit is
not negative. -/
theorem clamp_bounds {K : Type} [LinearOrderedField K] (v limit : K) (hl : 0 ≤ limit) :
    0 ≤ (if (if v < 0 then 0 else v) > limit then limit else (if v < 0 then 0 else v)) ∧
    (if (if v < 0 then 0 else v) > limit then limit else (if v < 0 then 0 else v)) ≤ limit := by
  by_cases h1 : v < 0
  · rw [if_pos h1]
    by_cases h2 : (0 : K) > limit
    · exact absurd hl (not_le.mpr h2)
    · rw [if_neg h2]
      exact ⟨le_refl 0, hl⟩
  · rw [if_neg h1]
    by_cases h2 : v > limit
    · rw [if_pos h2]
      exact ⟨hl, le_refl limit⟩
    · rw [if_neg h2]
      exact ⟨not_lt.mp h1, not_lt.mp h2⟩

/-- The clamped source coordinates lie in `[0, src_width - 1]` and `[0, src_height - 1]`,
and their integer parts are at most `src_width - 1` and `src_height - 1`. -/
theorem img_crop_align_coords_bounds {K : Type} [LinearOrderedField K] [FloorRing K]
    (atan2f : K → K → K) (cosf sinf : K → K)
    (src_width src_height dst_width dst_height : Nat)
    (x_center y_center width height left_eye_x left_eye_y right_eye_x right_eye_y : K)
    (y x : Nat) (hw : 1 ≤ src_width) (hh : 1 ≤ src_height) :
    0 ≤ (img_crop_align_coords atan2f cosf sinf src_width src_height dst_width dst_height
      x_center y_center width height left_eye_x left_eye_y right_eye_x right_eye_y y x).1 ∧
    (img_crop_align_coords atan2f cosf sinf src_width src_height dst_width dst_height
      x_center y_center width height left_eye_x left_eye_y right_eye_x right_eye_y y x).1
      ≤ ((src_width - 1 : Nat) : K) ∧
    0 ≤ (img_crop_align_coords atan2f cosf sinf src_width src_height dst_width dst_height
      x_center y_center width height left_eye_x left_eye_y right_eye_x right_eye_y y x).2 ∧
    (img_crop_align_coords atan2f cosf sinf src_width src_height dst_width dst_height
      x_center y_center width height left_eye_x left_eye_y right_eye_x right_eye_y y x).2
      ≤ ((src_height - 1 : Nat) : K) ∧
    float_to_u32 (img_crop_align_coords atan2f cosf sinf src_width src_height dst_width
      dst_height x_center y_center width height left_eye_x left_eye_y right_eye_x
      right_eye_y y x).1 ≤ src_width - 1 ∧
    float_to_u32 (img_crop_align_coords atan2f cosf sinf src_width src_height dst_width
      dst_height x_center y_center width height left_eye_x left_eye_y right_eye_x
      right_eye_y y x).2 ≤ src_height - 1 := by
  have hwl : (((src_width : Int) - 1 : Int) : K) = ((src_width - 1 : Nat) : K) := by
    have : ((src_width : Int) - 1 : Int) = ((src_width - 1 : Nat) : Int) := by omega
    rw [this, Int.cast_natCast]
  have hhl : (((src_height : Int) - 1 : Int) : K) = ((src_height - 1 : Nat) : K) := by
    have : ((src_height : Int) - 1 : Int) = ((src_height - 1 : Nat) : Int) := by omega
    rw [this, Int.cast_natCast]
  have hfloor : ∀ (v : K) (n : Nat), v ≤ (n : K) → float_to_u32 v ≤ n := by
    intro v n hv
    unfold float_to_u32
    have h1 : ⌊v⌋₊ ≤ ⌊(n : K)⌋₊ := Nat.floor_mono hv
    rw [Nat.floor_natCast] at h1
    exact le_trans (Nat.mod_le _ _) h1
  unfold img_crop_align_coords
  dsimp only
  rw [hwl, hhl]
  obtain ⟨hx0, hx1⟩ := clamp_bounds
    (x_center +
      ((((x : K) + ((if dst_width > dst_height then (dst_width : K) else (dst_height : K))
          - (dst_width : K)) * 0.5 + 0.5) *
        (1.0 / (if dst_width > dst_height then (dst_width : K) else (dst_height : K)))) - 0.5) *
        (width * cosf (-atan2f (right_eye_y - left_eye_y) (right_eye_x - left_eye_x))) +
      ((((y : K) + ((if dst_width > dst_height then (dst_width : K) else (dst_height : K))
          - (dst_height : K)) * 0.5 + 0.5) *
        (1.0 / (if dst_width > dst_height then (dst_width : K) else (dst_height : K)))) - 0.5) *
        (height * sinf (-atan2f (right_eye_y - left_eye_y) (right_eye_x - left_eye_x))))
    ((src_width - 1 : Nat) : K) (Nat.cast_nonneg _)
  obtain ⟨hy0, hy1⟩ := clamp_bounds
    (y_center +
      ((((y : K) + ((if dst_width > dst_height then (dst_width : K) else (dst_height : K))
          - (dst_height : K)) * 0.5 + 0.5) *
        (1.0 / (if dst_width > dst_height then (dst_width : K) else (dst_height : K)))) - 0.5) *
        (height * cosf (-atan2f (right_eye_y - left_eye_y) (right_eye_x - left_eye_x))) -
      ((((x : K) + ((if dst_width > dst_height then (dst_width : K) else (dst_height : K))
          - (dst_width : K)) * 0.5 + 0.5) *
        (1.0 / (if dst_width > dst_height then (dst_width : K) else (dst_height : K)))) - 0.5) *
        (width * sinf (-atan2f (right_eye_y - left_eye_y) (right_eye_x - left_eye_x))))
    ((src_height - 1 : Nat) : K) (Nat.cast_nonneg _)
  exact ⟨hx0, hx1, hy0, hy1, hfloor _ _ hx1, hfloor _ _ hy1⟩

/-! ## Auxiliary facts about the detection message -/

theorem memcpy_bytes_append (buffer : Nat → Nat) (offset : Nat) (l1 l2 : List Nat) :
    memcpy_bytes (memcpy_bytes buffer offset l1) (offset + l1.length) l2
      = memcpy_bytes buffer offset (l1 ++ l2) := by
  funext i
  unfold memcpy_bytes
  simp only [List.length_append]
  by_cases h2 : offset + l1.length ≤ i ∧ i < offset + l1.length + l2.length
  · rw [if_pos h2, if_pos (by omega)]
    have hidx : i - offset = l1.length + (i - (offset + l1.length)) := by omega
    rw [hidx, List.getD_eq_getElem?_getD, List.getD_eq_getElem?_getD,
      List.getElem?_append_right (by omega)]
    congr 2
    omega
  · rw [if_neg h2]
    by_cases h1 : offset ≤ i ∧ i < offset + l1.length
    · rw [if_pos h1, if_pos (by omega), List.getD_eq_getElem?_getD,
        List.getD_eq_getElem?_getD, List.getElem?_append_left (by omega)]
    · rw [if_neg h1, if_neg (by omega)]

theorem detection_record_length {K : Type} (float_bytes : K → Nat → Nat)
    (box : pd_pp_box_t K) : (detection_record float_bytes box).length = 28 := rfl

theorem flatMap_records_length {K : Type} (float_bytes : K → Nat → Nat)
    (detections : pd_postprocess_out_t K) (l : List Nat) :
    (l.flatMap (fun i => detection_record float_bytes (detections.pOutData i))).length
      = 28 * l.length := by
  induction l with
  | nil => rfl
  | cons i rest ih =>
    rw [List.flatMap_cons, List.length_append, ih, detection_record_length, List.length_cons]
    omega

/-- The record loop appends one 28-byte record per index, as long as the records fit. -/
theorem send_detections_loop_eq {K : Type} (float_bytes : K → Nat → Nat)
    (detections : pd_postprocess_out_t K) (l : List Nat) (buffer : Nat → Nat) (offset : Nat)
    (hfit : offset + 28 * l.length ≤ 64 * 1024) :
    send_detections_loop float_bytes detections l (buffer, offset)
      = (memcpy_bytes buffer offset
          (l.flatMap (fun i => detection_record float_bytes (detections.pOutData i))),
        offset + 28 * l.length) := by
  induction l generalizing buffer offset with
  | nil =>
    unfold send_detections_loop
    congr 1
    funext i
    simp only [memcpy_bytes, List.flatMap_nil, List.length_nil, Nat.add_zero]
    rw [if_neg (by omega)]
  | cons i rest ih =>
    rw [List.length_cons] at hfit
    unfold send_detections_loop
    dsimp only
    have hmod : (offset + 28) % 2 ^ 32 = offset + 28 := by omega
    rw [hmod, if_neg (by omega), ih _ _ (by omega), List.flatMap_cons,
      ← memcpy_bytes_append, detection_record_length, List.length_cons]
    congr 1
    omega

theorem buffer_bytes_memcpy (buffer : Nat → Nat) (l : List Nat)
    (hl : ∀ b ∈ l, b < 256) :
    buffer_bytes (some (memcpy_bytes buffer 0 l)) l.length = l := by
  unfold buffer_bytes
  apply List.ext_getElem
  · simp
  · intro n h1 h2
    simp only [List.getElem_map, List.getElem_range, memcpy_bytes]
    have hcond : 0 ≤ n ∧ n < 0 + l.length := ⟨Nat.zero_le n, by rw [Nat.zero_add]; exact h2⟩
    rw [if_pos hcond, Nat.sub_zero, List.getD_eq_getElem?_getD,
      List.getElem?_eq_getElem h2, Option.getD_some]
    exact Nat.mod_eq_of_lt (hl _ (List.getElem_mem h2))

theorem le32_bytes_lt (v : Nat) : ∀ b ∈ le32_bytes v, b < 256 := by
  intro b hb
  simp only [le32_bytes, List.mem_cons, List.mem_singleton, List.not_mem_nil, or_false] at hb
  omega

theorem detection_record_lt {K : Type} (float_bytes : K → Nat → Nat) (box : pd_pp_box_t K) :
    ∀ b ∈ detection_record float_bytes box, b < 256 := by
  intro b hb
  simp only [detection_record, float_le_bytes, le32_bytes, List.mem_append, List.mem_cons,
    List.mem_singleton, List.not_mem_nil, or_false] at hb
  omega

/-- The body built for a non-empty detection list: its length and its bytes. -/
theorem send_detections_body_eq {K : Type} (float_bytes : K → Nat → Nat)
    (temp_buffer : Nat → Nat) (frame_id : Nat) (detections : pd_postprocess_out_t K)
    (hf : frame_id < 2 ^ 32) (hb : detections.box_nb < 2 ^ 32) :
    (send_detections_body float_bytes temp_buffer frame_id detections).2
      = 8 + 28 * min detections.box_nb 10 ∧
    buffer_bytes (some (send_detections_body float_bytes temp_buffer frame_id detections).1)
        (send_detections_body float_bytes temp_buffer frame_id detections).2
      = le32_bytes frame_id ++ le32_bytes detections.box_nb ++
          (List.range (min detections.box_nb 10)).flatMap
            (fun i => detection_record float_bytes (detections.pOutData i)) := by
  have hfm : frame_id % 2 ^ 32 = frame_id := Nat.mod_eq_of_lt hf
  have hbm : detections.box_nb % 2 ^ 32 = detections.box_nb := Nat.mod_eq_of_lt hb
  have hlen : (List.range (min detections.box_nb 10)).length = min detections.box_nb 10 :=
    List.length_range _
  have hloop := send_detections_loop_eq float_bytes detections
    (List.range (min detections.box_nb 10))
    (memcpy_bytes temp_buffer 0 (le32_bytes frame_id ++ le32_bytes detections.box_nb)) 8
    (by rw [hlen]; omega)
  have hhead : (le32_bytes frame_id ++ le32_bytes detections.box_nb).length = 8 := rfl
  have h8 : (8 : Nat) = 0 + (le32_bytes frame_id ++ le32_bytes detections.box_nb).length := by
    rw [hhead]
  have hbody : send_detections_body float_bytes temp_buffer frame_id detections
      = (memcpy_bytes temp_buffer 0
          (le32_bytes frame_id ++ le32_bytes detections.box_nb ++
            (List.range (min detections.box_nb 10)).flatMap
              (fun i => detection_record float_bytes (detections.pOutData i))),
        8 + 28 * min detections.box_nb 10) := by
    unfold send_detections_body
    dsimp only
    rw [hfm, hbm, hloop, hlen]
    congr 1
    nth_rewrite 1 [h8]
    rw [memcpy_bytes_append]
  rw [hbody]
  refine ⟨rfl, ?_⟩
  have htot : (le32_bytes frame_id ++ le32_bytes detections.box_nb ++
      (List.range (min detections.box_nb 10)).flatMap
        (fun i => detection_record float_bytes (detections.pOutData i))).length
      = 8 + 28 * min detections.box_nb 10 := by
    rw [List.length_append, hhead, flatMap_records_length, hlen]
  dsimp only
  rw [← htot]
  apply buffer_bytes_memcpy
  intro b hb
  rw [List.mem_append, List.mem_append, List.mem_flatMap] at hb
  rcases hb with (hb | hb) | ⟨i, -, hb⟩
  · exact le32_bytes_lt _ b hb
  · exact le32_bytes_lt _ b hb
  · exact detection_record_lt float_bytes _ b hb

/-! ## Auxiliary facts about the CRC unit -/

theorem and_top_bit (c : Nat) (hc : c < 2 ^ 32) :
    (c &&& 0x80000000 ≠ 0) ↔ 2 ^ 31 ≤ c := by
  have h : (0x80000000 : Nat) = 2 ^ 31 := by norm_num
  have key : c / 2 ^ 31 % 2 = 1 ↔ 2 ^ 31 ≤ c := by omega
  rw [h, Nat.and_two_pow, Nat.testBit_to_div_mod, ← key]
  by_cases hb : c / 2 ^ 31 % 2 = 1
  · simp [hb]
  · simp [hb]

theorem crc_shift_lt (c : Nat) : crc_shift c < 2 ^ 32 := by
  unfold crc_shift
  split_ifs <;> exact Nat.mod_lt _ (by norm_num)

theorem xor_poly_odd (m : Nat) : ((2 * m) ^^^ 0x04C11DB7) % 2 = 1 := by
  rw [Nat.xor_mod_two_eq]
  omega

theorem xor_mod_two_pow (a b n : Nat) : (a ^^^ b) % 2 ^ n = (a % 2 ^ n) ^^^ (b % 2 ^ n) := by
  apply Nat.eq_of_testBit_eq
  intro i
  simp only [Nat.testBit_mod_two_pow, Nat.testBit_xor]
  cases decide (i < n) <;> simp

theorem crc_shift_inj (a b : Nat) (ha : a < 2 ^ 32) (hb : b < 2 ^ 32)
    (h : crc_shift a = crc_shift b) : a = b := by
  unfold crc_shift at h
  rw [Nat.shiftLeft_eq, Nat.shiftLeft_eq] at h
  have hxm : ∀ m : Nat, m < 2 ^ 32 → 2 ^ 31 ≤ m →
      ((m * 2 ^ 1) ^^^ 0x04C11DB7) % 2 ^ 32 = (2 * (m - 2 ^ 31)) ^^^ 0x04C11DB7 := by
    intro m hm hge
    rw [xor_mod_two_pow]
    have h1 : m * 2 ^ 1 % 2 ^ 32 = 2 * (m - 2 ^ 31) := by omega
    rw [h1]
    norm_num
  by_cases ta : a &&& 0x80000000 ≠ 0 <;> by_cases tb : b &&& 0x80000000 ≠ 0
  · rw [if_pos ta, if_pos tb] at h
    have ga := (and_top_bit a ha).mp ta
    have gb := (and_top_bit b hb).mp tb
    rw [hxm a ha ga, hxm b hb gb] at h
    have := Nat.xor_left_injective h
    omega
  · rw [if_pos ta, if_neg tb] at h
    have ga := (and_top_bit a ha).mp ta
    rw [hxm a ha ga] at h
    have hodd := xor_poly_odd (a - 2 ^ 31)
    rw [h] at hodd
    omega
  · rw [if_neg ta, if_pos tb] at h
    have gb := (and_top_bit b hb).mp tb
    rw [hxm b hb gb] at h
    have hodd := xor_poly_odd (b - 2 ^ 31)
    rw [← h] at hodd
    omega
  · rw [if_neg ta, if_neg tb] at h
    have ga : ¬ 2 ^ 31 ≤ a := fun g => ta ((and_top_bit a ha).mpr g)
    have gb : ¬ 2 ^ 31 ≤ b := fun g => tb ((and_top_bit b hb).mpr g)
    omega

theorem spec_crc_shift_lt (c : Nat) (hc : c < 2 ^ 32) : spec_crc_shift c < 2 ^ 32 := by
  unfold spec_crc_shift
  have hs : c >>> 1 < 2 ^ 32 := by
    rw [Nat.shiftRight_eq_div_pow]
    omega
  split_ifs
  · exact Nat.xor_lt_two_pow hs (by norm_num)
  · exact hs

theorem xor_spec_poly_ge (x : Nat) (hx : x < 2 ^ 31) : 2 ^ 31 ≤ x ^^^ 0xEDB88320 := by
  apply Nat.testBit_implies_ge
  rw [Nat.testBit_xor, Nat.testBit_lt_two_pow hx]
  decide

theorem spec_crc_shift_inj (a b : Nat) (ha : a < 2 ^ 32) (hb : b < 2 ^ 32)
    (h : spec_crc_shift a = spec_crc_shift b) : a = b := by
  unfold spec_crc_shift at h
  rw [Nat.shiftRight_eq_div_pow, Nat.shiftRight_eq_div_pow] at h
  have ha2 : a / 2 ^ 1 < 2 ^ 31 := by omega
  have hb2 : b / 2 ^ 1 < 2 ^ 31 := by omega
  by_cases pa : a % 2 = 1 <;> by_cases pb : b % 2 = 1
  · rw [if_pos pa, if_pos pb] at h
    have := Nat.xor_left_injective h
    omega
  · rw [if_pos pa, if_neg pb] at h
    have := xor_spec_poly_ge _ ha2
    omega
  · rw [if_neg pa, if_pos pb] at h
    have := xor_spec_poly_ge _ hb2
    omega
  · rw [if_neg pa, if_neg pb] at h
    omega

/-- Iterating a bit step that keeps 32-bit values and is injective on them keeps 32-bit
values and is injective on them. -/
theorem shift_iterate_props (sh : Nat → Nat) (hlt : ∀ c, c < 2 ^ 32 → sh c < 2 ^ 32)
    (hinj : ∀ a b, a < 2 ^ 32 → b < 2 ^ 32 → sh a = sh b → a = b) (n : Nat) :
    (∀ a, a < 2 ^ 32 → Nat.iterate sh n a < 2 ^ 32) ∧
    (∀ a b, a < 2 ^ 32 → b < 2 ^ 32 → Nat.iterate sh n a = Nat.iterate sh n b → a = b) := by
  induction n with
  | zero => exact ⟨fun a ha => ha, fun a b _ _ h => h⟩
  | succ n ih =>
    obtain ⟨ih1, ih2⟩ := ih
    constructor
    · intro a ha
      rw [Function.iterate_succ_apply]
      exact ih1 _ (hlt a ha)
    · intro a b ha hb h
      rw [Function.iterate_succ_apply, Function.iterate_succ_apply] at h
      exact hinj a b ha hb (ih2 _ _ (hlt a ha) (hlt b hb) h)

/-- Two word sequences of the same length that differ in exactly one word (modulo 2^32)
leave different values in a CRC register whose bit step keeps 32-bit values and is
injective on them. -/
theorem crc_fold_single_word (sh : Nat → Nat) (hlt : ∀ c, c < 2 ^ 32 → sh c < 2 ^ 32)
    (hinj : ∀ a b, a < 2 ^ 32 → b < 2 ^ 32 → sh a = sh b → a = b)
    (f g : Nat → Nat) (m : Nat)
    (hsame : ∀ j, j ≠ m → f j = g j) (hdiff : f m % 2 ^ 32 ≠ g m % 2 ^ 32) (n : Nat) :
    ((List.range n).map f).foldl (fun crc w => Nat.iterate sh 32 (crc ^^^ (w % 2 ^ 32)))
      0xFFFFFFFF < 2 ^ 32 ∧
    ((List.range n).map g).foldl (fun crc w => Nat.iterate sh 32 (crc ^^^ (w % 2 ^ 32)))
      0xFFFFFFFF < 2 ^ 32 ∧
    (n ≤ m →
      ((List.range n).map f).foldl (fun crc w => Nat.iterate sh 32 (crc ^^^ (w % 2 ^ 32)))
        0xFFFFFFFF
      = ((List.range n).map g).foldl (fun crc w => Nat.iterate sh 32 (crc ^^^ (w % 2 ^ 32)))
        0xFFFFFFFF) ∧
    (m < n →
      ((List.range n).map f).foldl (fun crc w => Nat.iterate sh 32 (crc ^^^ (w % 2 ^ 32)))
        0xFFFFFFFF
      ≠ ((List.range n).map g).foldl (fun crc w => Nat.iterate sh 32 (crc ^^^ (w % 2 ^ 32)))
        0xFFFFFFFF) := by
  obtain ⟨hit, hii⟩ := shift_iterate_props sh hlt hinj 32
  induction n with
  | zero =>
    simp only [List.range_zero, List.map_nil, List.foldl_nil]
    exact ⟨by norm_num, by norm_num, fun _ => trivial, fun h => absurd h (Nat.not_lt_zero m)⟩
  | succ n ih =>
    obtain ⟨hf, hg, heq, hne⟩ := ih
    simp only [List.range_succ, List.map_append, List.map_cons, List.map_nil,
      List.foldl_append, List.foldl_cons, List.foldl_nil]
    have hx1 := Nat.xor_lt_two_pow hf (Nat.mod_lt (f n) (by norm_num : 0 < 2 ^ 32))
    have hx2 := Nat.xor_lt_two_pow hg (Nat.mod_lt (g n) (by norm_num : 0 < 2 ^ 32))
    refine ⟨hit _ hx1, hit _ hx2, ?_, ?_⟩
    · intro hle
      rw [heq (by omega), hsame n (by omega)]
    · intro hlt2 h
      have hx := hii _ _ hx1 hx2 h
      by_cases hmn : m = n
      · subst hmn
        rw [heq (le_refl _)] at hx
        exact hdiff (Nat.xor_right_injective hx)
      · have hfg : f n = g n := hsame n (fun h => hmn h.symm)
        rw [hfg] at hx
        exact hne (by omega) (Nat.xor_left_injective hx)

/-- The CRC unit as `crc32_init` configures it tells apart two word sequences that
differ in exactly one word. -/
theorem stm32_crc_words_single_word (f g : Nat → Nat) (m : Nat)
    (hsame : ∀ j, j ≠ m → f j = g j) (hdiff : f m % 2 ^ 32 ≠ g m % 2 ^ 32) (n : Nat)
    (hmn : m < n) :
    stm32_crc_words ((List.range n).map f) ≠ stm32_crc_words ((List.range n).map g) ∧
    stm32_crc_words ((List.range n).map g) < 2 ^ 32 := by
  obtain ⟨-, hg, -, hne⟩ := crc_fold_single_word crc_shift (fun c _ => crc_shift_lt c)
    crc_shift_inj f g m hsame hdiff n
  exact ⟨hne hmn, hg⟩

/-- The standard CRC-32 of the specification tells apart two word sequences that differ
in exactly one word. -/
theorem spec_crc32_words_single_word (f g : Nat → Nat) (m : Nat)
    (hsame : ∀ j, j ≠ m → f j = g j) (hdiff : f m % 2 ^ 32 ≠ g m % 2 ^ 32) (n : Nat)
    (hmn : m < n) :
    spec_crc32_words ((List.range n).map f) ≠ spec_crc32_words ((List.range n).map g) ∧
    spec_crc32_words ((List.range n).map g) < 2 ^ 32 := by
  obtain ⟨-, hg, -, hne⟩ := crc_fold_single_word spec_crc_shift spec_crc_shift_lt
    spec_crc_shift_inj f g m hsame hdiff n
  unfold spec_crc32_words
  exact ⟨fun h => hne hmn (Nat.xor_left_injective h),
    Nat.xor_lt_two_pow hg (by norm_num)⟩

theorem load_word_lt (d : Nat → Nat) (off : Nat) : load_word d off < 2 ^ 32 := by
  unfold load_word
  omega

/-- Changing one byte of a buffer changes exactly the word that holds it. -/
theorem load_word_single_byte (d e : Nat → Nat) (k : Nat)
    (hsame : ∀ i, i ≠ k → e i % 256 = d i % 256) (hdiff : e k % 256 ≠ d k % 256) :
    (∀ j, j ≠ k / 4 → load_word e (4 * j) = load_word d (4 * j)) ∧
    load_word e (4 * (k / 4)) % 2 ^ 32 ≠ load_word d (4 * (k / 4)) % 2 ^ 32 := by
  constructor
  · intro j hj
    unfold load_word
    rw [hsame (4 * j) (by omega), hsame (4 * j + 1) (by omega), hsame (4 * j + 2) (by omega),
      hsame (4 * j + 3) (by omega)]
  · rw [Nat.mod_eq_of_lt (load_word_lt e _), Nat.mod_eq_of_lt (load_word_lt d _)]
    unfold load_word
    have hk : k = 4 * (k / 4) ∨ k = 4 * (k / 4) + 1 ∨ k = 4 * (k / 4) + 2 ∨
        k = 4 * (k / 4) + 3 := by omega
    have h0 := hsame (4 * (k / 4))
    have h1 := hsame (4 * (k / 4) + 1)
    have h2 := hsame (4 * (k / 4) + 2)
    have h3 := hsame (4 * (k / 4) + 3)
    rcases hk with hk | hk | hk | hk
    · rw [← hk] at h0 ⊢
      have h1' := h1 (by omega)
      have h2' := h2 (by omega)
      have h3' := h3 (by omega)
      omega
    · rw [← hk] at h1 ⊢
      have h0' := h0 (by omega)
      have h2' := h2 (by omega)
      have h3' := h3 (by omega)
      omega
    · rw [← hk] at h2 ⊢
      have h0' := h0 (by omega)
      have h1' := h1 (by omega)
      have h3' := h3 (by omega)
      omega
    · rw [← hk] at h3 ⊢
      have h0' := h0 (by omega)
      have h1' := h1 (by omega)
      have h2' := h2 (by omega)
      omega

/-- A CRC function that tells apart word sequences differing in one word tells apart,
through `calculate_crc32`, two buffers that differ in one byte of the body. -/
theorem calculate_crc32_single_byte (HAL_CRC_Calculate : List Nat → Nat)
    (hcrc : ∀ (f g : Nat → Nat) (m : Nat), (∀ j, j ≠ m → f j = g j) →
      f m % 2 ^ 32 ≠ g m % 2 ^ 32 → ∀ n, m < n →
      HAL_CRC_Calculate ((List.range n).map f) ≠ HAL_CRC_Calculate ((List.range n).map g) ∧
      HAL_CRC_Calculate ((List.range n).map g) < 2 ^ 32)
    (d e : Nat → Nat) (length k : Nat)
    (hpos : 0 < length) (hk : k < length)
    (hsame : ∀ i, i ≠ k → e i % 256 = d i % 256) (hdiff : e k % 256 ≠ d k % 256) :
    calculate_crc32 HAL_CRC_Calculate (some e) length
      ≠ calculate_crc32 HAL_CRC_Calculate (some d) length ∧
    calculate_crc32 HAL_CRC_Calculate (some d) length < 2 ^ 32 := by
  obtain ⟨hw1, hw2⟩ := load_word_single_byte d e k hsame hdiff
  have h := hcrc (fun w => load_word e (4 * w)) (fun w => load_word d (4 * w)) (k / 4)
    hw1 hw2 ((length + 3) / 4) (by omega)
  unfold calculate_crc32
  dsimp only
  rw [if_neg (by omega), if_neg (by omega)]
  exact h

theorem calculate_crc32_body_only (d e : Nat → Nat) (length : Nat) (hmul : length % 4 = 0)
    (hsame : ∀ i, i < length → e i % 256 = d i % 256)
    (HAL_CRC_Calculate : List Nat → Nat) :
    calculate_crc32 HAL_CRC_Calculate (some e) length
      = calculate_crc32 HAL_CRC_Calculate (some d) length := by
  unfold calculate_crc32
  dsimp only
  by_cases h0 : length = 0
  · rw [if_pos h0, if_pos h0]
  · rw [if_neg h0, if_neg h0]
    congr 1
    apply List.map_congr_left
    intro w hw
    have hw2 : w < (length + 3) / 4 := List.mem_range.mp hw
    unfold load_word
    rw [hsame (4 * w) (by omega), hsame (4 * w + 1) (by omega), hsame (4 * w + 2) (by omega),
      hsame (4 * w + 3) (by omega)]

theorem le32_le32_bytes (v : Nat) (hv : v < 2 ^ 32) : le32 (le32_bytes v) = v := by
  simp only [le32, le32_bytes, List.getD_cons_zero, List.getD_cons_succ]
  omega

/-! ## Auxiliary facts about the keypoint arrays of the output slots -/

/-- Cells whose heat score is not above the threshold do not take part in the decoding
loop. -/
theorem pd_pp_decode_loop_filter {K : Type} [LinearOrderedField K] (expf : K → K)
    (pInput : pd_model_pp_in_t K) (param : pd_model_pp_static_param_t K)
    (cs : List (Nat × Nat)) (out : pd_postprocess_out_t K) :
    pd_pp_decode_loop expf pInput param cs out
      = pd_pp_decode_loop expf pInput param
          (cs.filter (fun c => decide (pInput.pHeatmap (c.1 * 32 + c.2) > param.conf_threshold)))
          out := by
  induction cs generalizing out with
  | nil => rfl
  | cons c rest ih =>
    obtain ⟨y, x⟩ := c
    by_cases hot : pInput.pHeatmap (y * 32 + x) > param.conf_threshold
    · rw [List.filter_cons_of_pos (by simpa using hot)]
      rw [pd_pp_decode_loop, pd_pp_decode_loop, if_pos hot, if_pos hot]
      dsimp only
      by_cases hcap : (pd_pp_decode_cell expf pInput param y x out).box_nb
          ≥ param.max_boxes_limit
      · rw [if_pos hcap, if_pos hcap]
      · rw [if_neg hcap, if_neg hcap]
        exact ih _
    · rw [List.filter_cons_of_neg (by simpa using hot)]
      rw [pd_pp_decode_loop, if_neg hot]
      exact ih _

/-- The decoding loop over three cells above the threshold, when the limit is not
reached: the three cells are decoded one after the other. -/
theorem pd_pp_decode_loop_three {K : Type} [LinearOrderedField K] (expf : K → K)
    (pInput : pd_model_pp_in_t K) (param : pd_model_pp_static_param_t K)
    (y0 x0 y1 x1 y2 x2 : Nat) (out : pd_postprocess_out_t K)
    (h0 : pInput.pHeatmap (y0 * 32 + x0) > param.conf_threshold)
    (h1 : pInput.pHeatmap (y1 * 32 + x1) > param.conf_threshold)
    (h2 : pInput.pHeatmap (y2 * 32 + x2) > param.conf_threshold)
    (hcap : out.box_nb + 3 < param.max_boxes_limit) :
    pd_pp_decode_loop expf pInput param [(y0, x0), (y1, x1), (y2, x2)] out
      = pd_pp_decode_cell expf pInput param y2 x2
          (pd_pp_decode_cell expf pInput param y1 x1
            (pd_pp_decode_cell expf pInput param y0 x0 out)) := by
  have e0 : (pd_pp_decode_cell expf pInput param y0 x0 out).box_nb = out.box_nb + 1 := rfl
  have e1 : (pd_pp_decode_cell expf pInput param y1 x1
      (pd_pp_decode_cell expf pInput param y0 x0 out)).box_nb = out.box_nb + 2 := rfl
  have e2 : (pd_pp_decode_cell expf pInput param y2 x2
      (pd_pp_decode_cell expf pInput param y1 x1
        (pd_pp_decode_cell expf pInput param y0 x0 out))).box_nb = out.box_nb + 3 := rfl
  rw [pd_pp_decode_loop, if_pos h0]
  dsimp only
  rw [if_neg (by rw [e0]; omega), pd_pp_decode_loop, if_pos h1]
  dsimp only
  rw [if_neg (by rw [e1]; omega), pd_pp_decode_loop, if_pos h2]
  dsimp only
  rw [if_neg (by rw [e2]; omega), pd_pp_decode_loop]

/-- The slots `app_postprocess_init` leaves: slot `i` (for `i < 10`) points at keypoint
row `i`. -/
theorem app_postprocess_init_slots {K : Type} [LinearOrderedField K]
    (d : Nat → pd_pp_box_t K) :
    (app_postprocess_init d).2
      = fun i => if i < 10 then { d i with pKps := 5 * i } else d i := by
  unfold app_postprocess_init AI_PD_MODEL_PP_MAX_BOXES_LIMIT AI_PD_MODEL_PP_NB_KEYPOINTS
  exact foldl_update_pointwise (fun i b => { b with pKps := 5 * i }) 10 d

theorem range_filter_initial (n m : Nat) (hm : m ≤ n) (f : Nat → Bool)
    (hf : ∀ q, m ≤ q → f q = false) :
    (List.range n).filter f = (List.range m).filter f := by
  obtain ⟨k, rfl⟩ := Nat.exists_eq_add_of_le hm
  rw [List.range_add, List.filter_append]
  have hnil : List.filter f (List.map (fun x => m + x) (List.range k)) = [] := by
    rw [List.filter_eq_nil_iff]
    intro q hq
    rw [List.mem_map] at hq
    obtain ⟨x, -, rfl⟩ := hq
    rw [hf (m + x) (Nat.le_add_right m x)]
    exact Bool.false_ne_true
  rw [hnil, List.append_nil]

theorem alias_frame_one_cells :
    pd_pp_grid_cells.filter (fun c =>
      decide (alias_frame_one.pHeatmap (c.1 * 32 + c.2) > postprocess_param.conf_threshold))
      = [(0, 0), (0, 1), (0, 5)] := by
  rw [pd_pp_grid_cells_filter, range_filter_initial 1024 6 (by decide)]
  · simp only [List.range_succ, List.range_zero, List.nil_append, List.cons_append,
      alias_frame_one, postprocess_param, app_postprocess_init]
    norm_num [List.filter]
  · intro q hq
    have h0 : q ≠ 0 := by omega
    have h1 : q ≠ 1 := by omega
    have h5 : q ≠ 5 := by omega
    simp only [alias_frame_one, postprocess_param, app_postprocess_init, if_neg h0, if_neg h1,
      if_neg h5]
    norm_num

theorem alias_frame_two_cells :
    pd_pp_grid_cells.filter (fun c =>
      decide (alias_frame_two.pHeatmap (c.1 * 32 + c.2) > postprocess_param.conf_threshold))
      = [(0, 0), (0, 2), (0, 5)] := by
  rw [pd_pp_grid_cells_filter, range_filter_initial 1024 6 (by decide)]
  · simp only [List.range_succ, List.range_zero, List.nil_append, List.cons_append,
      alias_frame_two, postprocess_param, app_postprocess_init]
    norm_num [List.filter]
  · intro q hq
    have h0 : q ≠ 0 := by omega
    have h2 : q ≠ 2 := by omega
    have h5 : q ≠ 5 := by omega
    simp only [alias_frame_two, postprocess_param, app_postprocess_init, if_neg h0, if_neg h2,
      if_neg h5]
    norm_num

theorem pd_model_pp_process_eq {K : Type} [LinearOrderedField K] (expf : K → K)
    (qsort : (pd_pp_box_t K → pd_pp_box_t K → Int) → List (pd_pp_box_t K) →
      List (pd_pp_box_t K))
    (pInput : pd_model_pp_in_t K) (pOutput : pd_postprocess_out_t K)
    (param : pd_model_pp_static_param_t K) :
    pd_model_pp_process expf qsort pInput pOutput param
      = (AI_PD_POSTPROCESS_ERROR_NO,
          (pd_pp_nms qsort (pd_pp_decode expf pInput pOutput param).2 param).2) := by
  unfold pd_model_pp_process
  simp [pd_pp_decode]

/-- What `pd_pp_decode` leaves when exactly three cells are above the threshold and the
limit is above 3. -/
theorem pd_pp_decode_three_cells {K : Type} [LinearOrderedField K] (expf : K → K)
    (pInput : pd_model_pp_in_t K) (pOutput : pd_postprocess_out_t K)
    (param : pd_model_pp_static_param_t K) (y0 x0 y1 x1 y2 x2 : Nat)
    (hcells : pd_pp_grid_cells.filter (fun c =>
      decide (pInput.pHeatmap (c.1 * 32 + c.2) > param.conf_threshold))
      = [(y0, x0), (y1, x1), (y2, x2)])
    (hcap : 3 < param.max_boxes_limit) :
    (pd_pp_decode expf pInput pOutput param).2.box_nb = 3 ∧
    (pd_pp_decode expf pInput pOutput param).2.pOutData 0
      = pd_pp_decode_box expf pInput param y0 x0 (pOutput.pOutData 0) ∧
    (pd_pp_decode expf pInput pOutput param).2.pOutData 1
      = pd_pp_decode_box expf pInput param y1 x1 (pOutput.pOutData 1) ∧
    (pd_pp_decode expf pInput pOutput param).2.pOutData 2
      = pd_pp_decode_box expf pInput param y2 x2 (pOutput.pOutData 2) ∧
    (∀ k, 3 ≤ k → (pd_pp_decode expf pInput pOutput param).2.pOutData k = pOutput.pOutData k) ∧
    (∀ j, j < param.nb_keypoints →
      (pd_pp_decode expf pInput pOutput param).2.kps ((pOutput.pOutData 2).pKps + j)
        = pd_pp_decode_kp expf pInput param y2 x2 j) := by
  have hmem : ∀ c ∈ [(y0, x0), (y1, x1), (y2, x2)],
      pInput.pHeatmap (c.1 * 32 + c.2) > param.conf_threshold := by
    intro c hc
    rw [← hcells, List.mem_filter] at hc
    simpa using hc.2
  have h0 := hmem (y0, x0) (by simp)
  have h1 := hmem (y1, x1) (by simp)
  have h2 := hmem (y2, x2) (by simp)
  have hdec : (pd_pp_decode expf pInput pOutput param).2
      = pd_pp_decode_cell expf pInput param y2 x2
          (pd_pp_decode_cell expf pInput param y1 x1
            (pd_pp_decode_cell expf pInput param y0 x0 { pOutput with box_nb := 0 })) := by
    unfold pd_pp_decode
    dsimp only
    rw [pd_pp_decode_loop_filter, hcells]
    exact pd_pp_decode_loop_three expf pInput param y0 x0 y1 x1 y2 x2 _ h0 h1 h2
      (by simpa using hcap)
  rw [hdec]
  refine ⟨rfl, ?_, ?_, ?_, ?_, ?_⟩
  · simp [pd_pp_decode_cell]
  · simp [pd_pp_decode_cell]
  · simp [pd_pp_decode_cell]
  · intro k hk
    have k0 : k ≠ 0 := by omega
    have k1 : k ≠ 1 := by omega
    have k2 : k ≠ 2 := by omega
    simp [pd_pp_decode_cell, Function.update_apply, k0, k1, k2]
  · intro j hj
    rw [pd_pp_decode_cell_kps]
    have hslot : ((pd_pp_decode_cell expf pInput param y1 x1
        (pd_pp_decode_cell expf pInput param y0 x0 { pOutput with box_nb := 0 })).pOutData
        (pd_pp_decode_cell expf pInput param y1 x1
          (pd_pp_decode_cell expf pInput param y0 x0 { pOutput with box_nb := 0 })).box_nb)
        = pOutput.pOutData 2 := by
      simp [pd_pp_decode_cell]
    rw [hslot, if_pos ⟨Nat.le_add_right _ _, by omega⟩, Nat.add_sub_cancel_left]

/-- When the library sort leaves the boxes as they are, `pd_pp_nms` filters the array as
it stands. -/
theorem pd_pp_nms_of_sorted {K : Type} [LinearOrderedField K]
    (qsort : (pd_pp_box_t K → pd_pp_box_t K → Int) → List (pd_pp_box_t K) →
      List (pd_pp_box_t K))
    (pOutput : pd_postprocess_out_t K) (param : pd_model_pp_static_param_t K)
    (hs : qsort pd_pp_nms_comparator (box_list pOutput) = box_list pOutput) :
    (pd_pp_nms qsort pOutput param).2
      = { pOutput with
          box_nb := ((List.range pOutput.box_nb).foldl (pd_pp_nms_body param.iou_threshold)
            (pOutput.pOutData, 0)).2
          pOutData := ((List.range pOutput.box_nb).foldl (pd_pp_nms_body param.iou_threshold)
            (pOutput.pOutData, 0)).1 } := by
  have harr : (fun i => (qsort pd_pp_nms_comparator (box_list pOutput)).getD i
      (pOutput.pOutData i)) = pOutput.pOutData := by
    funext i
    rw [hs, List.getD_eq_getElem?_getD]
    unfold box_list
    by_cases hi : i < pOutput.box_nb
    · rw [List.getElem?_map, List.getElem?_range hi]
      rfl
    · rw [List.getElem?_eq_none (by simpa using hi)]
      rfl
  unfold pd_pp_nms
  dsimp only
  rw [harr]

/-- The filtering loop on three boxes of which the second overlaps the first and the
third does not: the third box is copied into slot 1, and slot 2 keeps its copy. -/
theorem pd_pp_nms_fold_skip_second {K : Type} [LinearOrderedField K] (thr : K)
    (arr : Nat → pd_pp_box_t K)
    (h10 : pd_pp_compute_iou (arr 1) (arr 0) ≥ thr)
    (h20 : ¬ pd_pp_compute_iou (arr 2) (arr 0) ≥ thr) :
    (List.range 3).foldl (pd_pp_nms_body thr) (arr, 0)
      = (Function.update arr 1 (arr 2), 2) := by
  simp [List.range_succ, pd_pp_nms_body, h10, h20]

/-- The filtering loop on three boxes of which no two overlap: the array is left as it
is. -/
theorem pd_pp_nms_fold_keep_three {K : Type} [LinearOrderedField K] (thr : K)
    (arr : Nat → pd_pp_box_t K)
    (h10 : ¬ pd_pp_compute_iou (arr 1) (arr 0) ≥ thr)
    (h20 : ¬ pd_pp_compute_iou (arr 2) (arr 0) ≥ thr)
    (h21 : ¬ pd_pp_compute_iou (arr 2) (arr 1) ≥ thr) :
    (List.range 3).foldl (pd_pp_nms_body thr) (arr, 0) = (arr, 3) := by
  simp [List.range_succ, pd_pp_nms_body, h10, h20, h21]

theorem insertion_qsort_sorted_three {K : Type} [LinearOrderedField K]
    (a b c : pd_pp_box_t K) (hab : b.prob ≤ a.prob) (hbc : c.prob ≤ b.prob) :
    insertion_qsort pd_pp_nms_comparator [a, b, c] = [a, b, c] := by
  unfold insertion_qsort
  apply List.Sorted.insertionSort_eq
  simp only [List.Sorted, List.pairwise_cons, List.mem_cons, List.mem_singleton,
    List.not_mem_nil, forall_eq_or_imp, forall_eq, pd_pp_nms_comparator_le_zero_iff,
    List.Pairwise.nil, and_true, IsEmpty.forall_iff, implies_true]
  exact ⟨⟨hab, le_trans hbc hab⟩, hbc⟩

/-- The first frame leaves two boxes, and slots 1 and 2 both point at keypoint row 2. -/
theorem alias_output_one_slots :
    alias_output_one.box_nb = 2 ∧
    (alias_output_one.pOutData 0).pKps = 0 ∧
    (alias_output_one.pOutData 1).pKps = 10 ∧
    (alias_output_one.pOutData 2).pKps = 10 := by
  obtain ⟨hnb, hb0, hb1, hb2, -, -⟩ :=
    pd_pp_decode_three_cells expf_zero alias_frame_one postprocess_initial_output
      postprocess_param 0 0 0 1 0 5 alias_frame_one_cells (by decide)
  have hlist : box_list (pd_pp_decode expf_zero alias_frame_one postprocess_initial_output
      postprocess_param).2
      = [pd_pp_decode_box expf_zero alias_frame_one postprocess_param 0 0
          (postprocess_initial_output.pOutData 0),
        pd_pp_decode_box expf_zero alias_frame_one postprocess_param 0 1
          (postprocess_initial_output.pOutData 1),
        pd_pp_decode_box expf_zero alias_frame_one postprocess_param 0 5
          (postprocess_initial_output.pOutData 2)] := by
    unfold box_list
    rw [hnb]
    simp only [List.range_succ, List.range_zero, List.nil_append, List.cons_append,
      List.map_cons, List.map_nil, hb0, hb1, hb2]
  have hsorted : insertion_qsort pd_pp_nms_comparator
      (box_list (pd_pp_decode expf_zero alias_frame_one postprocess_initial_output
        postprocess_param).2)
      = box_list (pd_pp_decode expf_zero alias_frame_one postprocess_initial_output
        postprocess_param).2 := by
    rw [hlist]
    apply insertion_qsort_sorted_three
    · rw [pd_pp_decode_box_prob, pd_pp_decode_box_prob]
      norm_num [alias_frame_one]
    · rw [pd_pp_decode_box_prob, pd_pp_decode_box_prob]
      norm_num [alias_frame_one]
  have h10 : pd_pp_compute_iou
      ((pd_pp_decode expf_zero alias_frame_one postprocess_initial_output
        postprocess_param).2.pOutData 1)
      ((pd_pp_decode expf_zero alias_frame_one postprocess_initial_output
        postprocess_param).2.pOutData 0) ≥ postprocess_param.iou_threshold := by
    rw [hb0, hb1]
    norm_num [pd_pp_compute_iou, pd_pp_compute_opposite_corners_from_box, pd_pp_decode_box,
      alias_frame_one, expf_zero, postprocess_param, app_postprocess_init, min_def, max_def]
  have h20 : ¬ pd_pp_compute_iou
      ((pd_pp_decode expf_zero alias_frame_one postprocess_initial_output
        postprocess_param).2.pOutData 2)
      ((pd_pp_decode expf_zero alias_frame_one postprocess_initial_output
        postprocess_param).2.pOutData 0) ≥ postprocess_param.iou_threshold := by
    rw [hb0, hb2]
    norm_num [pd_pp_compute_iou, pd_pp_compute_opposite_corners_from_box, pd_pp_decode_box,
      alias_frame_one, expf_zero, postprocess_param, app_postprocess_init, min_def, max_def]
  have hout : alias_output_one
      = { (pd_pp_decode expf_zero alias_frame_one postprocess_initial_output
            postprocess_param).2 with
          box_nb := 2
          pOutData := Function.update
            (pd_pp_decode expf_zero alias_frame_one postprocess_initial_output
              postprocess_param).2.pOutData 1
            ((pd_pp_decode expf_zero alias_frame_one postprocess_initial_output
              postprocess_param).2.pOutData 2) } := by
    unfold alias_output_one app_postprocess_run
    rw [pd_model_pp_process_eq]
    dsimp only
    rw [pd_pp_nms_of_sorted _ _ _ hsorted, hnb, pd_pp_nms_fold_skip_second _ _ h10 h20]
  have hinit := app_postprocess_init_slots postprocess_zero_output.pOutData
  have hD : ∀ i, i < 10 → (postprocess_initial_output.pOutData i).pKps = 5 * i := by
    intro i hi
    show ((app_postprocess_init postprocess_zero_output.pOutData).2 i).pKps = 5 * i
    rw [hinit]
    simp [hi]
  rw [hout]
  refine ⟨rfl, ?_, ?_, ?_⟩
  · dsimp only
    rw [Function.update_noteq (by decide), hb0, pd_pp_decode_box_pKps, hD 0 (by decide)]
  · dsimp only
    rw [Function.update_same, hb2, pd_pp_decode_box_pKps, hD 2 (by decide)]
  · dsimp only
    rw [Function.update_noteq (by decide), hb2, pd_pp_decode_box_pKps, hD 2 (by decide)]

/-- The second frame leaves three boxes; box 1 is the one decoded from cell 2, and the
keypoints its `pKps` points at are those decoded from cell 5. -/
theorem alias_output_two_keypoints :
    alias_output_two.box_nb = 3 ∧
    alias_output_two.pOutData 1
      = pd_pp_decode_box expf_zero alias_frame_two postprocess_param 0 2
          (alias_output_one.pOutData 1) ∧
    alias_output_two.pOutData 2
      = pd_pp_decode_box expf_zero alias_frame_two postprocess_param 0 5
          (alias_output_one.pOutData 2) ∧
    ∀ j, j < 5 →
      alias_output_two.kps ((alias_output_two.pOutData 1).pKps + j)
        = pd_pp_decode_kp expf_zero alias_frame_two postprocess_param 0 5 j := by
  obtain ⟨-, -, hk1, hk2⟩ := alias_output_one_slots
  obtain ⟨hnb, hb0, hb1, hb2, -, hkps⟩ :=
    pd_pp_decode_three_cells expf_zero alias_frame_two alias_output_one
      postprocess_param 0 0 0 2 0 5 alias_frame_two_cells (by decide)
  have hlist : box_list (pd_pp_decode expf_zero alias_frame_two alias_output_one
      postprocess_param).2
      = [pd_pp_decode_box expf_zero alias_frame_two postprocess_param 0 0
          (alias_output_one.pOutData 0),
        pd_pp_decode_box expf_zero alias_frame_two postprocess_param 0 2
          (alias_output_one.pOutData 1),
        pd_pp_decode_box expf_zero alias_frame_two postprocess_param 0 5
          (alias_output_one.pOutData 2)] := by
    unfold box_list
    rw [hnb]
    simp only [List.range_succ, List.range_zero, List.nil_append, List.cons_append,
      List.map_cons, List.map_nil, hb0, hb1, hb2]
  have hsorted : insertion_qsort pd_pp_nms_comparator
      (box_list (pd_pp_decode expf_zero alias_frame_two alias_output_one
        postprocess_param).2)
      = box_list (pd_pp_decode expf_zero alias_frame_two alias_output_one
        postprocess_param).2 := by
    rw [hlist]
    apply insertion_qsort_sorted_three
    · rw [pd_pp_decode_box_prob, pd_pp_decode_box_prob]
      norm_num [alias_frame_two]
    · rw [pd_pp_decode_box_prob, pd_pp_decode_box_prob]
      norm_num [alias_frame_two]
  have h10 : ¬ pd_pp_compute_iou
      ((pd_pp_decode expf_zero alias_frame_two alias_output_one postprocess_param).2.pOutData 1)
      ((pd_pp_decode expf_zero alias_frame_two alias_output_one postprocess_param).2.pOutData 0)
      ≥ postprocess_param.iou_threshold := by
    rw [hb0, hb1]
    norm_num [pd_pp_compute_iou, pd_pp_compute_opposite_corners_from_box, pd_pp_decode_box,
      alias_frame_two, expf_zero, postprocess_param, app_postprocess_init, min_def, max_def]
  have h20 : ¬ pd_pp_compute_iou
      ((pd_pp_decode expf_zero alias_frame_two alias_output_one postprocess_param).2.pOutData 2)
      ((pd_pp_decode expf_zero alias_frame_two alias_output_one postprocess_param).2.pOutData 0)
      ≥ postprocess_param.iou_threshold := by
    rw [hb0, hb2]
    norm_num [pd_pp_compute_iou, pd_pp_compute_opposite_corners_from_box, pd_pp_decode_box,
      alias_frame_two, expf_zero, postprocess_param, app_postprocess_init, min_def, max_def]
  have h21 : ¬ pd_pp_compute_iou
      ((pd_pp_decode expf_zero alias_frame_two alias_output_one postprocess_param).2.pOutData 2)
      ((pd_pp_decode expf_zero alias_frame_two alias_output_one postprocess_param).2.pOutData 1)
      ≥ postprocess_param.iou_threshold := by
    rw [hb1, hb2]
    norm_num [pd_pp_compute_iou, pd_pp_compute_opposite_corners_from_box, pd_pp_decode_box,
      alias_frame_two, expf_zero, postprocess_param, app_postprocess_init, min_def, max_def]
  have hout : alias_output_two
      = { (pd_pp_decode expf_zero alias_frame_two alias_output_one postprocess_param).2 with
          box_nb := 3
          pOutData :=
            (pd_pp_decode expf_zero alias_frame_two alias_output_one
              postprocess_param).2.pOutData } := by
    unfold alias_output_two app_postprocess_run
    rw [pd_model_pp_process_eq]
    dsimp only
    rw [pd_pp_nms_of_sorted _ _ _ hsorted, hnb, pd_pp_nms_fold_keep_three _ _ h10 h20 h21]
  rw [hout]
  refine ⟨rfl, hb1, hb2, ?_⟩
  intro j hj
  show (pd_pp_decode expf_zero alias_frame_two alias_output_one postprocess_param).2.kps
      (((pd_pp_decode expf_zero alias_frame_two alias_output_one
        postprocess_param).2.pOutData 1).pKps + j) = _
  rw [hb1, pd_pp_decode_box_pKps, hk1, ← hk2]
  exact hkps j hj

/-! ## Auxiliary facts about the body lengths passed to `robust_send_message` -/

theorem send_detections_loop_offset_le {K : Type} (float_bytes : K → Nat → Nat)
    (detections : pd_postprocess_out_t K) (l : List Nat) (st : (Nat → Nat) × Nat)
    (hfit : st.2 + 28 * l.length < 2 ^ 32) :
    (send_detections_loop float_bytes detections l st).2 ≤ st.2 + 28 * l.length := by
  induction l generalizing st with
  | nil =>
    unfold send_detections_loop
    omega
  | cons i rest ih =>
    rw [List.length_cons] at hfit ⊢
    unfold send_detections_loop
    dsimp only
    have hmod : (st.2 + 28) % 2 ^ 32 = st.2 + 28 := by omega
    split_ifs
    · omega
    · have h := ih (memcpy_bytes st.1 st.2
          (detection_record float_bytes (detections.pOutData i)), (st.2 + 28) % 2 ^ 32)
        (by dsimp only; omega)
      dsimp only at h
      omega

theorem send_frame_output_size_le (tag : List Nat) (width height : Nat) :
    (send_frame_output_size tag width height).1 ≤ 320 ∧
    (send_frame_output_size tag width height).2 ≤ 240 := by
  unfold send_frame_output_size
  dsimp only
  constructor <;> split_ifs <;> omega

theorem frame_pixel_count_ne (w h : Nat) (hw : w ≤ 320) (hh : h ≤ 240) : w * h ≠ 65521 := by
  intro hwh
  have hp : Nat.Prime 65521 := by norm_num
  have hdvd : w ∣ 65521 := ⟨h, hwh.symm⟩
  rcases (Nat.dvd_prime hp).mp hdvd with h1 | h1
  · rw [h1, Nat.one_mul] at hwh
    omega
  · omega

/-- The body lengths `robust_send_message` is called with.  The function is `static` and
has five callers.  The heartbeat passes 4 and the metrics message 28; the detection
message passes at most 8 + 28 * 10; the embedding message passes 4 + 4 * size with
size <= 1024; the frame message passes 12 + output_width * output_height with
output_width <= 320 and output_height <= 240, after its own check against 65536 - 3, and
that sum is never 65536 - 3 itself because 65521 is prime.  So every body length passed is
below 65536 - 3. -/
theorem robust_send_message_call_sizes {K : Type} (HAL_CRC_Calculate : List Nat → Nat)
    (tx_ok : Nat → Bool) (float_bytes : K → Nat → Nat) (ctx : enhanced_protocol_ctx_t) :
    (∀ HAL_GetTick : Nat,
      (Enhanced_PC_STREAM_SendHeartbeat HAL_CRC_Calculate tx_ok HAL_GetTick ctx).2
        = (robust_send_message HAL_CRC_Calculate tx_ok ctx ROBUST_MSG_HEARTBEAT
            (some (u32_bytes (HAL_GetTick % 2 ^ 32))) 4).2.2) ∧
    (∀ m : Nat → Nat,
      Enhanced_PC_STREAM_SendPerformanceMetrics HAL_CRC_Calculate tx_ok ctx (some m)
        = robust_send_message HAL_CRC_Calculate tx_ok ctx ROBUST_MSG_PERFORMANCE_METRICS
            (some m) 28) ∧
    (∀ (temp_buffer : Nat → Nat) (frame_id : Nat)
        (detections : Option (pd_postprocess_out_t K)),
      (Enhanced_PC_STREAM_SendDetections HAL_CRC_Calculate tx_ok float_bytes ctx temp_buffer
          frame_id detections).2.2.2 = [] ∨
      ∃ (buffer : Nat → Nat) (n : Nat), n < 65536 - 3 ∧
        (Enhanced_PC_STREAM_SendDetections HAL_CRC_Calculate tx_ok float_bytes ctx temp_buffer
            frame_id detections).2.2.2
          = (robust_send_message HAL_CRC_Calculate tx_ok ctx ROBUST_MSG_DETECTION_RESULTS
              (some buffer) n).2.2) ∧
    (∀ (temp_buffer : Nat → Nat) (embedding : Option (Nat → K)) (size : Nat),
      (Enhanced_PC_STREAM_SendEmbedding HAL_CRC_Calculate tx_ok float_bytes ctx temp_buffer
          embedding size).2.2.2 = [] ∨
      ∃ (buffer : Nat → Nat) (n : Nat), n < 65536 - 3 ∧
        (Enhanced_PC_STREAM_SendEmbedding HAL_CRC_Calculate tx_ok float_bytes ctx temp_buffer
            embedding size).2.2.2
          = (robust_send_message HAL_CRC_Calculate tx_ok ctx ROBUST_MSG_EMBEDDING_DATA
              (some buffer) n).2.2) ∧
    (∀ (tag : List Nat) (width height : Nat),
      ¬ ((12 + ((send_frame_output_size tag width height).1 *
              (send_frame_output_size tag width height).2) % 2 ^ 32) % 2 ^ 32
            > ROBUST_MAX_PAYLOAD_SIZE - ROBUST_MSG_HEADER_SIZE) →
        (12 + ((send_frame_output_size tag width height).1 *
            (send_frame_output_size tag width height).2) % 2 ^ 32) % 2 ^ 32 < 65536 - 3) := by
  refine ⟨fun _ => rfl, fun _ => rfl, ?_, ?_, ?_⟩
  · intro temp_buffer frame_id detections
    cases detections with
    | none => exact Or.inl rfl
    | some d =>
      unfold Enhanced_PC_STREAM_SendDetections
      dsimp only
      split_ifs with h0
      · exact Or.inl rfl
      · refine Or.inr ⟨_, _, ?_, rfl⟩
        unfold send_detections_body
        dsimp only
        have hlen : (List.range (min (d.box_nb % 2 ^ 32) 10)).length ≤ 10 := by
          rw [List.length_range]
          exact Nat.min_le_right _ _
        have h := send_detections_loop_offset_le float_bytes d
          (List.range (min (d.box_nb % 2 ^ 32) 10))
          (memcpy_bytes temp_buffer 0
            (le32_bytes (frame_id % 2 ^ 32) ++ le32_bytes (d.box_nb % 2 ^ 32)), 8)
          (by dsimp only; omega)
        dsimp only at h
        omega
  · intro temp_buffer embedding size
    cases embedding with
    | none => exact Or.inl rfl
    | some e =>
      unfold Enhanced_PC_STREAM_SendEmbedding
      dsimp only
      split_ifs with h0 h1
      · exact Or.inl rfl
      · exact Or.inl rfl
      · refine Or.inr ⟨_, _, ?_, rfl⟩
        omega
  · intro tag width height hle
    obtain ⟨hw, hh⟩ := send_frame_output_size_le tag width height
    have hne := frame_pixel_count_ne _ _ hw hh
    have hmul : (send_frame_output_size tag width height).1 *
        (send_frame_output_size tag width height).2 ≤ 320 * 240 := Nat.mul_le_mul hw hh
    simp only [ROBUST_MAX_PAYLOAD_SIZE, ROBUST_MSG_HEADER_SIZE] at hle
    omega

/-! ## Auxiliary facts about the functions over the `float` operations -/

/-- With the exact operations, the accumulation loop over the operations is the
accumulation loop over the field. -/
theorem sum_squares_ops_exact {K : Type} [LinearOrderedField K] (sqrtf : K → K)
    (v : Nat → K) (n : Nat) :
    sum_squares_ops (exact_ops sqrtf) v n = sum_squares v n := rfl

/-- With the exact operations, `compute_target` over the operations is `compute_target`
over the field. -/
theorem compute_target_ops_exact {K : Type} [LinearOrderedField K] (sqrtf : K → K)
    (s : BankState K) :
    compute_target_ops (exact_ops sqrtf) s = compute_target sqrtf s := by
  unfold compute_target_ops compute_target
  simp only [sum_squares_ops_exact]
  simp [exact_ops]

/-- With the exact operations, `embeddings_bank_add` over the operations is
`embeddings_bank_add` over the field. -/
theorem embeddings_bank_add_ops_exact {K : Type} [LinearOrderedField K] (sqrtf : K → K)
    (s : BankState K) (embedding : Nat → K) :
    embeddings_bank_add_ops (exact_ops sqrtf) s embedding
      = embeddings_bank_add sqrtf s embedding := by
  unfold embeddings_bank_add_ops embeddings_bank_add
  simp only [sum_squares_ops_exact, compute_target_ops_exact]
  simp [exact_ops]

theorem MIN_ops_exact {K : Type} [LinearOrderedField K] (sqrtf : K → K) (a b : K) :
    MIN_ops (exact_ops sqrtf) a b = min a b := by
  unfold MIN_ops
  simp only [exact_ops, decide_eq_true_eq]
  rcases lt_or_le a b with h | h
  · rw [if_pos h, min_eq_left (le_of_lt h)]
  · rw [if_neg (not_lt.mpr h), min_eq_right h]

theorem MAX_ops_exact {K : Type} [LinearOrderedField K] (sqrtf : K → K) (a b : K) :
    MAX_ops (exact_ops sqrtf) a b = max a b := by
  unfold MAX_ops
  simp only [exact_ops, decide_eq_true_eq]
  rcases lt_or_le b a with h | h
  · rw [if_pos h, max_eq_left (le_of_lt h)]
  · rw [if_neg (not_lt.mpr h), max_eq_right h]

/-- With the exact operations, `pd_pp_compute_iou` over the operations is
`pd_pp_compute_iou` over the field. -/
theorem pd_pp_compute_iou_ops_exact {K : Type} [LinearOrderedField K] (sqrtf : K → K)
    (box0 box1 : pd_pp_box_t K) :
    pd_pp_compute_iou_ops (exact_ops sqrtf) box0 box1 = pd_pp_compute_iou box0 box1 := by
  unfold pd_pp_compute_iou_ops pd_pp_compute_iou pd_pp_compute_opposite_corners_from_box_ops
    pd_pp_compute_opposite_corners_from_box
  simp only [MIN_ops_exact, MAX_ops_exact]
  simp [exact_ops]

theorem compute_target_ops_bank_count {F : Type} (ops : float_ops F) (s : BankState F) :
    (compute_target_ops ops s).bank_count = s.bank_count := by
  unfold compute_target_ops
  dsimp only
  split_ifs <;> rfl

/-- When the bank is full or the computed norm compares equal to zero,
`embeddings_bank_add` over the operations returns -1 and the state it was given. -/
theorem embeddings_bank_add_ops_fails {F : Type} (ops : float_ops F) (s : BankState F)
    (embedding : Nat → F)
    (h : 10 ≤ s.bank_count ∨
      ops.eq (ops.sqrtf (sum_squares_ops ops embedding 128)) ops.zero = true) :
    embeddings_bank_add_ops ops s embedding = (-1, s) := by
  unfold embeddings_bank_add_ops
  by_cases hfull : s.bank_count ≥ EMBEDDING_BANK_SIZE
  · rw [if_pos hfull]
  · rw [if_neg hfull]
    have hz : ops.eq (ops.sqrtf (sum_squares_ops ops embedding EMBEDDING_SIZE)) ops.zero
        = true := by
      rcases h with h | h
      · exact absurd h hfull
      · exact h
    dsimp only
    rw [if_pos hz]

/-- Otherwise `embeddings_bank_add` over the operations returns the incremented count,
which is also the count of the state it leaves. -/
theorem embeddings_bank_add_ops_count {F : Type} (ops : float_ops F) (s : BankState F)
    (embedding : Nat → F)
    (h : ¬ (10 ≤ s.bank_count ∨
      ops.eq (ops.sqrtf (sum_squares_ops ops embedding 128)) ops.zero = true)) :
    (embeddings_bank_add_ops ops s embedding).1 = (s.bank_count : Int) + 1 ∧
    (embeddings_bank_add_ops ops s embedding).2.bank_count = s.bank_count + 1 := by
  have hfull : ¬ s.bank_count ≥ EMBEDDING_BANK_SIZE := fun hf => h (Or.inl hf)
  have hz : ¬ ops.eq (ops.sqrtf (sum_squares_ops ops embedding EMBEDDING_SIZE)) ops.zero
      = true := fun hz => h (Or.inr hz)
  unfold embeddings_bank_add_ops
  rw [if_neg hfull]
  dsimp only
  rw [if_neg hz]
  dsimp only
  rw [compute_target_ops_bank_count]
  exact ⟨by push_cast; rfl, rfl⟩

/-- The binary32 operations reproduce known binary32 results: 1/3 is 0x3EAAAAAB
(11184811 * 2^-25), 7/10 is 0x3F333333 (11744051 * 2^-24, the constant `0.7f`), 55/100
is 0x3F0CCCCD (9227469 * 2^-24, the constant `0.55f`), the integer 2^24 + 1 rounds to 2^24
and 2^24 + 3 to 2^24 + 4 (ties to even), 2^127 + 2^127 overflows to infinity, and 3/2 of
the smallest subnormal rounds to twice it while 1/2 of it rounds to 0. -/
theorem binary32_known_values :
    binary32_div (binary32_ops.of_int 1) (binary32_ops.of_int 3)
      = binary32.finite (11184811 * 2 ^ 124) ∧
    binary32_div (binary32_ops.of_int 7) (binary32_ops.of_int 10)
      = binary32.finite (11744051 * 2 ^ 125) ∧
    binary32_div (binary32_ops.of_int 55) (binary32_ops.of_int 100)
      = binary32.finite (9227469 * 2 ^ 125) ∧
    binary32_ops.of_int 16777217 = binary32.finite (16777216 * 2 ^ 149) ∧
    binary32_ops.of_int 16777219 = binary32.finite (16777220 * 2 ^ 149) ∧
    binary32_add (binary32.finite (2 ^ 276)) (binary32.finite (2 ^ 276))
      = binary32.inf false ∧
    binary32_mul (binary32.finite 3) (binary32.finite (2 ^ 148)) = binary32.finite 2 ∧
    binary32_mul (binary32.finite 1) (binary32.finite (2 ^ 148)) = binary32.finite 0 := by
  set_option maxRecDepth 1000000 in decide

/-! ## Verified properties -/

/-- In exact arithmetic over the reals, the norm `embeddings_bank_add` computes is the L2
norm of the embedding (the real square root of the sum of its 128 squared components):
the function returns -1 exactly when the bank already holds `EMBEDDING_BANK_SIZE = 10`
entries or that norm is 0, and exactly in those cases the state (entry count, every
stored entry, `target_embedding`) is left as it was. -/
theorem embeddings_bank_add_fails_iff (s : BankState ℝ) (embedding : Nat → ℝ) :
    ((embeddings_bank_add Real.sqrt s embedding).1 = -1 ↔
        (10 ≤ s.bank_count ∨ Real.sqrt (∑ i in Finset.range 128, embedding i ^ 2) = 0)) ∧
    ((embeddings_bank_add Real.sqrt s embedding).2 = s ↔
        (10 ≤ s.bank_count ∨ Real.sqrt (∑ i in Finset.range 128, embedding i ^ 2) = 0)) := by
  have hnorm : Real.sqrt (sum_squares embedding EMBEDDING_SIZE)
      = Real.sqrt (∑ i in Finset.range 128, embedding i ^ 2) := by
    rw [sum_squares_eq_sum]
    simp [EMBEDDING_SIZE, pow_two]
  unfold embeddings_bank_add
  by_cases hfull : s.bank_count ≥ EMBEDDING_BANK_SIZE
  · have h10 : 10 ≤ s.bank_count := hfull
    simp [hfull, h10]
  · have h10 : ¬ 10 ≤ s.bank_count := hfull
    by_cases hz : Real.sqrt (sum_squares embedding EMBEDDING_SIZE) = 0
    · have hz2 := hz
      rw [hnorm] at hz2
      simp [hfull, hz, hz2]
    · have hz2 := hz
      rw [hnorm] at hz2
      simp only [hfull, hz, h10, hz2, if_false, or_self, iff_false]
      constructor
      · rw [compute_target_bank_count]
        intro h
        have hpos : (0 : Int) ≤ ((s.bank_count + 1 : Nat) : Int) := Int.natCast_nonneg _
        dsimp only at h
        rw [h] at hpos
        exact absurd hpos (by decide)
      · intro h
        have hc := congrArg BankState.bank_count h
        rw [compute_target_bank_count] at hc
        simp at hc

/-- C9: `embedding_cosine_similarity` returns exactly 0 when a pointer is null, when
`len` is 0, or when the squared norm of either vector is 0, and it does so whatever the
float division is (no division contributes to the result).  Consequently, against the
all-zero target of an empty bank every embedding has similarity 0, which is below
`FACE_SIMILARITY_THRESHOLD` = `0.55f`. -/
theorem embedding_cosine_similarity_degenerate {K : Type} [LinearOrderedField K]
    (fdiv : K → K → K) (sqrtf : K → K) (emb1 emb2 : Option (Nat → K)) (len : Nat)
    (h : emb1 = none ∨ emb2 = none ∨ len = 0 ∨
      (∃ e, emb1 = some e ∧ ∑ i in Finset.range len, e i ^ 2 = 0) ∨
      (∃ e, emb2 = some e ∧ ∑ i in Finset.range len, e i ^ 2 = 0)) :
    embedding_cosine_similarity fdiv sqrtf emb1 emb2 len = 0 ∧
    ∀ (s : BankState K) (e : Nat → K),
      embedding_cosine_similarity fdiv sqrtf (some e)
          (some (embeddings_bank_init s).target_embedding) EMBEDDING_SIZE = 0 ∧
      embedding_cosine_similarity fdiv sqrtf (some e)
          (some (embeddings_bank_init s).target_embedding) EMBEDDING_SIZE
        < FACE_SIMILARITY_THRESHOLD := by
  constructor
  · rcases h with h | h | h | ⟨e, he, hz⟩ | ⟨e, he, hz⟩
    · subst h
      simp [embedding_cosine_similarity]
    · subst h
      cases emb1 <;> simp [embedding_cosine_similarity]
    · subst h
      cases emb1 <;> cases emb2 <;> simp [embedding_cosine_similarity]
    · subst he
      cases emb2 with
      | none => simp [embedding_cosine_similarity]
      | some e2 =>
        rw [embedding_cosine_similarity_some]
        simp only [pow_two] at hz
        simp [hz]
    · subst he
      cases emb1 with
      | none => simp [embedding_cosine_similarity]
      | some e1 =>
        rw [embedding_cosine_similarity_some]
        simp only [pow_two] at hz
        simp [hz]
  · intro s e
    have hz : embedding_cosine_similarity fdiv sqrtf (some e)
        (some (embeddings_bank_init s).target_embedding) EMBEDDING_SIZE = 0 := by
      rw [embedding_cosine_similarity_some]
      have h0 : ∑ i in Finset.range EMBEDDING_SIZE,
          (embeddings_bank_init s).target_embedding i *
            (embeddings_bank_init s).target_embedding i = 0 := by
        apply Finset.sum_eq_zero
        intro i hi
        have hi2 : i < EMBEDDING_SIZE := Finset.mem_range.mp hi
        simp [embeddings_bank_init, hi2]
      simp [h0]
    refine ⟨hz, ?_⟩
    rw [hz]
    norm_num [FACE_SIMILARITY_THRESHOLD]

/-- Witness for C9: the zero vector against `(1, 2, 3)` over the rationals. -/
theorem embedding_cosine_similarity_degenerate_witness :
    embedding_cosine_similarity (fun a b : ℚ => a / b) (fun x => x)
      (some (fun _ => 0)) (some (fun i => (i : ℚ) + 1)) 3 = 0 :=
  (embedding_cosine_similarity_degenerate (fun a b : ℚ => a / b) (fun x => x)
    (some (fun _ => 0)) (some (fun i => (i : ℚ) + 1)) 3
    (Or.inr (Or.inr (Or.inr (Or.inl ⟨fun _ => 0, rfl, by simp⟩))))).1

/-- C10: over the reals, `embedding_cosine_similarity` lies in the closed interval
[-1, 1] for all inputs (two vectors read over the same `len` indices, null pointers
and `len = 0` included). -/
theorem embedding_cosine_similarity_range
    (emb1 emb2 : Option (Nat → ℝ)) (len : Nat) :
    -1 ≤ embedding_cosine_similarity (fun a b => a / b) Real.sqrt emb1 emb2 len ∧
    embedding_cosine_similarity (fun a b => a / b) Real.sqrt emb1 emb2 len ≤ 1 := by
  cases emb1 with
  | none => simp [embedding_cosine_similarity]
  | some e1 =>
    cases emb2 with
    | none => simp [embedding_cosine_similarity]
    | some e2 =>
      rw [embedding_cosine_similarity_some]
      by_cases hlen : len = 0
      · simp [hlen]
      · by_cases hz : (∑ i in Finset.range len, e1 i * e1 i) = 0 ∨
            (∑ i in Finset.range len, e2 i * e2 i) = 0
        · simp [hlen, hz]
        · simp only [hlen, hz, if_false]
          push_neg at hz
          have h1 : 0 ≤ ∑ i in Finset.range len, e1 i * e1 i :=
            Finset.sum_nonneg (fun i _ => mul_self_nonneg (e1 i))
          have h2 : 0 ≤ ∑ i in Finset.range len, e2 i * e2 i :=
            Finset.sum_nonneg (fun i _ => mul_self_nonneg (e2 i))
          have hpos : 0 < (∑ i in Finset.range len, e1 i * e1 i) *
              (∑ i in Finset.range len, e2 i * e2 i) :=
            mul_pos (lt_of_le_of_ne h1 (Ne.symm hz.1)) (lt_of_le_of_ne h2 (Ne.symm hz.2))
          have hs : 0 < Real.sqrt ((∑ i in Finset.range len, e1 i * e1 i) *
              (∑ i in Finset.range len, e2 i * e2 i)) := Real.sqrt_pos.mpr hpos
          have hcs : (∑ i in Finset.range len, e1 i * e2 i) ^ 2 ≤
              (∑ i in Finset.range len, e1 i * e1 i) *
                (∑ i in Finset.range len, e2 i * e2 i) := by
            have := Finset.sum_mul_sq_le_sq_mul_sq (Finset.range len) e1 e2
            simpa [pow_two] using this
          have habs := Real.abs_le_sqrt hcs
          rw [abs_le] at habs
          constructor
          · rw [le_div_iff₀ hs]
            linarith [habs.1]
          · rw [div_le_iff₀ hs]
            linarith [habs.2]

/-- C3: starting from the initial (empty) detection history, after pushing any
sequence of per-frame booleans with `update_target_detection_history`, the valid-entry
count is `min n 5`, the valid slots of the circular buffer hold exactly the last
`min n 5` pushed values, and `compute_target_detection_status` sets `target_detected`
to true iff at least 3 of those values are true.  In particular
`[true,true,true,false,false]` gives true and `[false,false,true,true,false]` gives
false. -/
theorem detection_history_majority (bs : List Bool) :
    (bs.foldl update_target_detection_history g_app_ctx).history_count = min bs.length 5 ∧
    ((List.range (bs.foldl update_target_detection_history g_app_ctx).history_count).map
        (bs.foldl update_target_detection_history g_app_ctx).target_detection_history).Perm
      (bs.reverse.take 5) ∧
    ((compute_target_detection_status
        (bs.foldl update_target_detection_history g_app_ctx)).target_detected = true ↔
      3 ≤ (bs.reverse.take 5).count true) ∧
    (compute_target_detection_status
        ([true, true, true, false, false].foldl update_target_detection_history
          g_app_ctx)).target_detected = true ∧
    (compute_target_detection_status
        ([false, false, true, true, false].foldl update_target_detection_history
          g_app_ctx)).target_detected = false := by
  obtain ⟨_, hcnt, hwin⟩ := history_invariant bs
  have hperm : ((List.range (bs.foldl update_target_detection_history g_app_ctx).history_count).map
        (bs.foldl update_target_detection_history g_app_ctx).target_detection_history).Perm
      (bs.reverse.take 5) := by
    rw [hcnt, hwin]
    have := (window_index_perm bs.length).map
      (bs.foldl update_target_detection_history g_app_ctx).target_detection_history
    rw [List.map_map] at this
    exact this.symm
  have hmaj : ∀ ctx : app_context_t, ctx.history_count ≤ 5 →
      ((compute_target_detection_status ctx).target_detected = true ↔
        3 ≤ ((List.range ctx.history_count).map ctx.target_detection_history).count true) := by
    intro ctx hc
    unfold compute_target_detection_status
    by_cases h0 : ctx.history_count = 0
    · simp [h0]
    · simp only [h0, if_false, positive_detections_eq_count _ _ hc]
      simp
  have hgen : ∀ l : List Bool,
      ((compute_target_detection_status
          (l.foldl update_target_detection_history g_app_ctx)).target_detected = true ↔
        3 ≤ (l.reverse.take 5).count true) := by
    intro l
    obtain ⟨_, hc, hw⟩ := history_invariant l
    rw [hmaj _ (by rw [hc]; omega), hc, hw]
    have hp := (window_index_perm l.length).map
      (l.foldl update_target_detection_history g_app_ctx).target_detection_history
    rw [List.map_map] at hp
    rw [← hp.count_eq]
    exact Iff.rfl
  refine ⟨hcnt, hperm, hgen bs, ?_, ?_⟩
  · rw [hgen]
    decide
  · rw [Bool.eq_false_iff, Ne, hgen]
    decide

/-- The step `update_led_status` against the four-way priority transition of the
specification, with "a prior verification exists" read as the condition the code stores,
`last_stable_verification_ts != 0`, and the elapsed time as the unsigned 32-bit
difference `current_time - last_stable_verification_ts` compared with 1000 ms:
`TargetVerified` lights the green LED2 only and records `current_time`;
`FaceUnverified` lights the red LED1 only; `HoldoverAfterLoss` lights the green LED2
only with `led_timeout_active`; `Idle` lights nothing.  The positive signal (LED2 on,
LED1 off) is driven exactly in `TargetVerified` and `HoldoverAfterLoss`, the timestamp
changes in no state other than `TargetVerified`, and the LEDs are never both on.  The
stored condition differs from "a prior verification exists" after a verification at
tick 0. -/
theorem update_led_status_transition (current_time : Nat) (ctx : app_context_t) (leds : Leds) :
    (match spec_transition ctx.target_detected ctx.face_detected
        (decide (ctx.last_stable_verification_ts ≠ 0))
        (u32_sub current_time ctx.last_stable_verification_ts) 1000 with
      | VerificationState.TargetVerified =>
        update_led_status current_time ctx leds =
          ({ ctx with last_stable_verification_ts := current_time, led_timeout_active := false },
            { LED1 := false, LED2 := true })
      | VerificationState.FaceUnverified =>
        update_led_status current_time ctx leds =
          ({ ctx with led_timeout_active := false }, { LED1 := true, LED2 := false })
      | VerificationState.HoldoverAfterLoss =>
        update_led_status current_time ctx leds =
          ({ ctx with led_timeout_active := true }, { LED1 := false, LED2 := true })
      | VerificationState.Idle =>
        update_led_status current_time ctx leds =
          ({ ctx with led_timeout_active := false }, { LED1 := false, LED2 := false })) ∧
    (((update_led_status current_time ctx leds).2.LED2 = true ∧
        (update_led_status current_time ctx leds).2.LED1 = false) ↔
      (spec_transition ctx.target_detected ctx.face_detected
          (decide (ctx.last_stable_verification_ts ≠ 0))
          (u32_sub current_time ctx.last_stable_verification_ts) 1000
          = VerificationState.TargetVerified ∨
        spec_transition ctx.target_detected ctx.face_detected
          (decide (ctx.last_stable_verification_ts ≠ 0))
          (u32_sub current_time ctx.last_stable_verification_ts) 1000
          = VerificationState.HoldoverAfterLoss)) ∧
    (spec_transition ctx.target_detected ctx.face_detected
          (decide (ctx.last_stable_verification_ts ≠ 0))
          (u32_sub current_time ctx.last_stable_verification_ts) 1000
          = VerificationState.TargetVerified ∨
      (update_led_status current_time ctx leds).1.last_stable_verification_ts
        = ctx.last_stable_verification_ts) ∧
    ¬ ((update_led_status current_time ctx leds).2.LED1 = true ∧
        (update_led_status current_time ctx leds).2.LED2 = true) := by
  unfold update_led_status spec_transition FACE_UNVERIFIED_LED_TIMEOUT_MS
  cases ht : ctx.target_detected
  · cases hf : ctx.face_detected
    · by_cases hh : ctx.last_stable_verification_ts ≠ 0 ∧
          u32_sub current_time ctx.last_stable_verification_ts < 1000
      · have hh1 := hh.1
        have hh2 := hh.2
        simp [hh1, hh2]
      · have hh3 : ¬ (decide (ctx.last_stable_verification_ts ≠ 0) = true ∧
            u32_sub current_time ctx.last_stable_verification_ts < 1000) := by
          simpa using hh
        simp only [hh, hh3, if_false]
        simp
    · simp
  · simp

/-- C2: given that the library `qsort` returns a permutation of the input boxes ordered
by `pd_pp_nms_comparator`, `pd_pp_nms` leaves in the first `box_nb` output slots the
greedy filter of that ordering: the output boxes appear in non-increasing confidence,
every two output boxes have IOU strictly below `iou_threshold` (in both argument
orders), every input box that is dropped has IOU at least `iou_threshold` with some
output box of confidence at least its own, every output box is an input box, and the
returned count is the output length, is stored in `box_nb`, and does not exceed the
input count. -/
theorem pd_pp_nms_greedy_filter {K : Type} [LinearOrderedField K]
    (qsort : (pd_pp_box_t K → pd_pp_box_t K → Int) → List (pd_pp_box_t K) →
      List (pd_pp_box_t K))
    (pOutput : pd_postprocess_out_t K) (param : pd_model_pp_static_param_t K)
    (hperm : (qsort pd_pp_nms_comparator (box_list pOutput)).Perm (box_list pOutput))
    (hsorted : (qsort pd_pp_nms_comparator (box_list pOutput)).Pairwise
      (fun a b => pd_pp_nms_comparator a b ≤ 0)) :
    box_list (pd_pp_nms qsort pOutput param).2
      = greedy_nms param.iou_threshold (qsort pd_pp_nms_comparator (box_list pOutput)) ∧
    (box_list (pd_pp_nms qsort pOutput param).2).Pairwise (fun a b => b.prob ≤ a.prob) ∧
    (box_list (pd_pp_nms qsort pOutput param).2).Pairwise
      (fun a b => pd_pp_compute_iou a b < param.iou_threshold ∧
        pd_pp_compute_iou b a < param.iou_threshold) ∧
    (∀ b, (box_list (pd_pp_nms qsort pOutput param).2).count b < (box_list pOutput).count b →
      ∃ k ∈ box_list (pd_pp_nms qsort pOutput param).2,
        param.iou_threshold ≤ pd_pp_compute_iou b k ∧ b.prob ≤ k.prob) ∧
    (∀ b, (box_list (pd_pp_nms qsort pOutput param).2).count b ≤ (box_list pOutput).count b) ∧
    (pd_pp_nms qsort pOutput param).1 = (box_list (pd_pp_nms qsort pOutput param).2).length ∧
    (pd_pp_nms qsort pOutput param).2.box_nb = (pd_pp_nms qsort pOutput param).1 ∧
    (pd_pp_nms qsort pOutput param).1 ≤ pOutput.box_nb := by
  have hlen : (qsort pd_pp_nms_comparator (box_list pOutput)).length = pOutput.box_nb := by
    rw [hperm.length_eq]
    simp [box_list]
  have hs : (qsort pd_pp_nms_comparator (box_list pOutput)).Pairwise
      (fun a b => b.prob ≤ a.prob) :=
    hsorted.imp (fun {a b} h => (pd_pp_nms_comparator_le_zero_iff a b).mp h)
  have h0 : ∀ i (hi : i < (qsort pd_pp_nms_comparator (box_list pOutput)).length),
      (fun i => (qsort pd_pp_nms_comparator (box_list pOutput)).getD i (pOutput.pOutData i)) i
        = (qsort pd_pp_nms_comparator (box_list pOutput))[i] := by
    intro i hi
    simp [List.getD_eq_getElem?_getD, List.getElem?_eq_getElem hi]
  obtain ⟨hle, hmap, _⟩ := pd_pp_nms_loop_invariant param.iou_threshold
    (qsort pd_pp_nms_comparator (box_list pOutput))
    (fun i => (qsort pd_pp_nms_comparator (box_list pOutput)).getD i (pOutput.pOutData i))
    h0 pOutput.box_nb (le_of_eq hlen.symm)
  rw [← hlen, List.take_length, hlen] at hmap
  obtain ⟨hsub, hpair, hdrop⟩ := greedy_nms_properties param.iou_threshold
    (qsort pd_pp_nms_comparator (box_list pOutput)) hs
  have hout : box_list (pd_pp_nms qsort pOutput param).2
      = greedy_nms param.iou_threshold (qsort pd_pp_nms_comparator (box_list pOutput)) := hmap
  refine ⟨hout, ?_, ?_, ?_, ?_, ?_, rfl, hle⟩
  · rw [hout]
    exact hs.sublist hsub
  · rw [hout]
    exact hpair.imp (fun {a b} h => ⟨by rw [pd_pp_compute_iou_comm]; exact h, h⟩)
  · intro b hb
    rw [hout] at hb ⊢
    exact hdrop b (by rw [hperm.count_eq]; exact hb)
  · intro b
    rw [hout, ← hperm.count_eq]
    exact hsub.count_le b
  · simp only [box_list, List.length_map, List.length_range]
    rfl

/-- Witness for C2: with insertion sort as the library sort, the three example boxes
(two coincident ones and a distant one) are filtered down to two. -/
theorem pd_pp_nms_greedy_filter_witness :
    (pd_pp_nms insertion_qsort nms_example_output nms_example_param).1
      = (box_list (pd_pp_nms insertion_qsort nms_example_output nms_example_param).2).length ∧
    (pd_pp_nms insertion_qsort nms_example_output nms_example_param).1 ≤ 3 :=
  have hperm : (insertion_qsort pd_pp_nms_comparator (box_list nms_example_output)).Perm
      (box_list nms_example_output) := List.perm_insertionSort _ _
  have hsorted : (insertion_qsort pd_pp_nms_comparator (box_list nms_example_output)).Pairwise
      (fun a b => pd_pp_nms_comparator a b ≤ 0) := by
    haveI : IsTotal (pd_pp_box_t ℚ) (fun a b => pd_pp_nms_comparator a b ≤ 0) :=
      ⟨fun a b => by
        rw [pd_pp_nms_comparator_le_zero_iff, pd_pp_nms_comparator_le_zero_iff]
        exact le_total _ _⟩
    haveI : IsTrans (pd_pp_box_t ℚ) (fun a b => pd_pp_nms_comparator a b ≤ 0) :=
      ⟨fun a b c => by
        rw [pd_pp_nms_comparator_le_zero_iff, pd_pp_nms_comparator_le_zero_iff,
          pd_pp_nms_comparator_le_zero_iff]
        exact fun h1 h2 => le_trans h2 h1⟩
    exact List.sorted_insertionSort _ _
  have h := pd_pp_nms_greedy_filter insertion_qsort nms_example_output nms_example_param
    hperm hsorted
  ⟨h.2.2.2.2.2.1, h.2.2.2.2.2.2.2⟩

/-- C8: for `max_boxes_limit >= 1`, `pd_pp_decode` returns the no-error code and reports
exactly `min(max_boxes_limit, H)` boxes, where `H` counts the 1024 grid cells whose heat
score is strictly above `conf_threshold`; the `k`-th output slot holds the box decoded
from the `k`-th such cell in raster order, with confidence equal to that cell's score;
the slots from the count on are not written; when the keypoint arrays of the slots do
not overlap, the keypoints of the `k`-th slot are those decoded from the same cell; and
once the first `n` cells contain `max_boxes_limit` cells above the threshold, the scores
of the cells from `n` on do not influence the result at all. -/
theorem pd_pp_decode_raster_cap {K : Type} [LinearOrderedField K] (expf : K → K)
    (pInput : pd_model_pp_in_t K) (pOutput : pd_postprocess_out_t K)
    (param : pd_model_pp_static_param_t K) (hL : 1 ≤ param.max_boxes_limit) :
    (pd_pp_decode expf pInput pOutput param).1 = AI_PD_POSTPROCESS_ERROR_NO ∧
    (pd_pp_decode expf pInput pOutput param).2.box_nb
      = min param.max_boxes_limit
          ((List.range 1024).filter
            (fun i => decide (pInput.pHeatmap i > param.conf_threshold))).length ∧
    (∀ k i, ((List.range 1024).filter
          (fun i => decide (pInput.pHeatmap i > param.conf_threshold)))[k]? = some i →
      k < param.max_boxes_limit →
      (pd_pp_decode expf pInput pOutput param).2.pOutData k
          = pd_pp_decode_box expf pInput param (i / 32) (i % 32) (pOutput.pOutData k) ∧
        ((pd_pp_decode expf pInput pOutput param).2.pOutData k).prob = pInput.pHeatmap i) ∧
    (∀ k, (pd_pp_decode expf pInput pOutput param).2.box_nb ≤ k →
      (pd_pp_decode expf pInput pOutput param).2.pOutData k = pOutput.pOutData k) ∧
    ((∀ k1 k2 j1 j2, k1 < k2 → k2 < param.max_boxes_limit →
        j1 < param.nb_keypoints → j2 < param.nb_keypoints →
        (pOutput.pOutData k1).pKps + j1 ≠ (pOutput.pOutData k2).pKps + j2) →
      ∀ k i j, ((List.range 1024).filter
            (fun i => decide (pInput.pHeatmap i > param.conf_threshold)))[k]? = some i →
        k < param.max_boxes_limit → j < param.nb_keypoints →
        (pd_pp_decode expf pInput pOutput param).2.kps ((pOutput.pOutData k).pKps + j)
          = pd_pp_decode_kp expf pInput param (i / 32) (i % 32) j) ∧
    (∀ (n : Nat) (heat : Nat → K), n ≤ 1024 →
      param.max_boxes_limit ≤ ((List.range n).filter
        (fun i => decide (pInput.pHeatmap i > param.conf_threshold))).length →
      (∀ i, i < n → heat i = pInput.pHeatmap i) →
      pd_pp_decode expf { pInput with pHeatmap := heat } pOutput param
        = pd_pp_decode expf pInput pOutput param) := by
  obtain ⟨hn, hout, hin⟩ := pd_pp_decode_loop_boxes expf pInput param pd_pp_grid_cells
    { pOutput with box_nb := 0 }
  rw [pd_pp_grid_cells_filter] at hn hin
  simp only [List.length_map, Nat.zero_add] at hn hin
  have hmax : max param.max_boxes_limit 1 = param.max_boxes_limit := by omega
  have hcount : (pd_pp_decode expf pInput pOutput param).2.box_nb
      = min param.max_boxes_limit
          ((List.range 1024).filter
            (fun i => decide (pInput.pHeatmap i > param.conf_threshold))).length := by
    show (pd_pp_decode_loop expf pInput param pd_pp_grid_cells
      { pOutput with box_nb := 0 }).box_nb = _
    rw [hn, hmax, Nat.min_comm]
  have hget : ∀ (k i : Nat), ((List.range 1024).filter
        (fun i => decide (pInput.pHeatmap i > param.conf_threshold)))[k]? = some i →
      (List.map (fun p => (p / 32, p % 32)) ((List.range 1024).filter
        (fun i => decide (pInput.pHeatmap i > param.conf_threshold))))[k]?
        = some (i / 32, i % 32) := by
    intro k i hk
    simp only [List.getElem?_map, hk, Option.map_some']
  have hklt : ∀ (k i : Nat), ((List.range 1024).filter
        (fun i => decide (pInput.pHeatmap i > param.conf_threshold)))[k]? = some i →
      k < ((List.range 1024).filter
        (fun i => decide (pInput.pHeatmap i > param.conf_threshold))).length := by
    intro k i hk
    by_contra hge
    rw [List.getElem?_eq_none (not_lt.mp hge)] at hk
    exact Option.noConfusion hk
  refine ⟨rfl, hcount, ?_, ?_, ?_, ?_⟩
  · intro k i hk hkL
    have hbox : (pd_pp_decode expf pInput pOutput param).2.pOutData k
        = pd_pp_decode_box expf pInput param (i / 32) (i % 32) (pOutput.pOutData k) := by
      have := hin k (i / 32, i % 32) (hget k i hk) (by
        rw [hn, hmax]
        have := hklt k i hk
        omega)
      exact this
    refine ⟨hbox, ?_⟩
    rw [hbox, pd_pp_decode_box_prob, Nat.div_add_mod']
  · intro k hk
    exact hout k (Or.inr hk)
  · intro hdisj k i j hk hkL hj
    have := pd_pp_decode_loop_kps expf pInput param pd_pp_grid_cells
      { pOutput with box_nb := 0 } (by
        intro k1 k2 j1 j2 _ h12 h2 hj1 hj2
        simp only [Nat.zero_add, hmax] at h2
        exact hdisj k1 k2 j1 j2 h12 h2 hj1 hj2) k (i / 32, i % 32) j (by
        rw [pd_pp_grid_cells_filter]
        exact hget k i hk) (by
        simp only [Nat.zero_add]
        rw [hn, hmax]
        have := hklt k i hk
        omega) hj
    simp only [Nat.zero_add] at this
    exact this
  · intro n heat hn1024 hcap hagree
    unfold pd_pp_decode
    congr 1
    have htake : pd_pp_grid_cells.take n = (List.range n).map (fun p => (p / 32, p % 32)) := by
      rw [pd_pp_grid_cells_eq, ← List.map_take, List.take_range, Nat.min_eq_left hn1024]
    apply pd_pp_decode_loop_heat_congr expf pInput param heat pd_pp_grid_cells _ n
    · rw [htake, cells_filter_map]
      simp only [List.length_map, Nat.zero_add]
      omega
    · intro c hc
      rw [htake, List.mem_map] at hc
      obtain ⟨p, hp, hpc⟩ := hc
      subst hpc
      simp only [Nat.div_add_mod']
      exact hagree p (List.mem_range.mp hp)

/-- Witness for C8: the all-hot example tensors with `max_boxes_limit = 10`. -/
theorem pd_pp_decode_raster_cap_witness :
    (pd_pp_decode (fun _ => 1) decode_example_input decode_example_output
        decode_example_param).1 = AI_PD_POSTPROCESS_ERROR_NO ∧
    (pd_pp_decode (fun _ => 1) decode_example_input decode_example_output
        decode_example_param).2.box_nb
      = min decode_example_param.max_boxes_limit
          ((List.range 1024).filter
            (fun i => decide (decode_example_input.pHeatmap i
              > decode_example_param.conf_threshold))).length :=
  have h := pd_pp_decode_raster_cap (fun _ => 1) decode_example_input decode_example_output
    decode_example_param (by decide)
  ⟨h.1, h.2.1⟩

/-- C7 (failing input): with `max_boxes_limit = 0` and a heatmap whose cells are above
the threshold, `pd_pp_decode` reports one box, which exceeds the limit, and it has
written output slot 0, whose index is not below the limit: the confidence stored
there changes from 0 to the cell's score 1. -/
theorem pd_pp_decode_limit_zero :
    (pd_pp_decode (fun _ => 1) decode_example_input decode_example_output
        decode_example_param_zero).2.box_nb = 1 ∧
    ¬ ((pd_pp_decode (fun _ => 1) decode_example_input decode_example_output
        decode_example_param_zero).2.box_nb ≤ decode_example_param_zero.max_boxes_limit) ∧
    ((pd_pp_decode (fun _ => 1) decode_example_input decode_example_output
        decode_example_param_zero).2.pOutData 0).prob = 1 ∧
    (decode_example_output.pOutData 0).prob = 0 := by
  obtain ⟨hn, _, hin⟩ := pd_pp_decode_loop_boxes (fun _ => 1) decode_example_input
    decode_example_param_zero pd_pp_grid_cells { decode_example_output with box_nb := 0 }
  have hmem : ((0, 0) : Nat × Nat) ∈ pd_pp_grid_cells.filter
      (fun c => decide (decode_example_input.pHeatmap (c.1 * 32 + c.2)
        > decode_example_param_zero.conf_threshold)) := by
    rw [List.mem_filter]
    constructor
    · rw [pd_pp_grid_cells_eq, List.mem_map]
      exact ⟨0, List.mem_range.mpr (by decide), rfl⟩
    · simp only [decode_example_input, decode_example_param_zero]
      norm_num
  have hpos : 0 < (pd_pp_grid_cells.filter
      (fun c => decide (decode_example_input.pHeatmap (c.1 * 32 + c.2)
        > decode_example_param_zero.conf_threshold))).length :=
    List.length_pos_of_mem hmem
  have hcount : (pd_pp_decode (fun _ => 1) decode_example_input decode_example_output
      decode_example_param_zero).2.box_nb = 1 := by
    show (pd_pp_decode_loop (fun _ => 1) decode_example_input decode_example_param_zero
      pd_pp_grid_cells { decode_example_output with box_nb := 0 }).box_nb = 1
    have hn2 : (pd_pp_decode_loop (fun _ => 1) decode_example_input decode_example_param_zero
        pd_pp_grid_cells { decode_example_output with box_nb := 0 }).box_nb
        = min (0 + (pd_pp_grid_cells.filter
            (fun c => decide (decode_example_input.pHeatmap (c.1 * 32 + c.2)
              > decode_example_param_zero.conf_threshold))).length) (max 0 (0 + 1)) := hn
    rw [hn2]
    omega
  refine ⟨hcount, ?_, ?_, rfl⟩
  · rw [hcount]
    decide
  · have hsome := List.getElem?_eq_getElem hpos
    have h0 := hin 0 _ hsome (by
      show 0 + 0 < (pd_pp_decode (fun _ => 1) decode_example_input decode_example_output
        decode_example_param_zero).2.box_nb
      rw [hcount]
      decide)
    show ((pd_pp_decode_loop (fun _ => 1) decode_example_input decode_example_param_zero
      pd_pp_grid_cells { decode_example_output with box_nb := 0 }).pOutData (0 + 0)).prob = 1
    rw [h0, pd_pp_decode_box_prob]
    rfl

/-- At the bound itself the size field wraps: a body of 65533 = 65536 - 3 bytes passes
both size checks of `robust_send_message` on an initialised context (the send returns
true) and the emitted frame header is AA 00 00 AA, whose two size bytes read as 0.  No
caller passes that length (`robust_send_message_call_sizes`). -/
theorem robust_send_message_payload_size_wraps :
    (robust_send_message (fun _ => 0) (fun _ => true) protocol_ctx_initial 5
        (some (fun _ => 0)) 65533).1 = true ∧
    (robust_send_message (fun _ => 0) (fun _ => true) protocol_ctx_initial 5
        (some (fun _ => 0)) 65533).2.2.head? = some [0xAA, 0, 0, 0xAA] ∧
    le16 0 0 = 0 ∧
    le16 0 0 ≠ 3 + 65533 := by
  decide

/-- C6 (counterexample): for the heartbeat packet with timestamp 1234 (type 5, first
sequence id, body D2 04 00 00) and the CRC unit as `crc32_init` configures it, the CRC
trailer is the checksum of the 4 body bytes alone, and it differs from the checksum of
wire bytes 4 through the end of the body (message header followed by the body). -/
theorem robust_send_message_crc_not_over_message_header :
    (robust_send_message stm32_crc_words (fun _ => true) protocol_ctx_initial 5
        (some (u32_bytes 1234)) 4).1 = true ∧
    (robust_send_message stm32_crc_words (fun _ => true) protocol_ctx_initial 5
        (some (u32_bytes 1234)) 4).2.2
      = [[0xAA, 7, 0, 0xAD], [5, 1, 0], [0xD2, 4, 0, 0], [85, 140, 57, 154]] ∧
    le32 [85, 140, 57, 154] = calculate_crc32 stm32_crc_words (some (u32_bytes 1234)) 4 ∧
    le32 [85, 140, 57, 154] ≠
      spec_packet_crc stm32_crc_words
        (wire_bytes (robust_send_message stm32_crc_words (fun _ => true) protocol_ctx_initial 5
          (some (u32_bytes 1234)) 4).2.2) 4 := by
  set_option maxRecDepth 100000 in decide

/-- C6 (amended): whenever `robust_send_message` succeeds, the blocks sent are the frame
header, the message header, the body (when not empty) and the CRC trailer, and the
trailer holds, little-endian, the 32-bit value `calculate_crc32` yields over the body
buffer alone (0 for an empty body): the value does not depend on the message type or on
the sequence counters, so it covers neither the frame header nor the message header. -/
theorem robust_send_message_crc_body_only (HAL_CRC_Calculate : List Nat → Nat)
    (tx_ok : Nat → Bool) (ctx : enhanced_protocol_ctx_t) (message_type : Nat)
    (payload : Option (Nat → Nat)) (payload_size : Nat)
    (hok : (robust_send_message HAL_CRC_Calculate tx_ok ctx message_type payload
      payload_size).1 = true) :
    ∃ frame_header msg_header,
      frame_header.length = 4 ∧ msg_header.length = 3 ∧
      (robust_send_message HAL_CRC_Calculate tx_ok ctx message_type payload payload_size).2.2
        = [frame_header, msg_header] ++
            (if payload_size > 0 then [buffer_bytes payload payload_size] else []) ++
            [le32_bytes
              ((if payload_size > 0 then calculate_crc32 HAL_CRC_Calculate payload payload_size
                else 0) % 2 ^ 32)] := by
  have hbytes : ∀ v : Nat,
      [(v &&& 0xFF) % 256, ((v >>> 8) &&& 0xFF) % 256, ((v >>> 16) &&& 0xFF) % 256,
        ((v >>> 24) &&& 0xFF) % 256] = le32_bytes (v % 2 ^ 32) := by
    intro v
    simp only [and_255_mod, le32_bytes, Nat.shiftRight_eq_div_pow]
    have e1 : v % 2 ^ 32 % 256 = v % 256 := by omega
    have e2 : v % 2 ^ 32 / 256 % 256 = v / 2 ^ 8 % 256 := by omega
    have e3 : v % 2 ^ 32 / 65536 % 256 = v / 2 ^ 16 % 256 := by omega
    have e4 : v % 2 ^ 32 / 16777216 % 256 = v / 2 ^ 24 % 256 := by omega
    rw [e1, e2, e3, e4]
  unfold robust_send_message at hok ⊢
  dsimp only at hok ⊢
  by_cases c1 : (!ctx.initialized) = true
  · rw [if_pos c1] at hok
    exact absurd hok Bool.false_ne_true
  rw [if_neg c1] at hok ⊢
  by_cases c2 : payload_size > ROBUST_MAX_PAYLOAD_SIZE - ROBUST_MSG_HEADER_SIZE
  · rw [if_pos c2] at hok
    exact absurd hok Bool.false_ne_true
  rw [if_neg c2] at hok ⊢
  by_cases c3 : (ROBUST_MSG_HEADER_SIZE + payload_size) % 2 ^ 32 > ROBUST_MAX_PAYLOAD_SIZE
  · rw [if_pos c3] at hok
    exact absurd hok Bool.false_ne_true
  rw [if_neg c3] at hok ⊢
  by_cases c4 : (!tx_ok 0) = true
  · rw [if_pos c4] at hok
    exact absurd hok Bool.false_ne_true
  rw [if_neg c4] at hok ⊢
  by_cases c5 : (!tx_ok 1) = true
  · rw [if_pos c5] at hok
    exact absurd hok Bool.false_ne_true
  rw [if_neg c5] at hok ⊢
  by_cases c6 : payload_size > 0
  · simp only [c6, if_true] at hok ⊢
    by_cases c7 : (!tx_ok 2) = true
    · rw [if_pos c7] at hok
      exact absurd hok Bool.false_ne_true
    rw [if_neg c7] at hok ⊢
    by_cases c8 : (!tx_ok 3) = true
    · rw [if_pos c8] at hok
      exact absurd hok Bool.false_ne_true
    rw [if_neg c8]
    rw [← hbytes]
    refine ⟨_, _, ?_, ?_, rfl⟩ <;> rfl
  · simp only [c6, if_false] at hok ⊢
    by_cases c7 : (!tx_ok 2) = true
    · rw [if_pos c7] at hok
      exact absurd hok Bool.false_ne_true
    rw [if_neg c7]
    rw [← hbytes]
    refine ⟨_, _, ?_, ?_, rfl⟩ <;> rfl

/-- Witness for C6 (amended): the heartbeat packet with timestamp 1234. -/
theorem robust_send_message_crc_body_only_witness :
    ∃ frame_header msg_header,
      frame_header.length = 4 ∧ msg_header.length = 3 ∧
      (robust_send_message stm32_crc_words (fun _ => true) protocol_ctx_initial 5
          (some (u32_bytes 1234)) 4).2.2
        = [frame_header, msg_header] ++
            (if 4 > 0 then [buffer_bytes (some (u32_bytes 1234)) 4] else []) ++
            [le32_bytes
              ((if 4 > 0 then calculate_crc32 stm32_crc_words (some (u32_bytes 1234)) 4
                else 0) % 2 ^ 32)] :=
  robust_send_message_crc_body_only stm32_crc_words (fun _ => true) protocol_ctx_initial 5
    (some (u32_bytes 1234)) 4 (by set_option maxRecDepth 100000 in decide)

/-- C18: `pd_pp_compute_iou` is symmetric: exchanging the two boxes does not change the
result. -/
theorem pd_pp_compute_iou_symmetric {K : Type} [LinearOrderedField K] (a b : pd_pp_box_t K) :
    pd_pp_compute_iou a b = pd_pp_compute_iou b a :=
  pd_pp_compute_iou_comm a b

/-- The function `pd_pp_compute_iou` returns 0, in either argument position and whatever
the other box is, whenever a box has width 0 or height 0; these are exactly the boxes
whose area as the code computes it, |width| * |height|, is not positive. -/
theorem pd_pp_compute_iou_zero_extent {K : Type} [LinearOrderedField K] (a : pd_pp_box_t K)
    (h : a.width = 0 ∨ a.height = 0) :
    pd_pp_box_area a ≤ 0 ∧ pd_pp_box_area a = |a.height| * |a.width| ∧
    ∀ b : pd_pp_box_t K, pd_pp_compute_iou a b = 0 ∧ pd_pp_compute_iou b a = 0 := by
  have harea : pd_pp_box_area a ≤ 0 := (pd_pp_box_area_le_zero_iff a).mpr h
  refine ⟨harea, pd_pp_box_area_eq a, ?_⟩
  intro b
  constructor
  · rw [pd_pp_compute_iou_eq, if_pos (Or.inl harea)]
  · rw [pd_pp_compute_iou_eq, if_pos (Or.inr harea)]

/-- The boxes `pd_pp_compute_iou` is called on are those `pd_pp_decode` has written, and
their width and height are never negative: they are `expf(..) * 4 / width` and
`expf(..) * 4 / height` with the `uint32_t` image width and height, and `expf` is never
negative. -/
theorem pd_pp_decode_box_extent_nonneg {K : Type} [LinearOrderedField K] (expf : K → K)
    (hexpf : ∀ v, 0 ≤ expf v)
    (pInput : pd_model_pp_in_t K) (pInput_static_param : pd_model_pp_static_param_t K)
    (y x : Nat) (slot : pd_pp_box_t K) :
    0 ≤ (pd_pp_decode_box expf pInput pInput_static_param y x slot).width ∧
    0 ≤ (pd_pp_decode_box expf pInput pInput_static_param y x slot).height := by
  unfold pd_pp_decode_box
  constructor
  · exact div_nonneg (mul_nonneg (hexpf _) (by norm_num)) (Nat.cast_nonneg _)
  · exact div_nonneg (mul_nonneg (hexpf _) (by norm_num)) (Nat.cast_nonneg _)

/-- C19: `pd_pp_compute_iou` returns 0 whenever either box is degenerate, whatever the
other box is: for every box `a` with width x height <= 0, among the boxes the function is
called on (width and height not negative, `pd_pp_decode_box_extent_nonneg`), the result of
`pd_pp_compute_iou a b` and of `pd_pp_compute_iou b a` is 0 for every box `b`. -/
theorem pd_pp_compute_iou_degenerate {K : Type} [LinearOrderedField K] (a : pd_pp_box_t K)
    (hw : 0 ≤ a.width) (hh : 0 ≤ a.height) (h : a.width * a.height ≤ 0) :
    ∀ b : pd_pp_box_t K, pd_pp_compute_iou a b = 0 ∧ pd_pp_compute_iou b a = 0 := by
  have hzero : a.width = 0 ∨ a.height = 0 :=
    mul_eq_zero.mp (le_antisymm h (mul_nonneg hw hh))
  exact (pd_pp_compute_iou_zero_extent a hzero).2.2

/-- Witness for C19: the box of width 0 and height 1 against the unit square. -/
theorem pd_pp_compute_iou_degenerate_witness :
    pd_pp_compute_iou iou_example_flat_box iou_example_unit_box = 0 ∧
    pd_pp_compute_iou iou_example_unit_box iou_example_flat_box = 0 :=
  pd_pp_compute_iou_degenerate iou_example_flat_box (by norm_num [iou_example_flat_box])
    (by norm_num [iou_example_flat_box]) (by norm_num [iou_example_flat_box])
    iou_example_unit_box

/-- C20 (amended): in exact arithmetic (every `float` operation read in an ordered
field), for every box of positive area (width x height > 0), `pd_pp_compute_iou` of the
box with itself is 1; and for every pair of boxes for which the division is reached
(neither computed area is <= 0), the divisor `area0 + area1 - intersect_area` is
positive, hence non-zero, and the result is the quotient by it. -/
theorem pd_pp_compute_iou_self {K : Type} [LinearOrderedField K] (a : pd_pp_box_t K)
    (ha : 0 < a.width * a.height) :
    pd_pp_compute_iou a a = 1 ∧
    ∀ c d : pd_pp_box_t K, ¬ (pd_pp_box_area c ≤ 0 ∨ pd_pp_box_area d ≤ 0) →
      0 < pd_pp_iou_divisor c d ∧ pd_pp_iou_divisor c d ≠ 0 ∧
      pd_pp_compute_iou c d = pd_pp_intersect_area c d / pd_pp_iou_divisor c d := by
  constructor
  · apply pd_pp_compute_iou_self_eq_one
    · intro hw
      rw [hw, zero_mul] at ha
      exact lt_irrefl _ ha
    · intro hh
      rw [hh, mul_zero] at ha
      exact lt_irrefl _ ha
  · intro c d hcd
    have hd : 0 < pd_pp_box_area d := by
      by_contra hn
      exact hcd (Or.inr (not_lt.mp hn))
    have hpos := pd_pp_iou_divisor_pos c d hd
    refine ⟨hpos, ne_of_gt hpos, ?_⟩
    rw [pd_pp_compute_iou_eq, if_neg hcd]

/-- Witness for C20 (amended): the rational unit square. -/
theorem pd_pp_compute_iou_self_witness :
    pd_pp_compute_iou iou_example_unit_box iou_example_unit_box = 1 :=
  (pd_pp_compute_iou_self iou_example_unit_box (by norm_num [iou_example_unit_box])).1

/-- C13 (failing input): a frame at tick 0 with `target_detected` ends in
`TargetVerified` with the last-verified timestamp 0; the next frame at tick 500, with
neither target nor face detected and an elapsed time 500 < 1000, does not yield
`HoldoverAfterLoss`: both LEDs are off and `led_timeout_active` is false. -/
theorem update_led_status_no_holdover_after_tick_zero :
    (update_led_status 0 { g_app_ctx with target_detected := true }
        { LED1 := false, LED2 := false }).2 = { LED1 := false, LED2 := true } ∧
    (update_led_status 0 { g_app_ctx with target_detected := true }
        { LED1 := false, LED2 := false }).1.last_stable_verification_ts = 0 ∧
    u32_sub 500 0 < 1000 ∧
    (update_led_status 500
        { (update_led_status 0 { g_app_ctx with target_detected := true }
            { LED1 := false, LED2 := false }).1 with
          target_detected := false, face_detected := false }
        (update_led_status 0 { g_app_ctx with target_detected := true }
            { LED1 := false, LED2 := false }).2).2 = { LED1 := false, LED2 := false } ∧
    (update_led_status 500
        { (update_led_status 0 { g_app_ctx with target_detected := true }
            { LED1 := false, LED2 := false }).1 with
          target_detected := false, face_detected := false }
        (update_led_status 0 { g_app_ctx with target_detected := true }
            { LED1 := false, LED2 := false }).2).1.led_timeout_active = false := by
  decide

/-- C14 (failing input): a frame with one box of detection confidence 9/10 >= 0.7 whose
recognition runs to its end and returns the similarity 0 (as with an empty bank) leaves
`face_detected` false. -/
theorem process_frame_detections_similarity_zero :
    (frame_example_state.boxes 0).prob ≥ FACE_DETECTION_CONFIDENCE_THRESHOLD ∧
    (process_frame_detections (fun _ _ => some 0) frame_example_state 1).ctx.face_detected
      = false := by
  constructor
  · norm_num [frame_example_state, FACE_DETECTION_CONFIDENCE_THRESHOLD]
  · rw [Bool.eq_false_iff, Ne, process_frame_detections_face_detected]
    rintro ⟨i, _, _, hpos⟩
    exact lt_irrefl _ hpos

/-- C11 (amended): in exact arithmetic (every `float` operation read over the real
numbers, `sqrtf` as the real square root), for a bank with fewer than 10 entries and an
embedding `e` of non-zero L2 norm, `embeddings_bank_add` returns the new count
`bank_count + 1`, stores `e / ||e||` in slot `bank_count`, leaves every other slot
unchanged, and sets the 128 components of `target_embedding` to the component-wise mean
of the stored entries divided by that mean's L2 norm (when the mean is the zero vector,
whose norm is 0, the target is the zero vector). -/
theorem embeddings_bank_add_success (s : BankState ℝ) (e : Nat → ℝ)
    (hcount : s.bank_count < 10)
    (hnorm : Real.sqrt (∑ i in Finset.range 128, e i ^ 2) ≠ 0) :
    (embeddings_bank_add Real.sqrt s e).1 = (s.bank_count : Int) + 1 ∧
    (embeddings_bank_add Real.sqrt s e).2.bank_count = s.bank_count + 1 ∧
    (∀ i, i < 128 →
      (embeddings_bank_add Real.sqrt s e).2.embedding_bank s.bank_count i
        = e i / Real.sqrt (∑ j in Finset.range 128, e j ^ 2)) ∧
    (∀ n i, n ≠ s.bank_count →
      (embeddings_bank_add Real.sqrt s e).2.embedding_bank n i = s.embedding_bank n i) ∧
    (∀ i, i < 128 →
      (embeddings_bank_add Real.sqrt s e).2.target_embedding i
        = bank_mean (embeddings_bank_add Real.sqrt s e).2 i /
            Real.sqrt (∑ j in Finset.range 128,
              bank_mean (embeddings_bank_add Real.sqrt s e).2 j ^ 2)) ∧
    ((∀ i, i < 128 → bank_mean (embeddings_bank_add Real.sqrt s e).2 i = 0) →
      ∀ i, i < 128 → (embeddings_bank_add Real.sqrt s e).2.target_embedding i = 0) := by
  have hsq : sum_squares e EMBEDDING_SIZE = ∑ i in Finset.range 128, e i ^ 2 := by
    rw [sum_squares_eq_sum]
    exact Finset.sum_congr rfl (fun j _ => (pow_two (e j)).symm)
  have hn : Real.sqrt (sum_squares e EMBEDDING_SIZE) ≠ 0 := by rw [hsq]; exact hnorm
  rw [embeddings_bank_add_ok Real.sqrt s e hcount hn]
  obtain ⟨hcnt, hbank, htgt⟩ := compute_target_nonempty Real.sqrt
    { s with
      embedding_bank := fun n i =>
        if n = s.bank_count ∧ i < EMBEDDING_SIZE then
          e i / Real.sqrt (sum_squares e EMBEDDING_SIZE)
        else s.embedding_bank n i
      bank_count := s.bank_count + 1 } (Nat.succ_ne_zero _)
  have hmean : ∀ j, bank_mean (compute_target Real.sqrt
      { s with
        embedding_bank := fun n i =>
          if n = s.bank_count ∧ i < EMBEDDING_SIZE then
            e i / Real.sqrt (sum_squares e EMBEDDING_SIZE)
          else s.embedding_bank n i
        bank_count := s.bank_count + 1 }) j
      = bank_mean
        { s with
          embedding_bank := fun n i =>
            if n = s.bank_count ∧ i < EMBEDDING_SIZE then
              e i / Real.sqrt (sum_squares e EMBEDDING_SIZE)
            else s.embedding_bank n i
          bank_count := s.bank_count + 1 } j := by
    intro j
    unfold bank_mean
    rw [hcnt, hbank]
  obtain ⟨hdiv, _, hzero⟩ := real_norm_of_normalised _ _ htgt
  refine ⟨?_, hcnt, ?_, ?_, ?_, ?_⟩
  · simp
  · intro i hi
    have hi2 : i < EMBEDDING_SIZE := hi
    rw [hbank]
    simp [hi2, hsq]
  · intro n i hne
    rw [hbank]
    simp [hne]
  · intro i hi
    simp only [hmean]
    exact hdiv i hi
  · intro hall i hi
    simp only [hmean] at hall
    exact (hzero hall).1 i hi

/-- Witness for C11 (amended): the first unit vector added to the empty bank. -/
theorem embeddings_bank_add_success_witness :
    (embeddings_bank_add Real.sqrt (bank_zero_state ℝ) (unit_embedding ℝ)).1 = 1 ∧
    (embeddings_bank_add Real.sqrt (bank_zero_state ℝ) (unit_embedding ℝ)).2.bank_count = 1 :=
  have hnorm : Real.sqrt (∑ i in Finset.range 128, unit_embedding ℝ i ^ 2) ≠ 0 := by
    have h1 : ∑ i in Finset.range 128, unit_embedding ℝ i ^ 2 = 1 := by
      simp [unit_embedding]
    rw [h1, Real.sqrt_one]
    exact one_ne_zero
  have h := embeddings_bank_add_success (bank_zero_state ℝ) (unit_embedding ℝ)
    (by decide) hnorm
  ⟨by simpa [bank_zero_state] using h.1, h.2.1⟩

/-- C12 (counterexample): after init, enrolling the first unit vector and then its
opposite succeeds twice (the bank holds 2 entries), and the target embedding then has L2
norm 0, not 1: the mean of the two stored entries is the zero vector. -/
theorem target_embedding_zero_after_opposite_pair :
    (bank_run Real.sqrt (bank_zero_state ℝ)
        [unit_embedding ℝ, neg_unit_embedding ℝ]).bank_count = 2 ∧
    Real.sqrt (∑ i in Finset.range 128,
        (bank_run Real.sqrt (bank_zero_state ℝ)
          [unit_embedding ℝ, neg_unit_embedding ℝ]).target_embedding i ^ 2) = 0 ∧
    Real.sqrt (∑ i in Finset.range 128,
        (bank_run Real.sqrt (bank_zero_state ℝ)
          [unit_embedding ℝ, neg_unit_embedding ℝ]).target_embedding i ^ 2) ≠ 1 := by
  have hn1 : Real.sqrt (sum_squares (unit_embedding ℝ) EMBEDDING_SIZE) = 1 := by
    rw [sum_squares_eq_sum]
    have h1 : ∑ i in Finset.range EMBEDDING_SIZE, unit_embedding ℝ i * unit_embedding ℝ i = 1 := by
      simp [unit_embedding, EMBEDDING_SIZE]
    rw [h1, Real.sqrt_one]
  have hn2 : Real.sqrt (sum_squares (neg_unit_embedding ℝ) EMBEDDING_SIZE) = 1 := by
    rw [sum_squares_eq_sum]
    have h1 : ∑ i in Finset.range EMBEDDING_SIZE,
        neg_unit_embedding ℝ i * neg_unit_embedding ℝ i = 1 := by
      simp [neg_unit_embedding, EMBEDDING_SIZE]
    rw [h1, Real.sqrt_one]
  have hrun : bank_run Real.sqrt (bank_zero_state ℝ) [unit_embedding ℝ, neg_unit_embedding ℝ]
      = (embeddings_bank_add Real.sqrt
          (embeddings_bank_add Real.sqrt (embeddings_bank_init (bank_zero_state ℝ))
            (unit_embedding ℝ)).2 (neg_unit_embedding ℝ)).2 := rfl
  obtain ⟨hc1, hb1, _⟩ := embeddings_bank_add_state Real.sqrt
    (embeddings_bank_init (bank_zero_state ℝ)) (unit_embedding ℝ) (by decide)
    (by rw [hn1]; exact one_ne_zero)
  have hcount1 : (embeddings_bank_add Real.sqrt (embeddings_bank_init (bank_zero_state ℝ))
      (unit_embedding ℝ)).2.bank_count = 1 := hc1
  obtain ⟨hc2, hb2, ht2⟩ := embeddings_bank_add_state Real.sqrt
    (embeddings_bank_add Real.sqrt (embeddings_bank_init (bank_zero_state ℝ))
      (unit_embedding ℝ)).2 (neg_unit_embedding ℝ) (by rw [hcount1]; decide)
    (by rw [hn2]; exact one_ne_zero)
  rw [← hrun] at hc2 hb2 ht2
  have hcount2 : (bank_run Real.sqrt (bank_zero_state ℝ)
      [unit_embedding ℝ, neg_unit_embedding ℝ]).bank_count = 2 := by
    rw [hc2, hcount1]
  have hmean : ∀ j, j < 128 → bank_mean (bank_run Real.sqrt (bank_zero_state ℝ)
      [unit_embedding ℝ, neg_unit_embedding ℝ]) j = 0 := by
    intro j hj
    have hj2 : j < EMBEDDING_SIZE := hj
    unfold bank_mean
    rw [hcount2, hb2, hcount1, hb1, hn1, hn2]
    simp only [Finset.sum_range_succ, Finset.sum_range_zero]
    by_cases h0 : j = 0
    · subst h0
      simp [EMBEDDING_SIZE, embeddings_bank_init, bank_zero_state, unit_embedding,
        neg_unit_embedding]
    · simp [hj2, h0, embeddings_bank_init, bank_zero_state, unit_embedding,
        neg_unit_embedding]
  obtain ⟨_, _, hzero⟩ := real_norm_of_normalised _ _ ht2
  have hfinal := (hzero hmean).2
  refine ⟨hcount2, hfinal, ?_⟩
  rw [hfinal]
  exact zero_ne_one

/-- C12 (amended): in every state reached from `embeddings_bank_init` by calls of
`embeddings_bank_add`, either the bank is empty, or the mean of the stored entries is
not the zero vector and the target embedding has L2 norm exactly 1 (over the reals), or
the mean of the stored entries is the zero vector and so is the target embedding. -/
theorem target_embedding_unit_or_zero (s0 : BankState ℝ) (es : List (Nat → ℝ)) :
    (bank_run Real.sqrt s0 es).bank_count = 0 ∨
    ((∃ i, i < 128 ∧ bank_mean (bank_run Real.sqrt s0 es) i ≠ 0) ∧
      Real.sqrt (∑ i in Finset.range 128,
        (bank_run Real.sqrt s0 es).target_embedding i ^ 2) = 1) ∨
    ((∀ i, i < 128 → bank_mean (bank_run Real.sqrt s0 es) i = 0) ∧
      (∀ i, i < 128 → (bank_run Real.sqrt s0 es).target_embedding i = 0) ∧
      Real.sqrt (∑ i in Finset.range 128,
        (bank_run Real.sqrt s0 es).target_embedding i ^ 2) = 0) := by
  rcases bank_run_invariant s0 es with h0 | ht
  · exact Or.inl h0
  · right
    obtain ⟨_, hunit, hzero⟩ := real_norm_of_normalised _ _ ht
    by_cases hex : ∃ i, i < 128 ∧ bank_mean (bank_run Real.sqrt s0 es) i ≠ 0
    · exact Or.inl ⟨hex, hunit hex⟩
    · right
      have hall : ∀ i, i < 128 → bank_mean (bank_run Real.sqrt s0 es) i = 0 := by
        intro i hi
        by_contra hne
        exact hex ⟨i, hi, hne⟩
      exact ⟨hall, (hzero hall).1, (hzero hall).2⟩

/-- C16: on an initialised context `robust_send_message` fails exactly when the body
exceeds 65536 - 3 bytes or one of its transport writes (3 for an empty body, else 4)
fails.  On failure it returns false, adds exactly one to the 32-bit error counter
`stats.crc_errors`, leaves `packets_sent` and `bytes_sent` unchanged, and has issued no
write at all (oversized body) or no write after the first failing one.  On success it
returns true, has issued all its writes, adds one to `packets_sent`, adds
`body_len + 11` to `bytes_sent` (32-bit counters) and leaves the error counter. -/
theorem robust_send_message_outcome (HAL_CRC_Calculate : List Nat → Nat)
    (tx_ok : Nat → Bool) (ctx : enhanced_protocol_ctx_t) (message_type : Nat)
    (payload : Option (Nat → Nat)) (payload_size : Nat)
    (hinit : ctx.initialized = true) :
    ((robust_send_message HAL_CRC_Calculate tx_ok ctx message_type payload payload_size).1
        = false ↔
      (payload_size > 65536 - 3 ∨
        ∃ k, k < (if payload_size > 0 then 4 else 3) ∧ tx_ok k = false)) ∧
    ((robust_send_message HAL_CRC_Calculate tx_ok ctx message_type payload payload_size).1
        = false →
      (robust_send_message HAL_CRC_Calculate tx_ok ctx message_type payload
          payload_size).2.1.stats.crc_errors = (ctx.stats.crc_errors + 1) % 2 ^ 32 ∧
      (robust_send_message HAL_CRC_Calculate tx_ok ctx message_type payload
          payload_size).2.1.stats.packets_sent = ctx.stats.packets_sent ∧
      (robust_send_message HAL_CRC_Calculate tx_ok ctx message_type payload
          payload_size).2.1.stats.bytes_sent = ctx.stats.bytes_sent ∧
      ((robust_send_message HAL_CRC_Calculate tx_ok ctx message_type payload
            payload_size).2.2 = [] ∧ payload_size > 65536 - 3 ∨
        ∃ k, k < (if payload_size > 0 then 4 else 3) ∧ tx_ok k = false ∧
          (∀ j, j < k → tx_ok j = true) ∧
          (robust_send_message HAL_CRC_Calculate tx_ok ctx message_type payload
            payload_size).2.2.length = k + 1)) ∧
    ((robust_send_message HAL_CRC_Calculate tx_ok ctx message_type payload payload_size).1
        = true →
      (robust_send_message HAL_CRC_Calculate tx_ok ctx message_type payload
          payload_size).2.1.stats.packets_sent = (ctx.stats.packets_sent + 1) % 2 ^ 32 ∧
      (robust_send_message HAL_CRC_Calculate tx_ok ctx message_type payload
          payload_size).2.1.stats.bytes_sent
        = (ctx.stats.bytes_sent + (payload_size + 11)) % 2 ^ 32 ∧
      (robust_send_message HAL_CRC_Calculate tx_ok ctx message_type payload
          payload_size).2.1.stats.crc_errors = ctx.stats.crc_errors ∧
      (robust_send_message HAL_CRC_Calculate tx_ok ctx message_type payload
          payload_size).2.2.length = (if payload_size > 0 then 4 else 3)) := by
  have hst := (get_next_sequence_id_stats ctx message_type).1
  have c1 : ¬ (!ctx.initialized) = true := by simp [hinit]
  unfold robust_send_message
  dsimp only
  rw [if_neg c1]
  by_cases c2 : payload_size > ROBUST_MAX_PAYLOAD_SIZE - ROBUST_MSG_HEADER_SIZE
  · rw [if_pos c2]
    have c2' : payload_size > 65536 - 3 := c2
    simp [count_send_error, c2']
  rw [if_neg c2]
  have c2' : ¬ payload_size > 65536 - 3 := c2
  have htot : (ROBUST_MSG_HEADER_SIZE + payload_size) % 2 ^ 32 = 3 + payload_size := by
    simp only [ROBUST_MSG_HEADER_SIZE]
    omega
  have c3 : ¬ (ROBUST_MSG_HEADER_SIZE + payload_size) % 2 ^ 32 > ROBUST_MAX_PAYLOAD_SIZE := by
    rw [htot]
    simp only [ROBUST_MAX_PAYLOAD_SIZE]
    omega
  rw [if_neg c3]
  have hbytes : (ctx.stats.bytes_sent + (ROBUST_HEADER_SIZE +
      (ROBUST_MSG_HEADER_SIZE + payload_size) % 2 ^ 32 + ROBUST_CRC_SIZE)) % 2 ^ 32
      = (ctx.stats.bytes_sent + (payload_size + 11)) % 2 ^ 32 := by
    rw [htot]
    simp only [ROBUST_HEADER_SIZE, ROBUST_CRC_SIZE]
    congr 1
    omega
  cases h0 : tx_ok 0
  · simp only [Bool.not_false, if_true]
    refine ⟨?_, ?_, ?_⟩
    · simp only [true_iff]
      exact Or.inr ⟨0, by split_ifs <;> decide, h0⟩
    · intro _
      refine ⟨by simp [count_send_error, hst], by simp [count_send_error, hst],
        by simp [count_send_error, hst], Or.inr ⟨0, by split_ifs <;> decide, h0, ?_, rfl⟩⟩
      intro j hj
      omega
    · intro h
      exact absurd h Bool.false_ne_true
  simp only [Bool.not_true, Bool.false_eq_true, if_false]
  cases h1 : tx_ok 1
  · simp only [Bool.not_false, if_true]
    refine ⟨?_, ?_, ?_⟩
    · simp only [true_iff]
      exact Or.inr ⟨1, by split_ifs <;> decide, h1⟩
    · intro _
      refine ⟨by simp [count_send_error, hst], by simp [count_send_error, hst],
        by simp [count_send_error, hst], Or.inr ⟨1, by split_ifs <;> decide, h1, ?_, rfl⟩⟩
      intro j hj
      have hj0 : j = 0 := by omega
      rw [hj0, h0]
    · intro h
      exact absurd h Bool.false_ne_true
  simp only [Bool.not_true, Bool.false_eq_true, if_false]
  by_cases c6 : payload_size > 0
  · simp only [c6, if_true]
    cases h2 : tx_ok 2
    · simp only [Bool.not_false, if_true]
      refine ⟨?_, ?_, ?_⟩
      · simp only [true_iff]
        exact Or.inr ⟨2, by decide, h2⟩
      · intro _
        refine ⟨by simp [count_send_error, hst], by simp [count_send_error, hst],
          by simp [count_send_error, hst], Or.inr ⟨2, by decide, h2, ?_, rfl⟩⟩
        intro j hj
        have hj0 : j = 0 ∨ j = 1 := by omega
        rcases hj0 with hj0 | hj0
        · rw [hj0, h0]
        · rw [hj0, h1]
      · intro h
        exact absurd h Bool.false_ne_true
    simp only [Bool.not_true, Bool.false_eq_true, if_false]
    cases h3 : tx_ok 3
    · simp only [Bool.not_false, if_true]
      refine ⟨?_, ?_, ?_⟩
      · simp only [true_iff]
        exact Or.inr ⟨3, by decide, h3⟩
      · intro _
        refine ⟨by simp [count_send_error, hst], by simp [count_send_error, hst],
          by simp [count_send_error, hst], Or.inr ⟨3, by decide, h3, ?_, rfl⟩⟩
        intro j hj
        have hj0 : j = 0 ∨ j = 1 ∨ j = 2 := by omega
        rcases hj0 with hj0 | hj0 | hj0
        · rw [hj0, h0]
        · rw [hj0, h1]
        · rw [hj0, h2]
      · intro h
        exact absurd h Bool.false_ne_true
    simp only [Bool.not_true, Bool.false_eq_true, if_false]
    refine ⟨?_, ?_, ?_⟩
    · constructor
      · intro h
        exact absurd h.symm Bool.false_ne_true
      · rintro (h | ⟨k, hk, hkf⟩)
        · exact absurd h c2'
        · have hk4 : k = 0 ∨ k = 1 ∨ k = 2 ∨ k = 3 := by omega
          rcases hk4 with hk4 | hk4 | hk4 | hk4 <;> rw [hk4] at hkf
          · rw [h0] at hkf; exact absurd hkf.symm Bool.false_ne_true
          · rw [h1] at hkf; exact absurd hkf.symm Bool.false_ne_true
          · rw [h2] at hkf; exact absurd hkf.symm Bool.false_ne_true
          · rw [h3] at hkf; exact absurd hkf.symm Bool.false_ne_true
    · intro h
      exact absurd h.symm Bool.false_ne_true
    · intro _
      exact ⟨by rw [hst], by rw [hst, hbytes], by rw [hst], rfl⟩
  · simp only [c6, if_false]
    cases h2 : tx_ok 2
    · simp only [Bool.not_false, if_true]
      refine ⟨?_, ?_, ?_⟩
      · simp only [true_iff]
        exact Or.inr ⟨2, by decide, h2⟩
      · intro _
        refine ⟨by simp [count_send_error, hst], by simp [count_send_error, hst],
          by simp [count_send_error, hst], Or.inr ⟨2, by decide, h2, ?_, rfl⟩⟩
        intro j hj
        have hj0 : j = 0 ∨ j = 1 := by omega
        rcases hj0 with hj0 | hj0
        · rw [hj0, h0]
        · rw [hj0, h1]
      · intro h
        exact absurd h Bool.false_ne_true
    simp only [Bool.not_true, Bool.false_eq_true, if_false]
    refine ⟨?_, ?_, ?_⟩
    · constructor
      · intro h
        exact absurd h.symm Bool.false_ne_true
      · rintro (h | ⟨k, hk, hkf⟩)
        · exact absurd h c2'
        · have hk4 : k = 0 ∨ k = 1 ∨ k = 2 := by omega
          rcases hk4 with hk4 | hk4 | hk4 <;> rw [hk4] at hkf
          · rw [h0] at hkf; exact absurd hkf.symm Bool.false_ne_true
          · rw [h1] at hkf; exact absurd hkf.symm Bool.false_ne_true
          · rw [h2] at hkf; exact absurd hkf.symm Bool.false_ne_true
    · intro h
      exact absurd h.symm Bool.false_ne_true
    · intro _
      exact ⟨by rw [hst], by rw [hst, hbytes], by rw [hst], rfl⟩

/-- C15: on an initialised context with cleared counters, when every transport write
succeeds, the packet emitted by the `k`-th call of `robust_send_message` (message types
below 16, as all types of the protocol are; bodies within the size limit) carries its
message type in wire byte 4 and, little-endian in wire bytes 5..6, the sequence id
`n mod 65536`, where `n` counts the calls of that type up to and including this one (so
the first carries 1); and a call for one type leaves the counters of all other types
unchanged, whatever its outcome. -/
theorem robust_send_message_sequence_ids (HAL_CRC_Calculate : List Nat → Nat)
    (ctx : enhanced_protocol_ctx_t) (msgs : List (Nat × (Nat → Nat) × Nat))
    (hinit : ctx.initialized = true) (hzero : ∀ t, ctx.sequence_counters t = 0)
    (hvalid : ∀ m ∈ msgs, m.1 < 16 ∧ m.2.2 ≤ 65536 - 3) :
    (∀ (k : Nat) (m : Nat × (Nat → Nat) × Nat), msgs[k]? = some m →
      ∃ packet b0 b1 b2 b3 s_lo s_hi rest,
        (send_sequence HAL_CRC_Calculate ctx msgs)[k]? = some packet ∧
        wire_bytes packet = b0 :: b1 :: b2 :: b3 :: m.1 :: s_lo :: s_hi :: rest ∧
        s_lo < 256 ∧ s_hi < 256 ∧
        le16 s_lo s_hi
          = ((msgs.take (k + 1)).filter (fun m' => decide (m'.1 = m.1))).length % 65536) ∧
    (∀ (c : enhanced_protocol_ctx_t) (tx_ok : Nat → Bool) (message_type : Nat)
        (payload : Option (Nat → Nat)) (payload_size t : Nat), t ≠ message_type →
      (robust_send_message HAL_CRC_Calculate tx_ok c message_type payload
        payload_size).2.1.sequence_counters t = c.sequence_counters t) := by
  constructor
  · intro k m hm
    obtain ⟨packet, b0, b1, b2, b3, rest, hget, hw⟩ :=
      send_sequence_ids HAL_CRC_Calculate msgs ctx k hinit hvalid m hm
    rw [hzero, Nat.zero_add] at hw
    refine ⟨packet, b0, b1, b2, b3, _, _, rest, hget, hw, ?_, ?_, ?_⟩
    · omega
    · omega
    · unfold le16
      omega
  · intro c tx_ok message_type payload payload_size t ht
    exact robust_send_message_counters _ _ _ _ _ _ _ ht

/-- Witness for C15: three sends on the freshly initialised context; the third packet is
the second heartbeat. -/
theorem robust_send_message_sequence_ids_witness :
    ∃ packet b0 b1 b2 b3 s_lo s_hi rest,
      (send_sequence stm32_crc_words protocol_ctx_initial send_example_msgs)[2]? = some packet ∧
      wire_bytes packet = b0 :: b1 :: b2 :: b3 :: 5 :: s_lo :: s_hi :: rest ∧
      s_lo < 256 ∧ s_hi < 256 ∧
      le16 s_lo s_hi
        = ((send_example_msgs.take (2 + 1)).filter
            (fun m' => decide (m'.1 = 5))).length % 65536 :=
  (robust_send_message_sequence_ids stm32_crc_words protocol_ctx_initial send_example_msgs
    rfl (fun _ => rfl) (by simp [send_example_msgs])).1 2 (5, u32_bytes 99, 4) rfl

/-- Witness for C16: the heartbeat with timestamp 1234 on the freshly initialised
context, every write succeeding. -/
theorem robust_send_message_outcome_witness :
    (robust_send_message stm32_crc_words (fun _ => true) protocol_ctx_initial 5
        (some (u32_bytes 1234)) 4).2.1.stats.packets_sent = (0 + 1) % 2 ^ 32 ∧
    (robust_send_message stm32_crc_words (fun _ => true) protocol_ctx_initial 5
        (some (u32_bytes 1234)) 4).2.1.stats.bytes_sent = (0 + (4 + 11)) % 2 ^ 32 ∧
    (robust_send_message stm32_crc_words (fun _ => true) protocol_ctx_initial 5
        (some (u32_bytes 1234)) 4).2.1.stats.crc_errors = 0 ∧
    (robust_send_message stm32_crc_words (fun _ => true) protocol_ctx_initial 5
        (some (u32_bytes 1234)) 4).2.2.length = (if 4 > 0 then 4 else 3) :=
  (robust_send_message_outcome stm32_crc_words (fun _ => true) protocol_ctx_initial 5
    (some (u32_bytes 1234)) 4 rfl).2.2 (by decide)

/-- C21: over the reals, for every vector `v` whose norm over the `len` components
read is non-zero, `embedding_cosine_similarity(v, v, len)` is exactly 1. -/
theorem embedding_cosine_similarity_self (v : Nat → ℝ) (len : Nat)
    (h : Real.sqrt (∑ i in Finset.range len, v i ^ 2) ≠ 0) :
    embedding_cosine_similarity (fun a b => a / b) Real.sqrt (some v) (some v) len = 1 := by
  have hS : (∑ i in Finset.range len, v i * v i) = ∑ i in Finset.range len, v i ^ 2 := by
    apply Finset.sum_congr rfl
    intro i _
    ring
  have hnn : 0 ≤ ∑ i in Finset.range len, v i ^ 2 :=
    Finset.sum_nonneg (fun i _ => sq_nonneg (v i))
  have hne : (∑ i in Finset.range len, v i ^ 2) ≠ 0 := by
    intro h0
    apply h
    rw [h0, Real.sqrt_zero]
  have hlen : len ≠ 0 := by
    intro h0
    apply hne
    subst h0
    simp
  rw [embedding_cosine_similarity_some, if_neg hlen, hS, if_neg (by simp [hne]),
    Real.sqrt_mul_self hnn]
  exact div_self hne

/-- Witness for C21: the vector `(1, 2, 3)`. -/
theorem embedding_cosine_similarity_self_witness :
    embedding_cosine_similarity (fun a b => a / b) Real.sqrt
      (some (fun i => (i : ℝ) + 1)) (some (fun i => (i : ℝ) + 1)) 3 = 1 :=
  embedding_cosine_similarity_self (fun i => (i : ℝ) + 1) 3
    (by
      rw [Real.sqrt_ne_zero']
      norm_num [Finset.sum_range_succ])

/-- C22 (amended): in exact arithmetic (every `float` operation read over the real
numbers, `sqrtf` as the real square root), after `embeddings_bank_init` (or
`embeddings_bank_reset`, which is the same function), `embeddings_bank_add` on a single
embedding `e` of non-zero norm returns 1, leaves a count of 1, and leaves each of the 128
components of `target_embedding` equal to `e[i] / ||e||`. -/
theorem embeddings_bank_add_single (s0 : BankState ℝ) (e : Nat → ℝ)
    (hn : Real.sqrt (∑ j in Finset.range 128, e j ^ 2) ≠ 0) :
    embeddings_bank_reset s0 = embeddings_bank_init s0 ∧
    (embeddings_bank_add Real.sqrt (embeddings_bank_init s0) e).1 = 1 ∧
    embeddings_bank_count (embeddings_bank_add Real.sqrt (embeddings_bank_init s0) e).2 = 1 ∧
    ∀ i, i < 128 →
      (embeddings_bank_add Real.sqrt (embeddings_bank_init s0) e).2.target_embedding i
        = e i / Real.sqrt (∑ j in Finset.range 128, e j ^ 2) := by
  have hss : sum_squares e EMBEDDING_SIZE = ∑ j in Finset.range 128, e j ^ 2 := by
    rw [sum_squares_eq_sum]
    apply Finset.sum_congr rfl
    intro j _
    ring
  have hn2 : Real.sqrt (sum_squares e EMBEDDING_SIZE) ≠ 0 := by
    rw [hss]
    exact hn
  have hc : (embeddings_bank_init s0).bank_count < 10 := by
    simp [embeddings_bank_init]
  have hc0 : (embeddings_bank_init s0).bank_count = 0 := rfl
  obtain ⟨hcount, hbank, htarget⟩ :=
    embeddings_bank_add_state Real.sqrt (embeddings_bank_init s0) e hc hn2
  have hret := embeddings_bank_add_ok Real.sqrt (embeddings_bank_init s0) e hc hn2
  rw [hc0] at hcount
  have hmean : ∀ i, i < 128 →
      bank_mean (embeddings_bank_add Real.sqrt (embeddings_bank_init s0) e).2 i
        = e i / Real.sqrt (∑ j in Finset.range 128, e j ^ 2) := by
    intro i hi
    unfold bank_mean
    rw [hcount, hbank, hc0, hss]
    simp [EMBEDDING_SIZE, hi]
  obtain ⟨hquot, -, -⟩ :=
    real_norm_of_normalised
      (bank_mean (embeddings_bank_add Real.sqrt (embeddings_bank_init s0) e).2)
      (embeddings_bank_add Real.sqrt (embeddings_bank_init s0) e).2.target_embedding htarget
  have hpos : 0 < ∑ j in Finset.range 128, e j ^ 2 := by
    by_contra hle
    apply hn
    exact Real.sqrt_eq_zero_of_nonpos (not_lt.mp hle)
  have hunit : (∑ j in Finset.range 128,
      bank_mean (embeddings_bank_add Real.sqrt (embeddings_bank_init s0) e).2 j ^ 2) = 1 := by
    have h1 : (∑ j in Finset.range 128,
        bank_mean (embeddings_bank_add Real.sqrt (embeddings_bank_init s0) e).2 j ^ 2)
          = ∑ j in Finset.range 128,
              e j ^ 2 / (∑ j in Finset.range 128, e j ^ 2) := by
      apply Finset.sum_congr rfl
      intro j hj
      rw [hmean j (Finset.mem_range.mp hj), div_pow, Real.sq_sqrt hpos.le]
    rw [h1, ← Finset.sum_div]
    exact div_self hpos.ne'
  refine ⟨rfl, ?_, ?_, ?_⟩
  · rw [hret, hc0]
    rfl
  · unfold embeddings_bank_count
    rw [hcount]
    rfl
  · intro i hi
    rw [hquot i hi, hunit, Real.sqrt_one, div_one, hmean i hi]

/-- Witness for C22 (amended): enrolling the first unit vector returns 1 and leaves
component 0 of the target equal to the component divided by the norm. -/
theorem embeddings_bank_add_single_witness :
    (embeddings_bank_add Real.sqrt (embeddings_bank_init (bank_zero_state ℝ))
      (unit_embedding ℝ)).1 = 1 ∧
    (embeddings_bank_add Real.sqrt (embeddings_bank_init (bank_zero_state ℝ))
      (unit_embedding ℝ)).2.target_embedding 0
      = unit_embedding ℝ 0 / Real.sqrt (∑ j in Finset.range 128, unit_embedding ℝ j ^ 2) :=
  have h := embeddings_bank_add_single (bank_zero_state ℝ) (unit_embedding ℝ)
    (by
      rw [Real.sqrt_ne_zero']
      rw [Finset.sum_range_succ']
      have h0 : (0 : ℝ) ≤ ∑ k in Finset.range 127, unit_embedding ℝ (k + 1) ^ 2 :=
        Finset.sum_nonneg (fun i _ => sq_nonneg _)
      have h1 : unit_embedding ℝ 0 ^ 2 = 1 := by simp [unit_embedding]
      rw [h1]
      linarith)
  ⟨h.2.1, h.2.2.2 0 (by decide)⟩

/-- C23: from any starting state and after any sequence of `embeddings_bank_add` calls
(with any square-root function), `embeddings_bank_reset` leaves
`embeddings_bank_count() = 0`, all 128 components of `target_embedding` equal to 0 and
every component of every bank entry equal to 0. -/
theorem embeddings_bank_reset_clears {K : Type} [LinearOrderedField K] (sqrtf : K → K)
    (s0 : BankState K) (es : List (Nat → K)) :
    embeddings_bank_count (embeddings_bank_reset (bank_run sqrtf s0 es)) = 0 ∧
    (∀ i, i < 128 →
      (embeddings_bank_reset (bank_run sqrtf s0 es)).target_embedding i = 0) ∧
    (∀ n i, n < 10 → i < 128 →
      (embeddings_bank_reset (bank_run sqrtf s0 es)).embedding_bank n i = 0) := by
  refine ⟨rfl, ?_, ?_⟩
  · intro i hi
    simp [embeddings_bank_reset, embeddings_bank_init, EMBEDDING_SIZE, hi]
  · intro n i hn hi
    simp [embeddings_bank_reset, embeddings_bank_init, EMBEDDING_SIZE, EMBEDDING_BANK_SIZE,
      hn, hi]

/-- C24: a heartbeat with timestamp `t` sent on an initialised context (every transport
write succeeding) is the 15-byte packet `AA 07 00 AD 05`, the two bytes of the next
heartbeat sequence id, the four little-endian bytes of `t` (`D2 04 00 00` for 1234) and
the four CRC bytes; `AD` is `AA xor 07 xor 00`; a receiver that checks that the XOR of
the four header bytes is 0 accepts the packet, and reading the four body bytes as a
little-endian u32 recovers `t` exactly. -/
theorem heartbeat_round_trip (HAL_CRC_Calculate : List Nat → Nat)
    (ctx : enhanced_protocol_ctx_t) (t : Nat)
    (hinit : ctx.initialized = true) (ht : t < 2 ^ 32) :
    wire_bytes (Enhanced_PC_STREAM_SendHeartbeat HAL_CRC_Calculate (fun _ => true) t ctx).2
      = [0xAA, 0x07, 0x00, 0xAD, 0x05,
          (ctx.sequence_counters 5 + 1) % 65536 % 256,
          (ctx.sequence_counters 5 + 1) % 65536 / 256] ++
        le32_bytes t ++
        le32_bytes (calculate_crc32 HAL_CRC_Calculate (some (u32_bytes t)) 4 % 2 ^ 32) ∧
    (wire_bytes
      (Enhanced_PC_STREAM_SendHeartbeat HAL_CRC_Calculate (fun _ => true) t ctx).2).length
      = 15 ∧
    0xAA ^^^ 0x07 ^^^ 0x00 = 0xAD ∧
    le32_bytes 1234 = [0xD2, 0x04, 0x00, 0x00] ∧
    receiver_header_ok (wire_bytes
      (Enhanced_PC_STREAM_SendHeartbeat HAL_CRC_Calculate (fun _ => true) t ctx).2) = true ∧
    receiver_heartbeat_timestamp (wire_bytes
      (Enhanced_PC_STREAM_SendHeartbeat HAL_CRC_Calculate (fun _ => true) t ctx).2) = t := by
  have hmod : t % 2 ^ 32 = t := Nat.mod_eq_of_lt ht
  have hbody : buffer_bytes (some (u32_bytes t)) 4 = le32_bytes t := by
    simp [buffer_bytes, u32_bytes, le32_bytes, List.range_succ]
  have hw : wire_bytes
      (Enhanced_PC_STREAM_SendHeartbeat HAL_CRC_Calculate (fun _ => true) t ctx).2
      = [0xAA, 0x07, 0x00, 0xAD, 0x05,
          (ctx.sequence_counters 5 + 1) % 65536 % 256,
          (ctx.sequence_counters 5 + 1) % 65536 / 256] ++
        le32_bytes t ++
        le32_bytes (calculate_crc32 HAL_CRC_Calculate (some (u32_bytes t)) 4 % 2 ^ 32) := by
    unfold Enhanced_PC_STREAM_SendHeartbeat
    dsimp only
    rw [hmod, ROBUST_MSG_HEARTBEAT,
      (robust_send_message_packet HAL_CRC_Calculate ctx 5 (some (u32_bytes t)) 4 hinit
        (by decide) (by decide) (by decide)).2, hbody]
    rfl
  have hle : le32 (le32_bytes t) = t := by
    simp only [le32, le32_bytes, List.getD_cons_zero, List.getD_cons_succ]
    omega
  rw [hw]
  refine ⟨rfl, rfl, by decide, by decide, ?_, ?_⟩
  · simp [receiver_header_ok]
  unfold receiver_heartbeat_timestamp
  have hd : (List.drop 7 ([0xAA, 0x07, 0x00, 0xAD, 0x05,
          (ctx.sequence_counters 5 + 1) % 65536 % 256,
          (ctx.sequence_counters 5 + 1) % 65536 / 256] ++
        le32_bytes t ++
        le32_bytes (calculate_crc32 HAL_CRC_Calculate (some (u32_bytes t)) 4 % 2 ^ 32))).take 4
      = le32_bytes t := rfl
  rw [hd, hle]

/-- Witness for C24: the heartbeat with timestamp 1234 on the freshly initialised
context, with the CRC unit as `crc32_init` configures it. -/
theorem heartbeat_round_trip_witness :
    receiver_header_ok (wire_bytes
      (Enhanced_PC_STREAM_SendHeartbeat stm32_crc_words (fun _ => true) 1234
        protocol_ctx_initial).2) = true ∧
    receiver_heartbeat_timestamp (wire_bytes
      (Enhanced_PC_STREAM_SendHeartbeat stm32_crc_words (fun _ => true) 1234
        protocol_ctx_initial).2) = 1234 :=
  (heartbeat_round_trip stm32_crc_words protocol_ctx_initial 1234 rfl (by decide)).2.2.2.2

/-- C26: for detector tensors in which exactly one grid cell `p` has a heat score above
`conf_threshold`, and a library `qsort` that returns a permutation of its input,
`pd_pp_decode` produces exactly one box (the one decoded from cell `p`, in slot 0),
`pd_pp_nms` returns the count 1 and leaves that box and the keypoint memory unchanged,
and so `pd_model_pp_process` returns `AI_PD_POSTPROCESS_ERROR_NO` with exactly that one
box.  No condition is put on `iou_threshold`, and none is needed on `max_boxes_limit`
(the statement holds for every limit, so in particular for every limit that is at
least 1). -/
theorem pd_model_pp_process_single_cell {K : Type} [LinearOrderedField K] (expf : K → K)
    (qsort : (pd_pp_box_t K → pd_pp_box_t K → Int) → List (pd_pp_box_t K) →
      List (pd_pp_box_t K))
    (pInput : pd_model_pp_in_t K) (pOutput : pd_postprocess_out_t K)
    (param : pd_model_pp_static_param_t K) (p : Nat) (hp : p < 1024)
    (hone : ∀ q, q < 1024 → (pInput.pHeatmap q > param.conf_threshold ↔ q = p))
    (hperm : ∀ l, (qsort pd_pp_nms_comparator l).Perm l) :
    (pd_pp_decode expf pInput pOutput param).2.box_nb = 1 ∧
    box_list (pd_pp_decode expf pInput pOutput param).2
      = [pd_pp_decode_box expf pInput param (p / 32) (p % 32) (pOutput.pOutData 0)] ∧
    (pd_pp_nms qsort (pd_pp_decode expf pInput pOutput param).2 param).1 = 1 ∧
    (pd_model_pp_process expf qsort pInput pOutput param).1 = AI_PD_POSTPROCESS_ERROR_NO ∧
    (pd_model_pp_process expf qsort pInput pOutput param).2.box_nb = 1 ∧
    box_list (pd_model_pp_process expf qsort pInput pOutput param).2
      = box_list (pd_pp_decode expf pInput pOutput param).2 ∧
    (pd_model_pp_process expf qsort pInput pOutput param).2.kps
      = (pd_pp_decode expf pInput pOutput param).2.kps := by
  obtain ⟨hcount, hlist⟩ :=
    pd_pp_decode_single_cell expf pInput pOutput param p hp hone
  obtain ⟨hnms, hret, hnb⟩ :=
    pd_pp_nms_box_list qsort (pd_pp_decode expf pInput pOutput param).2 param (hperm _)
  have hsorted : qsort pd_pp_nms_comparator
      (box_list (pd_pp_decode expf pInput pOutput param).2)
      = box_list (pd_pp_decode expf pInput pOutput param).2 := by
    have h := hperm (box_list (pd_pp_decode expf pInput pOutput param).2)
    rw [hlist] at h ⊢
    exact List.perm_singleton.mp h
  rw [hsorted, hlist, greedy_nms_singleton] at hnms
  have hnb1 : (pd_pp_nms qsort (pd_pp_decode expf pInput pOutput param).2 param).2.box_nb
      = 1 := by
    rw [hnb, hnms]
    rfl
  have hproc : pd_model_pp_process expf qsort pInput pOutput param
      = (AI_PD_POSTPROCESS_ERROR_NO,
          (pd_pp_nms qsort (pd_pp_decode expf pInput pOutput param).2 param).2) := by
    unfold pd_model_pp_process
    simp [pd_pp_decode]
  refine ⟨hcount, hlist, ?_, ?_, ?_, ?_, ?_⟩
  · rw [hret, hnb1]
  · rw [hproc]
  · rw [hproc]
    exact hnb1
  · rw [hproc, hlist]
    exact hnms
  · rw [hproc]
    rfl

/-- Witness for C26: the single hot cell 37 with the application's parameters and
insertion sort as the library sort. -/
theorem pd_model_pp_process_single_cell_witness :
    (pd_model_pp_process (fun _ => 1) insertion_qsort single_cell_input
        decode_example_output decode_example_param).2.box_nb = 1 ∧
    box_list (pd_model_pp_process (fun _ => 1) insertion_qsort single_cell_input
        decode_example_output decode_example_param).2
      = box_list (pd_pp_decode (fun _ => 1) single_cell_input decode_example_output
          decode_example_param).2 :=
  have h := pd_model_pp_process_single_cell (fun _ => 1) insertion_qsort single_cell_input
    decode_example_output decode_example_param 37 (by decide)
    (by
      intro q _
      by_cases hq : q = 37
      · subst hq
        simp only [single_cell_input, decode_example_param]
        norm_num
      · simp only [single_cell_input, decode_example_param, if_neg hq]
        constructor
        · intro h
          norm_num at h
        · intro h
          exact absurd h hq)
    (fun l => (insertion_sort_contract l).1)
  ⟨h.2.2.2.2.1, h.2.2.2.2.2.1⟩

/-- C27: with `src_width >= 1`, `src_height >= 1` (and `src_stride >= src_width` for the
565 variant), for every destination pixel and every box centre, box size and eye
position, and whatever `atan2f`, `cosf` and `sinf` return, the clamped source
coordinates of `img_crop_align` and `img_crop_align565_to_888` satisfy
`0 <= src_x <= src_width - 1` and `0 <= src_y <= src_height - 1`; the sampled index
`(uint32_t)src_y * src_width + (uint32_t)src_x` (resp. with `src_stride`) is inside the
source image; and both functions run to completion without reading beyond the source
image (of `src_width * src_height * bpp` bytes, resp. `src_stride * src_height` 16-bit
pixels). -/
theorem img_crop_align_in_bounds {K : Type} [LinearOrderedField K] [FloorRing K]
    (atan2f : K → K → K) (cosf sinf : K → K)
    (src_width src_height src_stride dst_width dst_height bpp : Nat)
    (x_center y_center width height left_eye_x left_eye_y right_eye_x right_eye_y : K)
    (hw : 1 ≤ src_width) (hh : 1 ≤ src_height) (hs : src_width ≤ src_stride) :
    (∀ y x,
      0 ≤ (img_crop_align_coords atan2f cosf sinf src_width src_height dst_width dst_height
        x_center y_center width height left_eye_x left_eye_y right_eye_x right_eye_y
        y x).1 ∧
      (img_crop_align_coords atan2f cosf sinf src_width src_height dst_width dst_height
        x_center y_center width height left_eye_x left_eye_y right_eye_x right_eye_y
        y x).1 ≤ (src_width : K) - 1 ∧
      0 ≤ (img_crop_align_coords atan2f cosf sinf src_width src_height dst_width dst_height
        x_center y_center width height left_eye_x left_eye_y right_eye_x right_eye_y
        y x).2 ∧
      (img_crop_align_coords atan2f cosf sinf src_width src_height dst_width dst_height
        x_center y_center width height left_eye_x left_eye_y right_eye_x right_eye_y
        y x).2 ≤ (src_height : K) - 1 ∧
      float_to_u32 (img_crop_align_coords atan2f cosf sinf src_width src_height dst_width
          dst_height x_center y_center width height left_eye_x left_eye_y right_eye_x
          right_eye_y y x).2 * src_width +
        float_to_u32 (img_crop_align_coords atan2f cosf sinf src_width src_height dst_width
          dst_height x_center y_center width height left_eye_x left_eye_y right_eye_x
          right_eye_y y x).1 < src_width * src_height ∧
      float_to_u32 (img_crop_align_coords atan2f cosf sinf src_width src_height dst_width
          dst_height x_center y_center width height left_eye_x left_eye_y right_eye_x
          right_eye_y y x).2 * src_stride +
        float_to_u32 (img_crop_align_coords atan2f cosf sinf src_width src_height dst_width
          dst_height x_center y_center width height left_eye_x left_eye_y right_eye_x
          right_eye_y y x).1 < src_stride * src_height) ∧
    (∀ (src_image : List Nat) (dst_img : Nat → Nat),
      src_image.length = src_width * src_height * bpp →
      (img_crop_align atan2f cosf sinf src_image dst_img src_width src_height dst_width
        dst_height bpp x_center y_center width height left_eye_x left_eye_y right_eye_x
        right_eye_y).isSome = true) ∧
    (∀ (src_image : List Nat) (dst_img : Nat → Nat),
      src_image.length = src_stride * src_height →
      (img_crop_align565_to_888 atan2f cosf sinf src_image src_stride dst_img src_width
        src_height dst_width dst_height x_center y_center width height left_eye_x
        left_eye_y right_eye_x right_eye_y).isSome = true) := by
  have hidx : ∀ (a b s : Nat), a ≤ src_width - 1 → b ≤ src_height - 1 → src_width ≤ s →
      b * s + a < s * src_height := by
    intro a b s ha hb hsw
    have h1 : b * s + a < (b + 1) * s := by
      rw [Nat.add_mul, Nat.one_mul]
      omega
    have h2 : (b + 1) * s ≤ src_height * s := Nat.mul_le_mul_right s (by omega)
    rw [Nat.mul_comm s src_height]
    exact lt_of_lt_of_le h1 h2
  have hcw : ((src_width - 1 : Nat) : K) = (src_width : K) - 1 := by
    rw [Nat.cast_sub hw, Nat.cast_one]
  have hch : ((src_height - 1 : Nat) : K) = (src_height : K) - 1 := by
    rw [Nat.cast_sub hh, Nat.cast_one]
  refine ⟨?_, ?_, ?_⟩
  · intro y x
    obtain ⟨hx0, hx1, hy0, hy1, hfx, hfy⟩ :=
      img_crop_align_coords_bounds atan2f cosf sinf src_width src_height dst_width dst_height
        x_center y_center width height left_eye_x left_eye_y right_eye_x right_eye_y y x hw hh
    rw [hcw] at hx1
    rw [hch] at hy1
    exact ⟨hx0, hx1, hy0, hy1, hidx _ _ src_width hfx hfy (le_refl _), hidx _ _ src_stride hfx hfy hs⟩
  · intro src_image dst_img hlen
    unfold img_crop_align
    apply foldl_option_isSome
    intro d y
    apply foldl_option_isSome
    intro d2 x
    obtain ⟨-, -, -, -, hfx, hfy⟩ :=
      img_crop_align_coords_bounds atan2f cosf sinf src_width src_height dst_width dst_height
        x_center y_center width height left_eye_x left_eye_y right_eye_x right_eye_y y x hw hh
    have hi := hidx _ _ src_width hfx hfy (le_refl _)
    dsimp only
    rw [if_pos]
    · rfl
    · rw [hlen]
      have h1 : ((float_to_u32 (img_crop_align_coords atan2f cosf sinf src_width src_height
            dst_width dst_height x_center y_center width height left_eye_x left_eye_y
            right_eye_x right_eye_y y x).2 * src_width +
          float_to_u32 (img_crop_align_coords atan2f cosf sinf src_width src_height
            dst_width dst_height x_center y_center width height left_eye_x left_eye_y
            right_eye_x right_eye_y y x).1) % 2 ^ 32 * bpp) % 2 ^ 32
          ≤ (float_to_u32 (img_crop_align_coords atan2f cosf sinf src_width src_height
            dst_width dst_height x_center y_center width height left_eye_x left_eye_y
            right_eye_x right_eye_y y x).2 * src_width +
          float_to_u32 (img_crop_align_coords atan2f cosf sinf src_width src_height
            dst_width dst_height x_center y_center width height left_eye_x left_eye_y
            right_eye_x right_eye_y y x).1) * bpp :=
        le_trans (Nat.mod_le _ _) (Nat.mul_le_mul_right bpp (Nat.mod_le _ _))
      have h2 : (float_to_u32 (img_crop_align_coords atan2f cosf sinf src_width src_height
            dst_width dst_height x_center y_center width height left_eye_x left_eye_y
            right_eye_x right_eye_y y x).2 * src_width +
          float_to_u32 (img_crop_align_coords atan2f cosf sinf src_width src_height
            dst_width dst_height x_center y_center width height left_eye_x left_eye_y
            right_eye_x right_eye_y y x).1 + 1) * bpp ≤ src_width * src_height * bpp :=
        Nat.mul_le_mul_right bpp hi
      rw [Nat.add_mul, Nat.one_mul] at h2
      omega
  · intro src_image dst_img hlen
    unfold img_crop_align565_to_888
    apply foldl_option_isSome
    intro d y
    apply foldl_option_isSome
    intro d2 x
    obtain ⟨-, -, -, -, hfx, hfy⟩ :=
      img_crop_align_coords_bounds atan2f cosf sinf src_width src_height dst_width dst_height
        x_center y_center width height left_eye_x left_eye_y right_eye_x right_eye_y y x hw hh
    have hi := hidx _ _ src_stride hfx hfy hs
    have hlt : (float_to_u32 (img_crop_align_coords atan2f cosf sinf src_width src_height
          dst_width dst_height x_center y_center width height left_eye_x left_eye_y
          right_eye_x right_eye_y y x).2 * src_stride +
        float_to_u32 (img_crop_align_coords atan2f cosf sinf src_width src_height
          dst_width dst_height x_center y_center width height left_eye_x left_eye_y
          right_eye_x right_eye_y y x).1) % 2 ^ 32 < src_image.length := by
      rw [hlen]
      exact lt_of_le_of_lt (Nat.mod_le _ _) hi
    dsimp only
    rw [List.getElem?_eq_getElem hlt]
    rfl

/-- Witness for C27: a 4 x 3 source image, an 8 x 8 destination, no rotation, and a box
far outside the image, over the rationals. -/
theorem img_crop_align_in_bounds_witness :
    (img_crop_align (fun _ _ => (0 : ℚ)) (fun _ => 1) (fun _ => 0)
      (List.replicate 36 7) (fun _ => 0) 4 3 8 8 3 100 (-50) 20 20 0 0 1 0).isSome = true :=
  (img_crop_align_in_bounds (fun _ _ => (0 : ℚ)) (fun _ => 1) (fun _ => 0) 4 3 4 8 8 3
    100 (-50) 20 20 0 0 1 0 (by decide) (by decide) (by decide)).2.1
      (List.replicate 36 7) (fun _ => 0) (by decide)

/-- C29: for a detection list with `box_nb >= 1`, `Enhanced_PC_STREAM_SendDetections`
builds a body of length `8 + 28 * min(box_nb, 10)`: the little-endian `frame_id`, the
little-endian count field, and `min(box_nb, 10)` records of 28 bytes in input order,
each starting with `class_id = 0` and ending with `keypoint_count = 0`; it hands that
body to `robust_send_message` as a DETECTION_RESULTS message (so that on an initialised
context with a working transport the third block sent is exactly that body).  The count
field reads as `box_nb` itself, which differs from the number `min(box_nb, 10)` of
records exactly when `box_nb > 10`.  For `box_nb = 0` the function returns false,
changes nothing and sends nothing. -/
theorem send_detections_layout {K : Type} (HAL_CRC_Calculate : List Nat → Nat)
    (tx_ok : Nat → Bool) (float_bytes : K → Nat → Nat) (ctx : enhanced_protocol_ctx_t)
    (temp_buffer : Nat → Nat) (frame_id : Nat) (detections : pd_postprocess_out_t K)
    (hf : frame_id < 2 ^ 32) (hb : detections.box_nb < 2 ^ 32) :
    (1 ≤ detections.box_nb →
      (send_detections_body float_bytes temp_buffer frame_id detections).2
        = 8 + 28 * min detections.box_nb 10 ∧
      buffer_bytes (some (send_detections_body float_bytes temp_buffer frame_id detections).1)
          (send_detections_body float_bytes temp_buffer frame_id detections).2
        = le32_bytes frame_id ++ le32_bytes detections.box_nb ++
            (List.range (min detections.box_nb 10)).flatMap
              (fun i => detection_record float_bytes (detections.pOutData i)) ∧
      le32 (le32_bytes detections.box_nb) = detections.box_nb ∧
      (detections.box_nb ≠ min detections.box_nb 10 ↔ 10 < detections.box_nb) ∧
      Enhanced_PC_STREAM_SendDetections HAL_CRC_Calculate tx_ok float_bytes ctx temp_buffer
          frame_id (some detections)
        = ((robust_send_message HAL_CRC_Calculate tx_ok ctx ROBUST_MSG_DETECTION_RESULTS
              (some (send_detections_body float_bytes temp_buffer frame_id detections).1)
              (send_detections_body float_bytes temp_buffer frame_id detections).2).1,
            (robust_send_message HAL_CRC_Calculate tx_ok ctx ROBUST_MSG_DETECTION_RESULTS
              (some (send_detections_body float_bytes temp_buffer frame_id detections).1)
              (send_detections_body float_bytes temp_buffer frame_id detections).2).2.1,
            (send_detections_body float_bytes temp_buffer frame_id detections).1,
            (robust_send_message HAL_CRC_Calculate tx_ok ctx ROBUST_MSG_DETECTION_RESULTS
              (some (send_detections_body float_bytes temp_buffer frame_id detections).1)
              (send_detections_body float_bytes temp_buffer frame_id detections).2).2.2) ∧
      (ctx.initialized = true →
        (Enhanced_PC_STREAM_SendDetections HAL_CRC_Calculate (fun _ => true) float_bytes ctx
            temp_buffer frame_id (some detections)).1 = true ∧
        (Enhanced_PC_STREAM_SendDetections HAL_CRC_Calculate (fun _ => true) float_bytes ctx
            temp_buffer frame_id (some detections)).2.2.2[2]?
          = some (le32_bytes frame_id ++ le32_bytes detections.box_nb ++
              (List.range (min detections.box_nb 10)).flatMap
                (fun i => detection_record float_bytes (detections.pOutData i))))) ∧
    (detections.box_nb = 0 →
      Enhanced_PC_STREAM_SendDetections HAL_CRC_Calculate tx_ok float_bytes ctx temp_buffer
          frame_id (some detections) = (false, ctx, temp_buffer, [])) ∧
    (∀ box : pd_pp_box_t K,
      detection_record float_bytes box
        = [0, 0, 0, 0] ++ float_le_bytes float_bytes box.x_center ++
            float_le_bytes float_bytes box.y_center ++ float_le_bytes float_bytes box.width ++
            float_le_bytes float_bytes box.height ++ float_le_bytes float_bytes box.prob ++
            [0, 0, 0, 0]) := by
  have hbm : detections.box_nb % 2 ^ 32 = detections.box_nb := Nat.mod_eq_of_lt hb
  refine ⟨?_, ?_, fun _ => rfl⟩
  · intro hpos
    obtain ⟨hlen, hbytes⟩ :=
      send_detections_body_eq float_bytes temp_buffer frame_id detections hf hb
    have hcall : Enhanced_PC_STREAM_SendDetections HAL_CRC_Calculate tx_ok float_bytes ctx
          temp_buffer frame_id (some detections)
        = ((robust_send_message HAL_CRC_Calculate tx_ok ctx ROBUST_MSG_DETECTION_RESULTS
              (some (send_detections_body float_bytes temp_buffer frame_id detections).1)
              (send_detections_body float_bytes temp_buffer frame_id detections).2).1,
            (robust_send_message HAL_CRC_Calculate tx_ok ctx ROBUST_MSG_DETECTION_RESULTS
              (some (send_detections_body float_bytes temp_buffer frame_id detections).1)
              (send_detections_body float_bytes temp_buffer frame_id detections).2).2.1,
            (send_detections_body float_bytes temp_buffer frame_id detections).1,
            (robust_send_message HAL_CRC_Calculate tx_ok ctx ROBUST_MSG_DETECTION_RESULTS
              (some (send_detections_body float_bytes temp_buffer frame_id detections).1)
              (send_detections_body float_bytes temp_buffer frame_id detections).2).2.2) := by
      unfold Enhanced_PC_STREAM_SendDetections
      dsimp only
      rw [hbm, if_neg (by omega)]
    refine ⟨hlen, hbytes, ?_, ?_, hcall, ?_⟩
    · simp only [le32, le32_bytes, List.getD_cons_zero, List.getD_cons_succ]
      omega
    · omega
    · intro hinit
      have hall : ∀ (tx : Nat → Bool),
          Enhanced_PC_STREAM_SendDetections HAL_CRC_Calculate tx float_bytes ctx
            temp_buffer frame_id (some detections)
          = ((robust_send_message HAL_CRC_Calculate tx ctx ROBUST_MSG_DETECTION_RESULTS
              (some (send_detections_body float_bytes temp_buffer frame_id detections).1)
              (send_detections_body float_bytes temp_buffer frame_id detections).2).1,
            (robust_send_message HAL_CRC_Calculate tx ctx ROBUST_MSG_DETECTION_RESULTS
              (some (send_detections_body float_bytes temp_buffer frame_id detections).1)
              (send_detections_body float_bytes temp_buffer frame_id detections).2).2.1,
            (send_detections_body float_bytes temp_buffer frame_id detections).1,
            (robust_send_message HAL_CRC_Calculate tx ctx ROBUST_MSG_DETECTION_RESULTS
              (some (send_detections_body float_bytes temp_buffer frame_id detections).1)
              (send_detections_body float_bytes temp_buffer frame_id detections).2).2.2) := by
        intro tx
        unfold Enhanced_PC_STREAM_SendDetections
        dsimp only
        rw [hbm, if_neg (by omega)]
      obtain ⟨hok, hblocks⟩ := robust_send_message_packet HAL_CRC_Calculate ctx
        ROBUST_MSG_DETECTION_RESULTS
        (some (send_detections_body float_bytes temp_buffer frame_id detections).1)
        (send_detections_body float_bytes temp_buffer frame_id detections).2 hinit
        (by rw [hlen]; omega) (by rw [hlen]; omega) (by decide)
      rw [hall]
      refine ⟨hok, ?_⟩
      dsimp only
      rw [hblocks, ← hbytes]
      rfl
  · intro hzero
    unfold Enhanced_PC_STREAM_SendDetections
    dsimp only
    rw [hbm, if_pos hzero]

/-- Witness for C29: a list of 12 boxes gives a body of 8 + 28 * 10 bytes. -/
theorem send_detections_layout_witness :
    (send_detections_body (fun _ _ => 0) (fun _ => 0) 7 detections_example).2
      = 8 + 28 * min detections_example.box_nb 10 :=
  ((send_detections_layout (fun _ => 0) (fun _ => true) (fun _ _ => 0) protocol_ctx_initial
    (fun _ => 0) 7 detections_example (by decide) (by decide)).1 (by decide)).1

/-- C30: called with a frame and a tag, `Enhanced_PC_STREAM_SendFrame` computes
`out_w = min(width / s, 320)` and `out_h = min(height / s, 240)`, where `s = 1` exactly
when the tag is "ALN" and `s = 2` otherwise; whenever `12 + out_w * out_h > 65536 - 3`
it returns false, hands nothing to the transport (no FRAME_DATA packet, and no metrics
or detection packet either), and leaves the context with the error counter incremented
by one (modulo 2^32) and nothing else changed; in particular every frame with
`out_w = 320` and `out_h = 240` is rejected. -/
theorem send_frame_oversize_rejected {K : Type} (HAL_CRC_Calculate : List Nat → Nat)
    (tx_ok : Nat → Nat → Bool) (float_bytes : K → Nat → Nat)
    (ctx : enhanced_protocol_ctx_t) (temp_buffer stream_buffer : Nat → Nat)
    (frame : Nat → Nat) (width height bpp : Nat) (tag : List Nat)
    (detections : Option (pd_postprocess_out_t K)) (performance : Option (Nat → Nat))
    (hw : width < 2 ^ 32) (hh : height < 2 ^ 32) :
    (send_frame_scale_factor tag = 1 ↔ tag = [65, 76, 78]) ∧
    (tag ≠ [65, 76, 78] → send_frame_scale_factor tag = 2) ∧
    send_frame_output_size tag width height
      = (min (width / send_frame_scale_factor tag) 320,
          min (height / send_frame_scale_factor tag) 240) ∧
    (12 + (send_frame_output_size tag width height).1 *
        (send_frame_output_size tag width height).2 > 65536 - 3 →
      (Enhanced_PC_STREAM_SendFrame HAL_CRC_Calculate tx_ok float_bytes ctx temp_buffer
        stream_buffer (some frame) width height bpp (some tag) detections performance).1
        = false ∧
      (Enhanced_PC_STREAM_SendFrame HAL_CRC_Calculate tx_ok float_bytes ctx temp_buffer
        stream_buffer (some frame) width height bpp (some tag) detections
        performance).2.2.2.2 = [] ∧
      (Enhanced_PC_STREAM_SendFrame HAL_CRC_Calculate tx_ok float_bytes ctx temp_buffer
        stream_buffer (some frame) width height bpp (some tag) detections performance).2.1
        = { ctx with stats :=
              { ctx.stats with crc_errors := (ctx.stats.crc_errors + 1) % 2 ^ 32 } }) ∧
    ((send_frame_output_size tag width height).1 = 320 →
      (send_frame_output_size tag width height).2 = 240 →
      12 + (send_frame_output_size tag width height).1 *
        (send_frame_output_size tag width height).2 > 65536 - 3) := by
  have hwm : width % 2 ^ 32 = width := Nat.mod_eq_of_lt hw
  have hhm : height % 2 ^ 32 = height := Nat.mod_eq_of_lt hh
  have hsize : send_frame_output_size tag width height
      = (min (width / send_frame_scale_factor tag) 320,
          min (height / send_frame_scale_factor tag) 240) := by
    unfold send_frame_output_size
    dsimp only
    rw [hwm, hhm]
    congr 1
    · by_cases h : width / send_frame_scale_factor tag > 320
      · rw [if_pos h]
        omega
      · rw [if_neg h]
        omega
    · by_cases h : height / send_frame_scale_factor tag > 240
      · rw [if_pos h]
        omega
      · rw [if_neg h]
        omega
  have hle : (send_frame_output_size tag width height).1 ≤ 320 ∧
      (send_frame_output_size tag width height).2 ≤ 240 := by
    rw [hsize]
    exact ⟨Nat.min_le_right _ _, Nat.min_le_right _ _⟩
  refine ⟨?_, ?_, hsize, ?_, ?_⟩
  · unfold send_frame_scale_factor STREAM_SCALE
    by_cases h : tag = [65, 76, 78]
    · simp [h]
    · simp [h]
  · intro h
    unfold send_frame_scale_factor STREAM_SCALE
    simp [h]
  · intro hbig
    have hprod : (send_frame_output_size tag width height).1 *
        (send_frame_output_size tag width height).2 ≤ 320 * 240 :=
      Nat.mul_le_mul hle.1 hle.2
    have hraw : ((send_frame_output_size tag width height).1 *
        (send_frame_output_size tag width height).2) % 2 ^ 32
        = (send_frame_output_size tag width height).1 *
          (send_frame_output_size tag width height).2 := by
      apply Nat.mod_eq_of_lt
      omega
    have htot : (12 + (send_frame_output_size tag width height).1 *
        (send_frame_output_size tag width height).2) % 2 ^ 32
        = 12 + (send_frame_output_size tag width height).1 *
          (send_frame_output_size tag width height).2 := by
      apply Nat.mod_eq_of_lt
      omega
    have hcond : (12 + ((send_frame_output_size tag width height).1 *
        (send_frame_output_size tag width height).2) % 2 ^ 32) % 2 ^ 32
        > ROBUST_MAX_PAYLOAD_SIZE - ROBUST_MSG_HEADER_SIZE := by
      rw [hraw, htot]
      exact hbig
    unfold Enhanced_PC_STREAM_SendFrame
    dsimp only
    rw [if_pos hcond]
    exact ⟨rfl, rfl, rfl⟩
  · intro h1 h2
    rw [h1, h2]
    decide

/-- Witness for C30: a 640 x 480 frame tagged "JPG" is scaled to 320 x 240 and
rejected. -/
theorem send_frame_oversize_rejected_witness :
    (Enhanced_PC_STREAM_SendFrame (fun _ => 0) (fun _ _ => true) (fun (_ : ℚ) _ => 0)
      protocol_ctx_initial (fun _ => 0) (fun _ => 0) (some (fun _ => 0)) 640 480 2
      (some [74, 80, 71]) none none).1 = false :=
  ((send_frame_oversize_rejected (fun _ => 0) (fun _ _ => true) (fun (_ : ℚ) _ => 0)
    protocol_ctx_initial (fun _ => 0) (fun _ => 0) (fun _ => 0) 640 480 2 [74, 80, 71]
    none none (by decide) (by decide)).2.2.2.1 (by decide)).1

/-- C25: for every packet emitted on an initialised context with a body whose length is
a positive multiple of 4 (and within the size limit), the trailer holds the CRC32 that
`calculate_crc32` yields over the body, a value that depends on the body bytes only; and
replacing any single byte of the body by a different value changes that CRC32, so that
it no longer equals the value in the packet's trailer.  This holds with the standard
CRC-32 of the specification (`spec_crc32_words`) as the CRC function, and also with the
CRC unit as `crc32_init` configures it (`stm32_crc_words`). -/
theorem crc_detects_single_byte_change (ctx : enhanced_protocol_ctx_t) (message_type : Nat)
    (payload corrupted : Nat → Nat) (payload_size k : Nat)
    (hinit : ctx.initialized = true) (htype : message_type < 16)
    (hpos : 0 < payload_size) (hmul : payload_size % 4 = 0)
    (hsize : payload_size ≤ 65536 - 3) (hk : k < payload_size)
    (hsame : ∀ i, i ≠ k → corrupted i % 256 = payload i % 256)
    (hdiff : corrupted k % 256 ≠ payload k % 256) :
    ∀ crc, crc = spec_crc32_words ∨ crc = stm32_crc_words →
      calculate_crc32 crc (some corrupted) payload_size
        ≠ calculate_crc32 crc (some payload) payload_size ∧
      (∀ received : Nat → Nat, (∀ i, i < payload_size → received i % 256 = payload i % 256) →
        calculate_crc32 crc (some received) payload_size
          = calculate_crc32 crc (some payload) payload_size) ∧
      ∃ frame_header msg_header trailer,
        (robust_send_message crc (fun _ => true) ctx message_type (some payload)
          payload_size).2.2
          = [frame_header, msg_header, buffer_bytes (some payload) payload_size, trailer] ∧
        le32 trailer = calculate_crc32 crc (some payload) payload_size ∧
        calculate_crc32 crc (some corrupted) payload_size ≠ le32 trailer := by
  intro crc hcrc
  have hprop : ∀ (f g : Nat → Nat) (m : Nat), (∀ j, j ≠ m → f j = g j) →
      f m % 2 ^ 32 ≠ g m % 2 ^ 32 → ∀ n, m < n →
      crc ((List.range n).map f) ≠ crc ((List.range n).map g) ∧
      crc ((List.range n).map g) < 2 ^ 32 := by
    rcases hcrc with h | h
    · subst h
      exact spec_crc32_words_single_word
    · subst h
      exact stm32_crc_words_single_word
  obtain ⟨hne, hlt⟩ := calculate_crc32_single_byte crc hprop payload corrupted payload_size k
    hpos hk hsame hdiff
  obtain ⟨-, hblocks⟩ := robust_send_message_packet crc ctx message_type
    (some payload) payload_size hinit hpos hsize htype
  have htr : le32 (le32_bytes (calculate_crc32 crc (some payload) payload_size % 2 ^ 32))
      = calculate_crc32 crc (some payload) payload_size := by
    rw [Nat.mod_eq_of_lt hlt]
    exact le32_le32_bytes _ hlt
  refine ⟨hne, ?_, _, _, _, hblocks, htr, ?_⟩
  · intro received hrec
    exact calculate_crc32_body_only payload received payload_size hmul hrec crc
  · rw [htr]
    exact hne

/-- Witness for C25: the heartbeat body of timestamp 1234 with its first byte changed
from D2 to D3, under the standard CRC-32. -/
theorem crc_detects_single_byte_change_witness :
    calculate_crc32 spec_crc32_words (some (u32_bytes 1235)) 4
      ≠ calculate_crc32 spec_crc32_words (some (u32_bytes 1234)) 4 :=
  (crc_detects_single_byte_change protocol_ctx_initial 5 (u32_bytes 1234) (u32_bytes 1235)
    4 0 rfl (by decide) (by decide) (by decide) (by decide) (by decide)
    (by
      intro i hi
      unfold u32_bytes
      rw [if_neg hi, if_neg hi])
    (by decide) spec_crc32_words (Or.inl rfl)).1

/-- C28 (failing input): `app_postprocess_init` leaves the ten output slots with pairwise
distinct keypoint arrays, but one call of `pd_model_pp_process` breaks this.  In a first
frame cells 0, 1 and 5 are above the threshold and the box of cell 1 coincides with the
box of cell 0: `pd_pp_nms` drops the second box and copies the third box, with its
`pKps` pointer, from slot 2 into slot 1, so that slots 1 and 2 both point at keypoint
row 2.  In a second frame with three disjoint boxes (cells 0, 2 and 5) all three boxes
are reported; box 1 is the box of cell 2 (`x_center` 5/64), yet the keypoints its `pKps`
points at are those decoded from cell 5 (x = 5/32), which overwrote its own
(x = 1/16). -/
theorem pd_model_pp_process_aliases_keypoint_arrays :
    (∀ i j, i < 10 → j < 10 → i ≠ j →
      (postprocess_initial_output.pOutData i).pKps
        ≠ (postprocess_initial_output.pOutData j).pKps) ∧
    alias_output_one.box_nb = 2 ∧
    (alias_output_one.pOutData 1).pKps = (alias_output_one.pOutData 2).pKps ∧
    alias_output_two.box_nb = 3 ∧
    (alias_output_two.pOutData 1).x_center = 5 / 64 ∧
    (alias_output_two.pOutData 1).pKps = (alias_output_two.pOutData 2).pKps ∧
    alias_output_two.kps ((alias_output_two.pOutData 1).pKps)
      = pd_pp_decode_kp expf_zero alias_frame_two postprocess_param 0 5 0 ∧
    (pd_pp_decode_kp expf_zero alias_frame_two postprocess_param 0 5 0).x = 5 / 32 ∧
    (pd_pp_decode_kp expf_zero alias_frame_two postprocess_param 0 2 0).x = 1 / 16 := by
  obtain ⟨hnb1, -, hk1, hk2⟩ := alias_output_one_slots
  obtain ⟨hnb2, hb1, hb2, hkps⟩ := alias_output_two_keypoints
  have hinit := app_postprocess_init_slots postprocess_zero_output.pOutData
  have hD : ∀ i, i < 10 → (postprocess_initial_output.pOutData i).pKps = 5 * i := by
    intro i hi
    show ((app_postprocess_init postprocess_zero_output.pOutData).2 i).pKps = 5 * i
    rw [hinit]
    simp [hi]
  refine ⟨?_, hnb1, by rw [hk1, hk2], hnb2, ?_, ?_, ?_, ?_, ?_⟩
  · intro i j hi hj hij
    rw [hD i hi, hD j hj]
    omega
  · rw [hb1]
    norm_num [pd_pp_decode_box, alias_frame_two, expf_zero, postprocess_param,
      app_postprocess_init]
  · rw [hb1, hb2, pd_pp_decode_box_pKps, pd_pp_decode_box_pKps, hk1, hk2]
  · exact hkps 0 (by decide)
  · norm_num [pd_pp_decode_kp, alias_frame_two, expf_zero, postprocess_param,
      app_postprocess_init, AI_PD_MODEL_PP_NB_KEYPOINTS]
  · norm_num [pd_pp_decode_kp, alias_frame_two, expf_zero, postprocess_param,
      app_postprocess_init, AI_PD_MODEL_PP_NB_KEYPOINTS]

/-- C4 (failing input): a frame at tick 0 with `target_detected` is a verification (the
step lights the green LED2 only and records the timestamp 0), so on the next frame, at
tick 700 with neither target nor face detected, a prior verification exists and
700 - 0 < 1000: the transition of the specification is `HoldoverAfterLoss`.  The step
turns both LEDs off instead, with `led_timeout_active` false, as in `Idle`: the positive
signal is not driven. -/
theorem update_led_status_forgets_verification_at_tick_zero :
    (update_led_status 0 { g_app_ctx with target_detected := true }
        { LED1 := false, LED2 := false }).2 = { LED1 := false, LED2 := true } ∧
    (update_led_status 0 { g_app_ctx with target_detected := true }
        { LED1 := false, LED2 := false }).1.last_stable_verification_ts = 0 ∧
    spec_transition false false true (u32_sub 700 0) FACE_UNVERIFIED_LED_TIMEOUT_MS
      = VerificationState.HoldoverAfterLoss ∧
    (update_led_status 700
        { (update_led_status 0 { g_app_ctx with target_detected := true }
            { LED1 := false, LED2 := false }).1 with
          target_detected := false, face_detected := false }
        { LED1 := false, LED2 := true }).2 = { LED1 := false, LED2 := false } ∧
    (update_led_status 700
        { (update_led_status 0 { g_app_ctx with target_detected := true }
            { LED1 := false, LED2 := false }).1 with
          target_detected := false, face_detected := false }
        { LED1 := false, LED2 := true }).1.led_timeout_active = false := by
  decide

/-- C1 (counterexample): in binary32 arithmetic, on the empty bank, the embedding whose
first component is 2^-100 and whose other components are 0 has the L2 norm 2^-100, which
is not 0, yet `embeddings_bank_add` returns -1 and leaves the state as it was: the square
2^-200 underflows to 0, so the computed norm is 0. -/
theorem embeddings_bank_add_binary32_underflow :
    binary32_zero_state.bank_count = 0 ∧
    ∑ i in Finset.range 128, binary32_value (binary32_tiny_embedding i) ^ 2
      = (1 / 2 ^ 100) ^ 2 ∧
    embeddings_bank_add_ops binary32_ops binary32_zero_state binary32_tiny_embedding
      = (-1, binary32_zero_state) := by
  refine ⟨rfl, ?_, ?_⟩
  · rw [Finset.sum_eq_single 0]
    · norm_num [binary32_tiny_embedding, binary32_value]
    · intro i _ hi
      simp [binary32_tiny_embedding, binary32_value, hi]
    · intro h
      exact absurd (Finset.mem_range.mpr (by norm_num)) h
  · apply embeddings_bank_add_ops_fails
    right
    set_option maxRecDepth 1000000 in decide

/-- C11 (counterexample): in binary32 arithmetic, on the empty bank, the embedding `e`
whose first component is 2^100 and whose other components are 0 has the L2 norm 2^100,
which is not 0, and the first component of `e / ||e||` is 1; `embeddings_bank_add` returns
the new count 1, but the entry it stores in slot 0 has first component 0: the square 2^200
overflows, the computed norm is infinite, and `2^100 / inf` is 0. -/
theorem embeddings_bank_add_binary32_overflow :
    binary32_zero_state.bank_count = 0 ∧
    ∑ i in Finset.range 128, binary32_value (binary32_huge_embedding i) ^ 2
      = (2 ^ 100) ^ 2 ∧
    binary32_value (binary32_huge_embedding 0) / 2 ^ 100 = 1 ∧
    (embeddings_bank_add_ops binary32_ops binary32_zero_state binary32_huge_embedding).1 = 1 ∧
    (embeddings_bank_add_ops binary32_ops binary32_zero_state
      binary32_huge_embedding).2.bank_count = 1 ∧
    (embeddings_bank_add_ops binary32_ops binary32_zero_state
      binary32_huge_embedding).2.embedding_bank 0 0 = binary32.finite 0 ∧
    binary32_value (binary32.finite 0) = 0 := by
  refine ⟨rfl, ?_, ?_, ?_, ?_, ?_, ?_⟩
  · rw [Finset.sum_eq_single 0]
    · norm_num [binary32_huge_embedding, binary32_value]
    · intro i _ hi
      simp [binary32_huge_embedding, binary32_value, hi]
    · intro h
      exact absurd (Finset.mem_range.mpr (by norm_num)) h
  · norm_num [binary32_huge_embedding, binary32_value]
  · set_option maxRecDepth 1000000 in decide
  · set_option maxRecDepth 1000000 in decide
  · set_option maxRecDepth 1000000 in decide
  · simp [binary32_value]

/-- C20 (counterexample): in binary32 arithmetic, the box of width and height 2^-80 has
the positive area 2^-160, yet `pd_pp_compute_iou` of the box with itself is 0, not 1: the
area the code computes, 2^-80 * 2^-80, underflows to 0, and the code returns 0 for a
computed area that is not positive. -/
theorem pd_pp_compute_iou_binary32_underflow :
    0 < binary32_value binary32_small_box.width * binary32_value binary32_small_box.height ∧
    pd_pp_compute_iou_ops binary32_ops binary32_small_box binary32_small_box
      = binary32.finite 0 ∧
    binary32_ops.of_int 1 = binary32.finite (2 ^ 149) ∧
    pd_pp_compute_iou_ops binary32_ops binary32_small_box binary32_small_box
      ≠ binary32_ops.of_int 1 := by
  refine ⟨?_, ?_, ?_, ?_⟩
  · norm_num [binary32_small_box, binary32_value]
  · set_option maxRecDepth 1000000 in decide
  · set_option maxRecDepth 1000000 in decide
  · set_option maxRecDepth 1000000 in decide

/-- C22 (counterexample): in binary32 arithmetic, after `embeddings_bank_init`, adding the
single embedding `e` whose first component is 2^100 and whose other components are 0
returns the count 1, but leaves the first component of `target_embedding` at 0, whereas
the first component of `normalize(e) = e / ||e||` is 1: the computed norm of `e` is
infinite, the stored entry is the zero vector, and so is its mean. -/
theorem embeddings_bank_add_binary32_single_target :
    ∑ i in Finset.range 128, binary32_value (binary32_huge_embedding i) ^ 2
      = (2 ^ 100) ^ 2 ∧
    binary32_value (binary32_huge_embedding 0) / 2 ^ 100 = 1 ∧
    (embeddings_bank_add_ops binary32_ops
      (embeddings_bank_init_ops binary32_ops binary32_zero_state)
      binary32_huge_embedding).1 = 1 ∧
    (embeddings_bank_add_ops binary32_ops
      (embeddings_bank_init_ops binary32_ops binary32_zero_state)
      binary32_huge_embedding).2.target_embedding 0 = binary32.finite 0 ∧
    binary32_value (binary32.finite 0) = 0 := by
  refine ⟨?_, ?_, ?_, ?_, ?_⟩
  · rw [Finset.sum_eq_single 0]
    · norm_num [binary32_huge_embedding, binary32_value]
    · intro i _ hi
      simp [binary32_huge_embedding, binary32_value, hi]
    · intro h
      exact absurd (Finset.mem_range.mpr (by norm_num)) h
  · norm_num [binary32_huge_embedding, binary32_value]
  · set_option maxRecDepth 1000000 in decide
  · set_option maxRecDepth 1000000 in decide
  · simp [binary32_value]

/-- C1 (amended): for every `float` arithmetic, binary32 included, `embeddings_bank_add`
fails exactly when the bank already holds `EMBEDDING_BANK_SIZE = 10` entries or the norm
the code computes, `sqrtf` of the running sum of the 128 squared components, compares
equal to `0.f`: exactly in those cases it returns -1, and exactly in those cases the state
(entry count, every stored entry, `target_embedding`) is left as it was. -/
theorem embeddings_bank_add_fails_exactly {F : Type} (ops : float_ops F) (s : BankState F)
    (embedding : Nat → F) :
    ((embeddings_bank_add_ops ops s embedding).1 = -1 ↔
      (10 ≤ s.bank_count ∨
        ops.eq (ops.sqrtf (sum_squares_ops ops embedding 128)) ops.zero = true)) ∧
    ((embeddings_bank_add_ops ops s embedding).2 = s ↔
      (10 ≤ s.bank_count ∨
        ops.eq (ops.sqrtf (sum_squares_ops ops embedding 128)) ops.zero = true)) := by
  by_cases h : 10 ≤ s.bank_count ∨
      ops.eq (ops.sqrtf (sum_squares_ops ops embedding 128)) ops.zero = true
  · rw [embeddings_bank_add_ops_fails ops s embedding h]
    exact ⟨⟨fun _ => h, fun _ => rfl⟩, ⟨fun _ => h, fun _ => rfl⟩⟩
  · obtain ⟨hret, hcount⟩ := embeddings_bank_add_ops_count ops s embedding h
    constructor
    · constructor
      · intro h1
        rw [hret] at h1
        omega
      · intro h1
        exact absurd h1 h
    · constructor
      · intro h1
        rw [h1] at hcount
        omega
      · intro h1
        exact absurd h1 h

end FaceRec
